import Mathlib

/-!
# Knot DNS zone management core: changeset journal format, journal keys,
SOA timers and the SOA response dispatcher

Shallow embedding of `src/knot/server/zones.c` and
`src/libknot/updates/changesets.c`.

Conventions of the embedding.

* A C pointer that may be `NULL` is an `Option`.
* A C array with a separate element count is a `List` (the first `count`
  cells); the `*_allocated` capacity is kept as a separate field.
* Unsigned machine integers are `Nat` reduced explicitly modulo `2 ^ w`
  where the source computes in `w` bits; `int` is `Int`.
* `malloc` is taken to succeed; `assert`s of the source are preconditions
  and appear as hypotheses of the theorems that need them.
* RR-sets are values of an arbitrary type `α`; the record serialiser,
  deserialiser and accessors, which live outside the translated files, are
  parameters of the functions that call them.
-/

namespace Knot

/-! ## Return codes -/

/-- Return codes used by the translated functions (`KNOT_*` of libknot and
`KNOTD_*` of the daemon). -/
inductive Code where
  | KNOT_EOK
  | KNOT_ERROR
  | KNOT_EMALF
  | KNOT_ENOMEM
  | KNOT_EBADARG
  | KNOTD_EOK
  | KNOTD_EINVAL
  | KNOTD_ERROR
  | KNOTD_EMALF
  | KNOTD_ENOMEM
  | KNOT_EFEWDATA
  | KNOT_ECRC
  | KNOTD_EZONEINVAL
  | KNOTD_ENOENT
  | KNOT_ERANGE
  | KNOTD_EAGAIN
  deriving DecidableEq, Repr

/-- The two ok codes are the same number: a libknot result tested against
`KNOTD_EOK` (or the reverse) succeeds for either. -/
def Code.is_eok (c : Code) : Bool :=
  c = Code.KNOT_EOK || c = Code.KNOTD_EOK

/-- RR type code of SOA records (`KNOT_RRTYPE_SOA`). -/
def KNOT_RRTYPE_SOA : Nat := 6

/-! ## Changesets (`changesets.c`) -/

/-- The struct `knot_changeset_t`: one IXFR delta together with its flat
binary form. `data` is the allocated block (`allocated` bytes) of which the
first `size` bytes are used. -/
structure knot_changeset_t (α : Type) where
  soa_from : Option α
  remove : List α
  remove_allocated : Nat
  soa_to : Option α
  add : List α
  add_allocated : Nat
  data : Option (List Nat)
  size : Nat
  allocated : Nat
  serial_from : Nat
  serial_to : Nat
  flags : Nat
  deriving DecidableEq, Repr

/-- Growth step of the RR-set arrays (`KNOT_CHANGESET_RRSET_STEP`). -/
def KNOT_CHANGESET_RRSET_STEP : Nat := 5

/-- `knot_changeset_check_count`: the capacity after making room for `count`
cells (allocation is taken to succeed, so the result is always KNOT_EOK). -/
def knot_changeset_check_count (count allocated : Nat) : Nat :=
  if count ≤ allocated then allocated
  else
    let extra := (count - allocated) % KNOT_CHANGESET_RRSET_STEP
    let extra := (extra + 1) * KNOT_CHANGESET_RRSET_STEP
    allocated + extra

/-- `knot_changeset_add_rrset`: append `rrset` to the array, growing it
first. Returns the new array and capacity. -/
def knot_changeset_add_rrset {α : Type} (rrsets : List α) (allocated : Nat)
    (rrset : α) : Code × List α × Nat :=
  let allocated := knot_changeset_check_count (rrsets.length + 1) allocated
  (Code.KNOT_EOK, rrsets ++ [rrset], allocated)

/-- `knot_changeset_store_soa`: the pair (`*chg_soa`, `*chg_serial`) after the
call; the serial is stored into a `uint32_t`. -/
def knot_changeset_store_soa {α : Type} (knot_rdata_soa_serial : α → Int)
    (soa : α) : Option α × Nat :=
  (some soa, (knot_rdata_soa_serial soa % (2 ^ 32 : Int)).toNat)

/-! ## Changeset serialisation (`zones.c`) -/

/-- `zones_check_binary_size`: the block and its capacity after making room
for `required` bytes. A grown block is zero-filled and receives the first
`allocated` bytes of the old one. -/
def zones_check_binary_size (data : Option (List Nat)) (allocated required : Nat) :
    Option (List Nat) × Nat :=
  if required ≤ allocated then (data, allocated)
  else
    let new_data := List.replicate required 0
    let old := (data.getD []).take allocated
    (some (old ++ new_data.drop old.length), required)

/-- `zones_changeset_rrset_to_binary`: serialise `rrset` and append it to the
block at offset `size`. The triple is (`*data`, `*size`, `*allocated`). -/
def zones_changeset_rrset_to_binary {α : Type}
    (knot_zdump_rrset_serialize : Option α → Option (List Nat))
    (st : Option (List Nat) × Nat × Nat) (rrset : Option α) :
    Code × (Option (List Nat) × Nat × Nat) :=
  match knot_zdump_rrset_serialize rrset with
  | none => (Code.KNOT_ERROR, st)
  | some binary =>
    let actual_size := binary.length
    let (data, allocated) := zones_check_binary_size st.1 st.2.2 (st.2.1 + actual_size)
    -- memcpy(*data + *size, binary, actual_size)
    let data := data.map fun block =>
      block.take st.2.1 ++ binary ++ block.drop (st.2.1 + actual_size)
    (Code.KNOT_EOK, (data, st.2.1 + actual_size, allocated))

/-- The `for (j = 0; j < count; ++j)` loops of `zones_changesets_to_binary`:
serialise the RR-sets of one section in array order, stopping at the first
failure. -/
def rrsets_to_binary {α : Type}
    (knot_zdump_rrset_serialize : Option α → Option (List Nat)) :
    List α → Option (List Nat) × Nat × Nat → Code × (Option (List Nat) × Nat × Nat)
  | [], st => (Code.KNOT_EOK, st)
  | r :: rs, st =>
    match zones_changeset_rrset_to_binary knot_zdump_rrset_serialize st (some r) with
    | (Code.KNOT_EOK, st1) => rrsets_to_binary knot_zdump_rrset_serialize rs st1
    | (ret, st1) => (ret, st1)

/-- Store the triple (`data`, `size`, `allocated`) back into a changeset. -/
def knot_changeset_t.with_binary {α : Type} (ch : knot_changeset_t α)
    (st : Option (List Nat) × Nat × Nat) : knot_changeset_t α :=
  { ch with data := st.1, size := st.2.1, allocated := st.2.2 }

/-- On a failed serialisation the source frees the block and sets
`ch->data = NULL`; `size` and `allocated` keep their last values. -/
def knot_changeset_t.fail_binary {α : Type} (ch : knot_changeset_t α)
    (st : Option (List Nat) × Nat × Nat) : knot_changeset_t α :=
  { ch with data := none, size := st.2.1, allocated := st.2.2 }

/-- The body of the outer loop of `zones_changesets_to_binary` for one
changeset: origin SOA, removed RR-sets, new SOA, added RR-sets. -/
def changeset_to_binary {α : Type}
    (knot_zdump_rrset_serialize : Option α → Option (List Nat))
    (ch : knot_changeset_t α) : Code × knot_changeset_t α :=
  let st0 := (ch.data, ch.size, ch.allocated)
  -- 1) origin SOA
  match zones_changeset_rrset_to_binary knot_zdump_rrset_serialize st0 ch.soa_from with
  | (Code.KNOT_EOK, st1) =>
    -- 2) remove RRsets
    match rrsets_to_binary knot_zdump_rrset_serialize ch.remove st1 with
    | (Code.KNOT_EOK, st2) =>
      -- 3) new SOA
      match zones_changeset_rrset_to_binary knot_zdump_rrset_serialize st2 ch.soa_to with
      | (Code.KNOT_EOK, st3) =>
        -- 4) add RRsets
        match rrsets_to_binary knot_zdump_rrset_serialize ch.add st3 with
        | (Code.KNOT_EOK, st4) => (Code.KNOT_EOK, ch.with_binary st4)
        | (ret, st4) => (ret, ch.fail_binary st4)
      | (ret, st3) => (ret, ch.fail_binary st3)
    | (ret, st2) => (ret, ch.fail_binary st2)
  | (ret, st1) => (ret, ch.fail_binary st1)

/-- `zones_changesets_to_binary`: serialise every changeset of the batch in
order; the first failure returns its code and leaves the later changesets
untouched. -/
def zones_changesets_to_binary {α : Type}
    (knot_zdump_rrset_serialize : Option α → Option (List Nat)) :
    List (knot_changeset_t α) → Code × List (knot_changeset_t α)
  | [] => (Code.KNOT_EOK, [])
  | ch :: rest =>
    match changeset_to_binary knot_zdump_rrset_serialize ch with
    | (Code.KNOT_EOK, ch1) =>
      let (ret, rest1) := zones_changesets_to_binary knot_zdump_rrset_serialize rest
      (ret, ch1 :: rest1)
    | (ret, ch1) => (ret, ch1 :: rest)

/-! ## Changeset deserialisation (`zones.c`) -/

/-- The records' external interface used by the deserialiser:
`deserialize stream remaining` models
`knot_zload_rrset_deserialize(&rrset, stream, &remaining)`; it returns the
parsed RR-set and the new value of `remaining`, or `none` on a parse error. -/
structure rrset_ops (α : Type) where
  knot_zload_rrset_deserialize : List Nat → Nat → Option (α × Nat)
  knot_rrset_type : α → Nat
  knot_rdata_soa_serial : α → Int

/-- The `while (remaining > 0)` loop of `zones_changesets_from_binary`.
`fuel` bounds the number of iterations (`none` when it runs out);
`Except.error` is a `return` out of the function, with the return code and
the changeset as filled in so far, `Except.ok` is the normal exit of the loop
(end of buffer or `break`). The flag `in_remove_section` is carried unchanged
from one iteration to the next because the loop body never assigns it. -/
def from_binary_loop {α : Type} (ops : rrset_ops α) :
    Nat → Nat → Bool → knot_changeset_t α →
      Option (Except (Code × knot_changeset_t α) (knot_changeset_t α))
  | 0, _, _, _ => none
  | fuel + 1, remaining, in_remove_section, chs =>
    if remaining > 0 then
      -- Parse next RRSet.
      let stream := ((chs.data.getD []).take chs.size).drop (chs.size - remaining)
      match ops.knot_zload_rrset_deserialize stream remaining with
      | none => some (Except.error (Code.KNOT_EMALF, chs))
      | some (rrset, remaining1) =>
        -- Check for next SOA.
        if ops.knot_rrset_type rrset = KNOT_RRTYPE_SOA then
          if in_remove_section then
            -- Move to ADD section if in REMOVE.
            let (soa, serial) := knot_changeset_store_soa ops.knot_rdata_soa_serial rrset
            from_binary_loop ops fuel remaining1 in_remove_section
              { chs with soa_to := soa, serial_to := serial }
          else
            -- Final SOA.
            some (Except.ok chs)
        else
          if in_remove_section then
            -- Remove RRSets.
            match knot_changeset_add_rrset chs.remove chs.remove_allocated rrset with
            | (Code.KNOT_EOK, rrsets, allocated) =>
              from_binary_loop ops fuel remaining1 in_remove_section
                { chs with remove := rrsets, remove_allocated := allocated }
            | (ret, _, _) => some (Except.error (ret, chs))
          else
            -- Add RRSets.
            match knot_changeset_add_rrset chs.add chs.add_allocated rrset with
            | (Code.KNOT_EOK, rrsets, allocated) =>
              from_binary_loop ops fuel remaining1 in_remove_section
                { chs with add := rrsets, add_allocated := allocated }
            | (ret, _, _) => some (Except.error (ret, chs))
    else some (Except.ok chs)

/-- The body of the outer loop of `zones_changesets_from_binary` for one
changeset: read the initial SOA, then run the section loop with
`in_remove_section = 1`. -/
def changeset_from_binary {α : Type} (ops : rrset_ops α) (fuel : Nat)
    (chs : knot_changeset_t α) :
    Option (Except (Code × knot_changeset_t α) (knot_changeset_t α)) :=
  let remaining := chs.size
  match ops.knot_zload_rrset_deserialize ((chs.data.getD []).take chs.size) remaining with
  | none => some (Except.error (Code.KNOT_EMALF, chs))
  | some (rrset, remaining) =>
    let (soa, serial) := knot_changeset_store_soa ops.knot_rdata_soa_serial rrset
    from_binary_loop ops fuel remaining true
      { chs with soa_from := soa, serial_from := serial }

/-- `zones_changesets_from_binary`: parse every changeset of the batch from
its binary. The result is the return code and the batch as left by the call
(on an error the failing changeset keeps what was stored in it before the
`return`); `none` when `fuel` iterations do not finish a section loop. -/
def zones_changesets_from_binary {α : Type} (ops : rrset_ops α) (fuel : Nat) :
    List (knot_changeset_t α) → Option (Code × List (knot_changeset_t α))
  | [] => some (Code.KNOT_EOK, [])
  | chs :: rest =>
    match changeset_from_binary ops fuel chs with
    | none => none
    | some (Except.error (ret, chs1)) => some (ret, chs1 :: rest)
    | some (Except.ok chs1) =>
      match zones_changesets_from_binary ops fuel rest with
      | none => none
      | some (ret, rest1) => some (ret, chs1 :: rest1)

/-! ## A two-byte record codec used for concrete evaluation -/

/-- A record of the example codec: (type code, payload byte). For an SOA the
payload is its serial. -/
abbrev toy_rrset := Nat × Nat

/-- Serialiser of the example codec: a record is its two bytes; the `NULL`
record does not serialise. -/
def toy_serialize : Option toy_rrset → Option (List Nat)
  | none => none
  | some (t, v) => some [t, v]

/-- Deserialiser of the example codec: reads two bytes when at least two
remain. -/
def toy_deserialize : List Nat → Nat → Option (toy_rrset × Nat)
  | t :: v :: _, remaining => if 2 ≤ remaining then some ((t, v), remaining - 2) else none
  | _, _ => none

/-- The example codec as an `rrset_ops`. -/
def toy_ops : rrset_ops toy_rrset where
  knot_zload_rrset_deserialize := toy_deserialize
  knot_rrset_type := fun r => r.1
  knot_rdata_soa_serial := fun r => (r.2 : Int)

/-- A changeset that has not been serialised yet (`data == NULL`,
`size == 0`, zero-initialised capacities). -/
def knot_changeset_t.fresh {α : Type} (soa_from : Option α) (remove : List α)
    (soa_to : Option α) (add : List α) (serial_from serial_to : Nat) :
    knot_changeset_t α :=
  { soa_from := soa_from, remove := remove, remove_allocated := remove.length,
    soa_to := soa_to, add := add, add_allocated := add.length,
    data := none, size := 0, allocated := 0,
    serial_from := serial_from, serial_to := serial_to, flags := 0 }

/-- A changeset as it is before parsing: only the binary and the serials of
its journal key are set. -/
def knot_changeset_t.of_binary {α : Type} (data : List Nat) (serial_from serial_to : Nat) :
    knot_changeset_t α :=
  { soa_from := none, remove := [], remove_allocated := 0,
    soa_to := none, add := [], add_allocated := 0,
    data := some data, size := data.length, allocated := data.length,
    serial_from := serial_from, serial_to := serial_to, flags := 0 }

/-- Example changeset 1 → 2: removes the record (1, 10), adds the record
(1, 20). -/
def toy_changeset : knot_changeset_t toy_rrset :=
  knot_changeset_t.fresh (some (6, 1)) [(1, 10)] (some (6, 2)) [(1, 20)] 1 2

/-! ## Journal keys (`zones.c`) -/

/-- Conversion of a 64-bit unsigned value to `int`: the low 32 bits read as a
two's complement number. -/
def uint64_to_int (x : Nat) : Int :=
  let r : Nat := x % 2 ^ 32
  if r < 2 ^ 31 then (r : Int) else (r : Int) - 2 ^ 32

/-- `ixfrdb_key_from`: the 'serial_from' part of the key, its least
significant 32 bits. -/
def ixfrdb_key_from (k : Nat) : Nat :=
  (k &&& 0x00000000ffffffff) % 2 ^ 32

/-- `ixfrdb_key_to`: the 'serial_to' part of the key, its most significant
32 bits. -/
def ixfrdb_key_to (k : Nat) : Nat :=
  (k >>> 32) % 2 ^ 32

/-- `ixfrdb_key_to_cmp`: 64-bit difference of the key's target serial and
`sto`, returned as `int`. -/
def ixfrdb_key_to_cmp (k sto : Nat) : Int :=
  uint64_to_int ((ixfrdb_key_to k + (2 ^ 64 - sto % 2 ^ 64)) % 2 ^ 64)

/-- `ixfrdb_key_from_cmp`: 64-bit difference of the key's starting serial and
`sfrom`, returned as `int`. -/
def ixfrdb_key_from_cmp (k sfrom : Nat) : Int :=
  uint64_to_int ((ixfrdb_key_from k + (2 ^ 64 - sfrom % 2 ^ 64)) % 2 ^ 64)

/-- `ixfrdb_key_make`: the journal key of the serial pair, computed in 64
bits. -/
def ixfrdb_key_make (sfrom sto : Nat) : Nat :=
  (((sto % 2 ^ 32) <<< 32) % 2 ^ 64) ||| (sfrom % 2 ^ 32)

/-! ## Zones, zone data and SOA timers (`zones.c`) -/

/-- Owner names. -/
abbrev knot_dname_t := String

/-- Modelled from the spec: the apex SOA RDATA as the core reads it (serial
and the 32-bit timer fields); the accessors `knot_rdata_soa_*` live outside
the translated files. -/
structure knot_rdata_t where
  serial : Int
  refresh : Nat
  retry : Nat
  expire : Nat
  deriving DecidableEq, Repr

/-- Modelled from the spec: `knot_rdata_soa_refresh`, a `uint32_t`. -/
def knot_rdata_soa_refresh (rr : knot_rdata_t) : Nat := rr.refresh % 2 ^ 32

/-- Modelled from the spec: `knot_rdata_soa_retry`, a `uint32_t`. -/
def knot_rdata_soa_retry (rr : knot_rdata_t) : Nat := rr.retry % 2 ^ 32

/-- Modelled from the spec: `knot_rdata_soa_expire`, a `uint32_t`. -/
def knot_rdata_soa_expire (rr : knot_rdata_t) : Nat := rr.expire % 2 ^ 32

/-- Modelled from the spec: zone contents, an opaque snapshot exposing the
apex SOA. -/
structure knot_zone_contents_t where
  apex_soa : knot_rdata_t
  deriving DecidableEq, Repr

/-- A socket address; `family = -1` is the "unset" address of
`sockaddr_init(&addr, -1)`. -/
structure sockaddr_t where
  family : Int
  addr : Nat
  port : Nat
  deriving DecidableEq, Repr

/-- The `xfr_in` member of `zonedata_t`. `timer` and `expire` hold the
identifiers of the REFRESH/RETRY and EXPIRE events; `next_id` is an `int`
(it is compared with `(int)pkt_id` and printed with `%d`), `-1` meaning that
no SOA response is awaited. -/
structure xfr_in_t where
  master : sockaddr_t
  timer : Option Nat
  expire : Option Nat
  next_id : Int
  deriving DecidableEq, Repr

/-- A configured remote (`conf_remote_t` with its `conf_iface_t`): name,
address family, address and port. -/
structure conf_remote_t where
  name : String
  family : Int
  address : String
  port : Nat
  deriving DecidableEq, Repr

/-- The part of `conf_zone_t` the core reads: zone name, text zonefile and
compiled db paths, timeouts, and the `acl.xfr_in` and `acl.notify_out` remote
lists. -/
structure conf_zone_t where
  name : String
  dbsync_timeout : Int
  notify_retries : Int
  notify_timeout : Int
  file : String := ""
  db : String := ""
  acl_xfr_in : List conf_remote_t := []
  acl_notify_out : List conf_remote_t := []
  deriving DecidableEq, Repr

/-- The struct `zonedata_t`: per-zone mutable state. `notify_pending` lists
the pending NOTIFY events, `ixfr_dbsync` is the zonefile-sync event, `lock`
tells whether the per-zone mutex is held. -/
structure zonedata_t where
  conf : conf_zone_t
  xfr_in : xfr_in_t
  notify_pending : List Nat
  ixfr_dbsync : Option Nat
  zonefile_serial : Nat
  lock : Bool := false
  deriving DecidableEq, Repr

/-- The struct `knot_zone_t`: name, contents snapshot (absent for a stub),
zone data, and `version`, the timestamp of the compiled db file the zone was
loaded from. -/
structure knot_zone_t where
  name : knot_dname_t
  contents : Option knot_zone_contents_t
  data : Option zonedata_t
  version : Int := 0
  deriving DecidableEq, Repr

/-- `zonedata_init`, for the fields of `zonedata_t` kept in this record: the
return code and the zone with its freshly initialised data installed. The
data is installed before the zonefile serial is checked, so it is there on
the error return as well. -/
def zonedata_init (cfg : conf_zone_t) (zone : knot_zone_t) : Code × knot_zone_t :=
  let zd : zonedata_t :=
    { conf := cfg,
      xfr_in := { master := { family := -1, addr := 0, port := 0 },
                  timer := none, expire := none, next_id := -1 },
      notify_pending := [],
      ixfr_dbsync := none,
      zonefile_serial := 0 }
  match zone.contents with
  | some contents =>
    let serial := contents.apex_soa.serial
    let zd := { zd with zonefile_serial := (serial % (2 ^ 32 : Int)).toNat }
    if serial < 0 then (Code.KNOTD_EINVAL, { zone with data := some zd })
    else (Code.KNOTD_EOK, { zone with data := some zd })
  | none => (Code.KNOTD_EOK, { zone with data := some zd })

/-- `zones_soa_timer`: the SOA timer selected by `rr_func`, converted to
milliseconds in a `uint32_t`; 0 for a missing zone or missing contents. -/
def zones_soa_timer (zone : Option knot_zone_t) (rr_func : knot_rdata_t → Nat) : Nat :=
  match zone.bind (fun z => z.contents) with
  | none => 0
  | some zc =>
    let ret := rr_func zc.apex_soa % 2 ^ 32
    -- Convert to miliseconds.
    (ret * 1000) % 2 ^ 32

/-- `zones_soa_refresh`: REFRESH timer in milliseconds. -/
def zones_soa_refresh (zone : Option knot_zone_t) : Nat :=
  zones_soa_timer zone knot_rdata_soa_refresh

/-- `zones_soa_retry`: RETRY timer in milliseconds. -/
def zones_soa_retry (zone : Option knot_zone_t) : Nat :=
  zones_soa_timer zone knot_rdata_soa_retry

/-- `zones_soa_expire`: EXPIRE timer in milliseconds. -/
def zones_soa_expire (zone : Option knot_zone_t) : Nat :=
  zones_soa_timer zone knot_rdata_soa_expire

/-! ## External collaborators: scheduler and transfer engine -/

/-- The timer callbacks of the core. -/
inductive event_cb_t where
  | zones_refresh_ev
  | zones_expire_ev
  | zones_notify_send
  | zones_zonefile_sync_ev
  deriving DecidableEq, Repr

/-- Modelled from the spec: a scheduler event (`event_t`), identified by `id`,
with its callback, the zone it carries as `data`, and `timer`, the delay in
milliseconds it is armed with (`none` when it is not armed). -/
structure event_t where
  id : Nat
  cb : event_cb_t
  data : knot_dname_t
  timer : Option Nat
  deriving DecidableEq, Repr

/-- Modelled from the spec: the scheduler (`evsched_t`), the events that
exist and the next unused event identifier. -/
structure evsched_t where
  events : List event_t
  fresh : Nat
  deriving DecidableEq, Repr

/-- Modelled from the spec: `schedule_cb(sch, fn, data, ms) → event` creates
a new event armed at `dt` ms. -/
def evsched_schedule_cb (s : evsched_t) (cb : event_cb_t) (data : knot_dname_t)
    (dt : Nat) : evsched_t × Nat :=
  ({ events := s.events ++ [{ id := s.fresh, cb := cb, data := data, timer := some dt }],
     fresh := s.fresh + 1 }, s.fresh)

/-- Modelled from the spec: `schedule(sch, event, ms)` arms an existing event
at `dt` ms; a `NULL` event is refused and nothing changes. -/
def evsched_schedule (s : evsched_t) (ev : Option Nat) (dt : Nat) : evsched_t :=
  match ev with
  | none => s
  | some i =>
    { s with events := s.events.map fun e => if e.id = i then { e with timer := some dt } else e }

/-- Modelled from the spec: `cancel(sch, event)` disarms the event. -/
def evsched_cancel (s : evsched_t) (ev : Nat) : evsched_t :=
  { s with events := s.events.map fun e => if e.id = ev then { e with timer := none } else e }

/-- Modelled from the spec: `event_free(sch, event)` destroys the event
record. -/
def evsched_event_free (s : evsched_t) (ev : Nat) : evsched_t :=
  { s with events := s.events.filter fun e => e.id ≠ ev }

/-- The delay an event is armed with, `none` when the event does not exist or
is not armed. -/
def evsched_t.armed (s : evsched_t) (ev : Nat) : Option Nat :=
  (s.events.find? fun e => e.id = ev).bind fun e => e.timer

/-- Transfer request types used by the core. -/
inductive xfr_type_t where
  | XFR_TYPE_AIN
  | XFR_TYPE_IIN
  | XFR_TYPE_SOA
  | XFR_TYPE_NOTIFY
  deriving DecidableEq, Repr

/-- The fields of `knot_ns_xfr_t` the core fills in: `data` is the zone the
request is for, `send` tells whether `zones_send_cb` is installed. -/
structure knot_ns_xfr_t where
  type : xfr_type_t
  addr : sockaddr_t
  data : Option knot_dname_t
  send : Bool
  session : Int
  deriving DecidableEq, Repr

/-- Modelled from the spec: `xfr_engine.request(ctx)` enqueues the request
for the transfer workers and reports success. -/
def xfr_request (xfr_h : List knot_ns_xfr_t) (req : knot_ns_xfr_t) :
    Code × List knot_ns_xfr_t :=
  (Code.KNOTD_EOK, xfr_h ++ [req])

/-- The part of `server_t` the core uses: the scheduler and the queue of the
transfer engine. -/
structure server_t where
  sched : evsched_t
  xfr_h : List knot_ns_xfr_t
  deriving DecidableEq, Repr

/-- The struct `knot_nameserver_t`: the live zone database and the server
data (`knot_ns_get_data`). -/
structure knot_nameserver_t where
  zone_db : List knot_zone_t
  data : server_t
  deriving DecidableEq, Repr

/-- Modelled from the spec: `knot_zonedb_find_zone`, the zone database is a
mapping from owner name to zone record. -/
def knot_zonedb_find_zone (db : List knot_zone_t) (name : knot_dname_t) :
    Option knot_zone_t :=
  db.find? fun z => z.name = name

/-- Write a zone record modified through its pointer back into the
database: the first record of that name is replaced. -/
def zonedb_store : List knot_zone_t → knot_zone_t → List knot_zone_t
  | [], _ => []
  | z :: rest, zone => if z.name = zone.name then zone :: rest else z :: zonedb_store rest zone

/-- The fields of an inbound packet the dispatcher reads; `id` is a
`uint16_t`. -/
structure knot_packet_t where
  qtype : Nat
  qname : knot_dname_t
  id : Nat
  deriving DecidableEq, Repr

/-- `zones_transfer_to_use`: always a full transfer. -/
def zones_transfer_to_use (_zone : knot_zone_contents_t) : xfr_type_t :=
  xfr_type_t.XFR_TYPE_AIN

/-! ## Response dispatcher (`zones.c`) -/

/-- `zones_process_response`. The arguments are the five pointers of the
source (`rsize` carries the value `*rsize` has on entry);
`xfrin_transfer_needed` is the transfer engine's verdict. The result is the
return code, the name server and `*rsize` as left by the call. -/
def zones_process_response
    (xfrin_transfer_needed : knot_zone_contents_t → knot_packet_t → Int)
    (nameserver : Option knot_nameserver_t) (sfrom : Option sockaddr_t)
    (packet : Option knot_packet_t) (response_wire : Option (List Nat))
    (rsize : Option Nat) : Code × Option knot_nameserver_t × Option Nat :=
  match packet, rsize, nameserver, sfrom, response_wire with
  | some packet, some rsize, some ns, some sfrom, some _ =>
    if packet.qtype = KNOT_RRTYPE_SOA then
      -- No response.
      let rsize := 0
      -- Find matching zone and ID.
      let zone := knot_zonedb_find_zone ns.zone_db packet.qname
      match zone, zone.bind (fun z => z.data), zone.bind (fun z => z.contents) with
      | some zone, some zd, some contents =>
        -- Match ID against awaited.
        let pkt_id : Nat := packet.id % 2 ^ 16
        if (pkt_id : Int) ≠ zd.xfr_in.next_id then
          (Code.KNOTD_ERROR, some ns, some rsize)
        else
          -- Cancel EXPIRE timer.
          let sched := ns.data.sched
          let (sched, zd) :=
            match zd.xfr_in.expire with
            | some expire_ev =>
              (evsched_event_free (evsched_cancel sched expire_ev) expire_ev,
               { zd with xfr_in := { zd.xfr_in with expire := none } })
            | none => (sched, zd)
          -- Cancel REFRESH/RETRY timer.
          let refresh_ev := zd.xfr_in.timer
          let sched :=
            match refresh_ev with
            | some ev => evsched_cancel sched ev
            | none => sched
          let zone := { zone with data := some zd }
          -- Check SOA SERIAL.
          if xfrin_transfer_needed contents packet < 1 then
            -- Reinstall REFRESH timer.
            let ref_tmr : Nat := knot_rdata_soa_refresh contents.apex_soa
            let ref_tmr : Nat := (ref_tmr * 1000) % 2 ^ 32
            let sched := evsched_schedule sched refresh_ev ref_tmr
            (Code.KNOTD_EOK,
             some { zone_db := zonedb_store ns.zone_db zone,
                    data := { ns.data with sched := sched } },
             some rsize)
          else
            -- Prepare XFR client transfer.
            let xfr_req : knot_ns_xfr_t :=
              { type := zones_transfer_to_use contents, addr := sfrom,
                data := some zone.name, send := true, session := 0 }
            -- Enqueue XFR request.
            let (ret, xfr_h) := xfr_request ns.data.xfr_h xfr_req
            (ret,
             some { zone_db := zonedb_store ns.zone_db zone,
                    data := { sched := sched, xfr_h := xfr_h } },
             some rsize)
      | _, _, _ => (Code.KNOTD_EINVAL, some ns, some rsize)
    else (Code.KNOTD_EOK, some ns, some rsize)
  | _, _, _, _, _ => (Code.KNOTD_EINVAL, nameserver, rsize)

/-! ## REFRESH/RETRY event (`zones.c`) -/

/-- Outcomes of the external calls `zones_refresh_ev` makes to send the SOA
query: the result of `xfrin_create_soa_query`, the length and message id of the
query it built, the descriptor returned by `socket_create`, and the result of
`sendto`. -/
structure soa_query_env where
  create_ret : Code
  buflen : Nat
  qbuf_id : Nat
  sock : Int
  sendto_ret : Int
  deriving DecidableEq, Repr

/-- The `int` a handler returns: a return code or a plain number (the result
of `sendto`). -/
inductive ev_ret where
  | code (c : Code)
  | raw (n : Int)
  deriving DecidableEq, Repr

/-- `zones_refresh_ev`: the REFRESH/RETRY event `e` fires for `zone`
(`e->data`). The result is the return value, the zone and the server as left
by the handler. -/
def zones_refresh_ev (env : soa_query_env) (e : Nat) (zone : Option knot_zone_t)
    (srv : server_t) : ev_ret × Option knot_zone_t × server_t :=
  match zone with
  | none => (ev_ret.code Code.KNOTD_EINVAL, zone, srv)
  | some zone =>
    match zone.data with
    | none => (ev_ret.code Code.KNOTD_EINVAL, some zone, srv)
    | some zd =>
      -- Check for contents.
      match zone.contents with
      | none =>
        -- Bootstrap from XFR master.
        let xfr_req : knot_ns_xfr_t :=
          { type := xfr_type_t.XFR_TYPE_AIN, addr := zd.xfr_in.master,
            data := some zone.name, send := true, session := 0 }
        -- Enqueue XFR request.
        let (ret, xfr_h) := xfr_request srv.xfr_h xfr_req
        (ev_ret.code ret, some zone, { srv with xfr_h := xfr_h })
      | some _ =>
        -- Create query.
        let (ret, zd, xfr_h) :=
          if env.create_ret = Code.KNOTD_EOK then
            let master := zd.xfr_in.master
            -- Create socket on random port.
            let sock := env.sock
            -- Send query.
            let ret : Int := if sock > -1 then env.sendto_ret else -1
            -- Store ID of the awaited response.
            let zd :=
              if (ret % (2 ^ 64 : Int)).toNat = env.buflen then
                { zd with xfr_in := { zd.xfr_in with next_id := ((env.qbuf_id % 2 ^ 16 : Nat) : Int) } }
              else zd
            -- Watch socket.
            let req : knot_ns_xfr_t :=
              { type := xfr_type_t.XFR_TYPE_SOA, addr := master,
                data := none, send := false, session := sock }
            (ev_ret.raw ret, zd, (xfr_request srv.xfr_h req).2)
          else (ev_ret.code env.create_ret, zd, srv.xfr_h)
        -- Schedule EXPIRE timer on first attempt.
        let (zd, sched) :=
          match zd.xfr_in.expire with
          | none =>
            let expire_tmr := zones_soa_expire (some zone)
            let (sched, ev) := evsched_schedule_cb srv.sched event_cb_t.zones_expire_ev
              zone.name expire_tmr
            ({ zd with xfr_in := { zd.xfr_in with expire := some ev } }, sched)
          | some _ => (zd, srv.sched)
        -- Reschedule as RETRY timer.
        let sched := evsched_schedule sched (some e) (zones_soa_retry (some zone))
        (ret, some { zone with data := some zd }, { sched := sched, xfr_h := xfr_h })

/-! ## Specification-side definitions for the changeset format -/

/-- A (`data`, `size`, `allocated`) triple whose block is exactly full: the
state the serialiser keeps between two appended records. -/
def binary_full (st : Option (List Nat) × Nat × Nat) : Prop :=
  st.2.1 = st.2.2 ∧ (st.1.getD []).length = st.2.2

/-- The bytes a record serialises to (nothing when it does not serialise). -/
def ser_bytes {α : Type} (ser : Option α → Option (List Nat)) (r : Option α) : List Nat :=
  (ser r).getD []

/-- The binary form as the format prescribes it: `soa_from`, then all
removals in insertion order, then `soa_to`, then all additions in insertion
order. -/
def spec_changeset_binary {α : Type} (ser : Option α → Option (List Nat))
    (ch : knot_changeset_t α) : List Nat :=
  ser_bytes ser ch.soa_from
    ++ (ch.remove.map fun r => ser_bytes ser (some r)).flatten
    ++ ser_bytes ser ch.soa_to
    ++ (ch.add.map fun r => ser_bytes ser (some r)).flatten

/-- Every record of the changeset serialises successfully. -/
def serialisable {α : Type} (ser : Option α → Option (List Nat))
    (ch : knot_changeset_t α) : Prop :=
  (ser ch.soa_from).isSome ∧ (∀ r ∈ ch.remove, (ser (some r)).isSome) ∧
  (ser ch.soa_to).isSome ∧ (∀ r ∈ ch.add, (ser (some r)).isSome)

/-- The entry state `zones_changesets_to_binary` asserts for a changeset
(`data == NULL`, `size == 0`) on a zero-initialised record. -/
def unserialised {α : Type} (ch : knot_changeset_t α) : Prop :=
  ch.data = none ∧ ch.size = 0 ∧ ch.allocated = 0

/-- Serialise a changeset, load its binary the way `zones_load_changesets`
sets a changeset up from a journal entry, and parse it. -/
def changeset_roundtrip {α : Type} (ser : Option α → Option (List Nat))
    (ops : rrset_ops α) (fuel : Nat) (c : knot_changeset_t α) :
    Option (Code × List (knot_changeset_t α)) :=
  match zones_changesets_to_binary ser [c] with
  | (Code.KNOT_EOK, out) =>
    zones_changesets_from_binary ops fuel
      (out.map fun ch =>
        knot_changeset_t.of_binary ((ch.data.getD []).take ch.size) ch.serial_from ch.serial_to)
  | (ret, out) => some (ret, out)

/-- Parse a stored binary and serialise the parsed changeset again; the
result is the return code and the binaries produced. -/
def binary_roundtrip {α : Type} (ser : Option α → Option (List Nat))
    (ops : rrset_ops α) (fuel : Nat) (b : List Nat) (serial_from serial_to : Nat) :
    Option (Code × List (Option (List Nat))) :=
  match zones_changesets_from_binary ops fuel
      [knot_changeset_t.of_binary b serial_from serial_to] with
  | none => none
  | some (Code.KNOT_EOK, parsed) =>
    let out := zones_changesets_to_binary ser
      (parsed.map fun ch =>
        knot_changeset_t.fresh ch.soa_from ch.remove ch.soa_to ch.add ch.serial_from ch.serial_to)
    some (out.1, out.2.map fun ch => ch.data)
  | some (ret, _) => some (ret, [])

/-- The records of a buffer, read sequentially from its start (`none` when a
record does not parse or `fuel` runs out). -/
def spec_records {α : Type} (ops : rrset_ops α) :
    Nat → List Nat → Nat → Option (List α)
  | 0, _, _ => none
  | fuel + 1, data, remaining =>
    if remaining > 0 then
      match ops.knot_zload_rrset_deserialize (data.drop (data.length - remaining)) remaining with
      | none => none
      | some (r, remaining1) => (spec_records ops fuel data remaining1).map fun rs => r :: rs
    else some []

/-- The four parts of a changeset as the format description names them. -/
structure spec_sections (α : Type) where
  soa_from : α
  removals : List α
  soa_to : Option α
  additions : List α
  deriving DecidableEq, Repr

/-- The three-section reference parser, following the format description:
the first record is `soa_from`; the following records up to the next SOA are
the removals; that SOA is `soa_to`; the records after it up to the next SOA
or the end are the additions; a third SOA ends parsing. -/
def spec_three_sections {α : Type} (is_soa : α → Bool) : List α → Option (spec_sections α)
  | [] => none
  | soa_from :: rest =>
    let removals := rest.takeWhile fun r => !is_soa r
    match rest.dropWhile fun r => !is_soa r with
    | [] => some { soa_from := soa_from, removals := removals, soa_to := none, additions := [] }
    | soa_to :: rest2 =>
      some { soa_from := soa_from, removals := removals, soa_to := some soa_to,
             additions := rest2.takeWhile fun r => !is_soa r }

/-- The reference parser applied to a buffer. -/
def spec_parse_buffer {α : Type} (ops : rrset_ops α) (fuel : Nat) (data : List Nat) :
    Option (spec_sections α) :=
  (spec_records ops fuel data data.length).bind
    (spec_three_sections fun r => decide (ops.knot_rrset_type r = KNOT_RRTYPE_SOA))

/-- The four parts of a parsed changeset, for comparison with the reference
parser. -/
def knot_changeset_t.sections {α : Type} (ch : knot_changeset_t α) :
    Option α × List α × Option α × List α :=
  (ch.soa_from, ch.remove, ch.soa_to, ch.add)

/-- The binary of `toy_changeset`. -/
def toy_buffer : List Nat := [6, 1, 1, 10, 6, 2, 1, 20]

/-- A buffer with a third SOA followed by one more record. -/
def toy_buffer_three_soa : List Nat := [6, 1, 1, 10, 6, 2, 1, 20, 6, 3, 1, 30]

/-- What `zones_changesets_from_binary` makes of `toy_buffer`. -/
def toy_parsed : knot_changeset_t toy_rrset :=
  { soa_from := some (6, 1), remove := [(1, 10), (1, 20)], remove_allocated := 10,
    soa_to := some (6, 2), add := [], add_allocated := 0,
    data := some toy_buffer, size := 8, allocated := 8,
    serial_from := 1, serial_to := 2, flags := 0 }

/-! ## Specification-side definitions for the dispatcher and the timers -/

/-- The acceptance condition of the dispatcher for an SOA response: the zone
named by the packet exists, has zone data and contents, and the packet id is
the awaited one. -/
def soa_response_awaited (ns : knot_nameserver_t) (packet : knot_packet_t) : Prop :=
  ∃ zone zd contents, knot_zonedb_find_zone ns.zone_db packet.qname = some zone ∧
    zone.data = some zd ∧ zone.contents = some contents ∧
    (packet.id : Int) = zd.xfr_in.next_id

/-- The bootstrap request of `zones_refresh_ev`: a full transfer of the zone
from its master, sent through `zones_send_cb`. -/
def bootstrap_request (zone : knot_zone_t) (zd : zonedata_t) : knot_ns_xfr_t :=
  { type := xfr_type_t.XFR_TYPE_AIN, addr := zd.xfr_in.master,
    data := some zone.name, send := true, session := 0 }

/-- Example apex SOA at serial 10 with the given timers (seconds). -/
def example_soa (refresh retry expire : Nat) : knot_rdata_t :=
  { serial := 10, refresh := refresh, retry := retry, expire := expire }

/-- Example master address 192.0.2.1, port 53. -/
def example_master : sockaddr_t := { family := 2, addr := 3221225985, port := 53 }

/-- Example zone data of zone `example.`: REFRESH event 1, EXPIRE event 2. -/
def example_zonedata (next_id : Int) : zonedata_t :=
  { conf := { name := "example.", dbsync_timeout := 60, notify_retries := 5,
              notify_timeout := 60 },
    xfr_in := { master := example_master, timer := some 1, expire := some 2,
                next_id := next_id },
    notify_pending := [], ixfr_dbsync := none, zonefile_serial := 10 }

/-- Example zone `example.` with contents. -/
def example_zone (soa : knot_rdata_t) (next_id : Int) : knot_zone_t :=
  { name := "example.", contents := some { apex_soa := soa },
    data := some (example_zonedata next_id) }

/-- Example stub zone `example.`: no contents, no timers, nothing awaited. -/
def example_stub : knot_zone_t :=
  { name := "example.", contents := none,
    data := some
      { conf := { name := "example.", dbsync_timeout := 60, notify_retries := 5,
                  notify_timeout := 60 },
        xfr_in := { master := example_master, timer := some 1, expire := none,
                    next_id := -1 },
        notify_pending := [], ixfr_dbsync := none, zonefile_serial := 0 } }

/-- Example scheduler: REFRESH event 1 and EXPIRE event 2 of `example.`, both
armed. -/
def example_sched : evsched_t :=
  { events := [{ id := 1, cb := event_cb_t.zones_refresh_ev, data := "example.",
                 timer := some 600000 },
               { id := 2, cb := event_cb_t.zones_expire_ev, data := "example.",
                 timer := some 86400000 }],
    fresh := 3 }

/-- Example name server holding the example zone. -/
def example_ns (soa : knot_rdata_t) (next_id : Int) : knot_nameserver_t :=
  { zone_db := [example_zone soa next_id],
    data := { sched := example_sched, xfr_h := [] } }

/-- Example SOA response for `example.` with the given message id. -/
def example_packet (id : Nat) : knot_packet_t :=
  { qtype := KNOT_RRTYPE_SOA, qname := "example.", id := id }

/-- Example outcome of the external calls of `zones_refresh_ev`. -/
def example_env : soa_query_env :=
  { create_ret := Code.KNOTD_EOK, buflen := 25, qbuf_id := 7, sock := 5, sendto_ret := 25 }

/-! ## EXPIRE event (`zones.c`) -/

/-- Modelled from the spec: `knot_zonedb_remove_zone` removes the record of
that name from the mapping and returns it (`NULL` when there is none). -/
def knot_zonedb_remove_zone :
    List knot_zone_t → knot_dname_t → Option knot_zone_t × List knot_zone_t
  | [], _ => (none, [])
  | z :: rest, name =>
    if z.name = name then (some z, rest)
    else ((knot_zonedb_remove_zone rest name).1, z :: (knot_zonedb_remove_zone rest name).2)

/-- `zones_expire_ev`: the EXPIRE event `e` fires for `zone` (`e->data`); `ns`
is the name server reached through `zd->server`, whose scheduler is
`e->parent`. The zone is modified through its pointer, so the record of its
name in the database is the modified zone (`assert(old_zone == zone)`). The
result is the return value, the zone as left by the handler, the name server,
and the zone handed to `knot_zone_deep_free`. -/
def zones_expire_ev (e : Nat) (zone : Option knot_zone_t) (ns : knot_nameserver_t) :
    ev_ret × Option knot_zone_t × knot_nameserver_t × Option knot_zone_t :=
  match zone with
  | none => (ev_ret.code Code.KNOTD_EINVAL, zone, ns, none)
  | some zone =>
    match zone.data with
    | none => (ev_ret.code Code.KNOTD_EINVAL, some zone, ns, none)
    | some zd =>
      -- Cancel pending timers.
      let (sched, zd) :=
        match zd.xfr_in.timer with
        | some timer =>
          let sched := evsched_cancel ns.data.sched timer
          match zd.xfr_in.timer with
          | some timer =>
            (evsched_event_free sched timer,
             { zd with xfr_in := { zd.xfr_in with timer := none } })
          | none => (sched, zd)
        | none => (ns.data.sched, zd)
      -- Delete self.
      let sched := evsched_event_free sched e
      let zd := { zd with xfr_in := { zd.xfr_in with expire := none, next_id := -1 } }
      let zone := { zone with data := some zd }
      let removed := knot_zonedb_remove_zone (zonedb_store ns.zone_db zone) zone.name
      let ns1 : knot_nameserver_t :=
        { zone_db := removed.2, data := { ns.data with sched := sched } }
      match removed.1 with
      | none => (ev_ret.raw 0, some zone, ns1, none)
      | some old_zone => (ev_ret.raw 0, some zone, ns1, some old_zone)

/-- The zone database is a mapping: at most one record per owner name. -/
def zonedb_wf (db : List knot_zone_t) : Prop :=
  (db.map fun z => z.name).Nodup

/-- The number of scheduler events with callback `cb` that belong to the zone
`name`. -/
def evsched_t.count_for (s : evsched_t) (cb : event_cb_t) (name : knot_dname_t) : Nat :=
  (s.events.filter fun ev => decide (ev.cb = cb ∧ ev.data = name)).length

/-- Example zone data of a zone that has not sent an SOA query yet: REFRESH
event 1, no EXPIRE event. -/
def example_zonedata_idle : zonedata_t :=
  { conf := { name := "example.", dbsync_timeout := 60, notify_retries := 5,
              notify_timeout := 60 },
    xfr_in := { master := example_master, timer := some 1, expire := none,
                next_id := -1 },
    notify_pending := [], ixfr_dbsync := none, zonefile_serial := 10 }

/-- Example scheduler holding only the REFRESH event 1 of `example.`. -/
def example_sched_idle : evsched_t :=
  { events := [{ id := 1, cb := event_cb_t.zones_refresh_ev, data := "example.",
                 timer := none }],
    fresh := 3 }

/-- A second example zone, `example.org.`, without timers. -/
def example_zone_org : knot_zone_t :=
  { name := "example.org.", contents := some { apex_soa := example_soa 3600 600 86400 },
    data := some
      { conf := { name := "example.org.", dbsync_timeout := 60, notify_retries := 5,
                  notify_timeout := 60 },
        xfr_in := { master := { family := -1, addr := 0, port := 0 }, timer := none,
                    expire := none, next_id := -1 },
        notify_pending := [], ixfr_dbsync := none, zonefile_serial := 10 } }

/-! ## NOTIFY events (`zones.c`) -/

/-- The struct `notify_ev_t` as its use sites show it: `id` stands for the
address of the object, which identifies its node in `notify_pending`;
`retries`, `msgid` and `timeout` are `int`s; `timer` is the scheduler event
of the NOTIFY; `zone` names the zone (`NULL` when unset). -/
structure notify_ev_t where
  id : Nat
  retries : Int
  msgid : Int
  addr : sockaddr_t
  timer : Option Nat
  zone : Option knot_dname_t
  timeout : Int
  deriving DecidableEq, Repr

/-- `rem_node`: unlink a node from the list it is in. -/
def rem_node (l : List Nat) (n : Nat) : List Nat := l.erase n

/-- `add_tail`: link a node at the end of a list. -/
def add_tail (l : List Nat) (n : Nat) : List Nat := l ++ [n]

/-- Conversion of an `int` to the `uint32_t` delay the scheduler takes. -/
def int_to_uint32 (x : Int) : Nat := (x % (2 ^ 32 : Int)).toNat

/-- `zones_notify_send`: the NOTIFY timer event `e` fires for the notify
event `ev` (`e->data`). `zone` is the zone `ev->zone` points to, `xfr_h` the
queue of the transfer engine reached through `zd->server` (`none` when
`zd->server` is `NULL`), `sched` the scheduler `e->parent`. The outcomes of
building and sending the query are in `env`. The result is `none` when the
source dereferences a `NULL` zone data pointer; otherwise the return value,
the notify event (`none` once freed), the zone, the queue and the scheduler
as left by the handler. -/
def zones_notify_send (env : soa_query_env) (e : Nat) (ev : notify_ev_t)
    (zone : Option knot_zone_t) (xfr_h : Option (List knot_ns_xfr_t)) (sched : evsched_t) :
    Option (ev_ret × Option notify_ev_t × Option knot_zone_t ×
      Option (List knot_ns_xfr_t) × evsched_t) :=
  match zone with
  | none =>
    some (ev_ret.code Code.KNOTD_EINVAL, none, none, xfr_h, evsched_event_free sched e)
  | some zone =>
    -- Reduce number of available retries.
    let ev : notify_ev_t := { ev with retries := ev.retries - 1 }
    -- Check number of retries.
    if ev.retries < (0 : Int) then
      match zone.data with
      | none => none
      | some zd =>
        let zd := { zd with lock := true }
        let zd := { zd with notify_pending := rem_node zd.notify_pending ev.id }
        let sched := evsched_event_free sched e
        let zd := { zd with lock := false }
        some (ev_ret.code Code.KNOTD_EMALF, none, some { zone with data := some zd },
              xfr_h, sched)
    else
      -- Create query.
      let ret := env.create_ret
      if ret = Code.KNOTD_EOK then
        match zone.data with
        | none => none
        | some _ =>
          match xfr_h with
          | some queue =>
            -- Create socket on random port.
            let sock := env.sock
            -- Send query.
            let ret : Int := if sock > -1 then env.sendto_ret else -1
            -- Store ID of the awaited response.
            let ev :=
              if (ret % (2 ^ 64 : Int)).toNat = env.buflen then
                { ev with msgid := ((env.qbuf_id % 2 ^ 16 : Nat) : Int) }
              else ev
            -- Watch socket.
            let req : knot_ns_xfr_t :=
              { type := xfr_type_t.XFR_TYPE_NOTIFY,
                addr := { family := ev.addr.family, addr := 0, port := 0 },
                data := none, send := false, session := sock }
            let queue := (xfr_request queue req).2
            -- Reschedule.
            let retry_tmr := ev.timeout * 1000
            some (ev_ret.raw ret, some ev, some zone, some queue,
                  evsched_schedule sched (some e) (int_to_uint32 retry_tmr))
          | none =>
            let retry_tmr := ev.timeout * 1000
            some (ev_ret.code ret, some ev, some zone, xfr_h,
                  evsched_schedule sched (some e) (int_to_uint32 retry_tmr))
      else
        let retry_tmr := ev.timeout * 1000
        some (ev_ret.code ret, some ev, some zone, xfr_h,
              evsched_schedule sched (some e) (int_to_uint32 retry_tmr))

/-- `zones_cancel_notify`, called with `zd->lock` held. Between the unlock and
the re-lock the scheduler is asked to cancel the timer, which waits for a
running handler; `self_removed` tells whether that handler dequeued and freed
the event (and its timer) in the meantime. The result is the return code, the
zone data, the notify event (`none` once freed) and the scheduler. -/
def zones_cancel_notify (self_removed : Bool) (zd : Option zonedata_t)
    (ev : Option notify_ev_t) (sched : evsched_t) :
    Code × Option zonedata_t × Option notify_ev_t × evsched_t :=
  match zd, ev with
  | some zd, some ev =>
    match ev.timer with
    | none => (Code.KNOTD_EINVAL, some zd, some ev, sched)
    | some tmr =>
      -- Wait for event to finish running.
      let ev := { ev with timer := none }
      let zd := { zd with lock := false }
      let (zd, alive, sched) :=
        if self_removed then
          ({ zd with notify_pending := rem_node zd.notify_pending ev.id },
           (none : Option notify_ev_t), evsched_event_free sched tmr)
        else (zd, some ev, sched)
      let sched := evsched_cancel sched tmr
      -- Re-lock and find again (if not deleted).
      let zd := { zd with lock := true }
      let match_exists := zd.notify_pending.contains ev.id
      -- Event deleted before cancelled.
      if !match_exists then (Code.KNOTD_EOK, some zd, alive, sched)
      else
        -- Free event (won't be scheduled again).
        (Code.KNOTD_EOK,
         some { zd with notify_pending := rem_node zd.notify_pending ev.id },
         none, evsched_event_free sched tmr)
  | _, _ => (Code.KNOTD_EINVAL, zd, ev, sched)

/-- The live notify events and the next unused address. -/
structure notify_heap_t where
  evs : List notify_ev_t
  fresh : Nat
  deriving DecidableEq, Repr

/-- The notify event at an address. -/
def notify_heap_t.get (h : notify_heap_t) (id : Nat) : Option notify_ev_t :=
  h.evs.find? fun ev => ev.id = id

/-- Write a notify event back to the heap, or drop it once it is freed. -/
def notify_heap_t.put (h : notify_heap_t) (id : Nat) (ev : Option notify_ev_t) :
    notify_heap_t :=
  match ev with
  | some ev1 => { h with evs := h.evs.map fun x => if x.id = id then ev1 else x }
  | none => { h with evs := h.evs.filter fun x => x.id ≠ id }

/-- What `zones_timers_update` takes from outside: for each pending event
whether its handler removed it while it was being cancelled, the result of
`sockaddr_set` for a configured remote (`none` when it fails), and the random
initial delay in seconds of the NOTIFY to each remote. -/
structure timers_env where
  self_removed : Nat → Bool
  sockaddr_set : conf_remote_t → Option sockaddr_t
  tmr_s : conf_remote_t → Int

/-- The `WALK_LIST_DELSAFE` loop of `zones_timers_update`: cancel every
pending NOTIFY, in list order. -/
def cancel_pending (env : timers_env) :
    List Nat → zonedata_t → notify_heap_t → evsched_t → zonedata_t × notify_heap_t × evsched_t
  | [], zd, heap, sched => (zd, heap, sched)
  | id :: rest, zd, heap, sched =>
    match zones_cancel_notify (env.self_removed id) (some zd) (heap.get id) sched with
    | (_, some zd1, ev1, sched1) =>
      cancel_pending env rest zd1 (if (heap.get id).isSome then heap.put id ev1 else heap)
        sched1
    | (_, none, _, sched1) => cancel_pending env rest zd heap sched1

/-- The `WALK_LIST` loop of `zones_timers_update` over `acl.notify_out`: one
notify event per remote whose address parses, with `retries` one more than
the configured number, scheduled after the random delay and linked at the
tail of `notify_pending`. -/
def schedule_notifies (env : timers_env) (zone : knot_zone_t) (cfzone : conf_zone_t) :
    List conf_remote_t → zonedata_t → notify_heap_t → evsched_t →
      zonedata_t × notify_heap_t × evsched_t
  | [], zd, heap, sched => (zd, heap, sched)
  | r :: rest, zd, heap, sched =>
    -- Parse server address.
    match env.sockaddr_set r with
    | none => schedule_notifies env zone cfzone rest zd heap sched
    | some addr =>
      -- Prepare request.
      let ev : notify_ev_t :=
        { id := heap.fresh, retries := cfzone.notify_retries + 1, msgid := 0,
          addr := addr, timer := none, zone := some zone.name,
          timeout := cfzone.notify_timeout }
      -- Schedule request (30 - 60s random delay).
      let zd := { zd with lock := true }
      let (sched, tmr) := evsched_schedule_cb sched event_cb_t.zones_notify_send zone.name
        (int_to_uint32 (env.tmr_s r * 1000))
      let ev := { ev with timer := some tmr }
      let zd := { zd with notify_pending := add_tail zd.notify_pending ev.id }
      let zd := { zd with lock := false }
      schedule_notifies env zone cfzone rest zd
        { evs := heap.evs ++ [ev], fresh := heap.fresh + 1 } sched

/-- `zones_timers_update`: cancel the zone's timers and pending NOTIFYs, then
install REFRESH (when a master is set), the zonefile-sync event and, for a
zone with contents, one NOTIFY event per configured `notify_out` remote. The
result is the return code, the zone, the notify events and the scheduler. -/
def zones_timers_update (env : timers_env) (zone : Option knot_zone_t)
    (cfzone : conf_zone_t) (heap : notify_heap_t) (sch : Option evsched_t) :
    Code × Option knot_zone_t × notify_heap_t × Option evsched_t :=
  match sch, zone with
  | some sch, some zone =>
    match zone.data with
    | none => (Code.KNOTD_EINVAL, some zone, heap, some sch)
    | some zd =>
      -- Cancel REFRESH timer.
      let (sch, zd) :=
        match zd.xfr_in.timer with
        | some timer =>
          (evsched_event_free (evsched_cancel sch timer) timer,
           { zd with xfr_in := { zd.xfr_in with timer := none } })
        | none => (sch, zd)
      -- Cancel EXPIRE timer.
      let (sch, zd) :=
        match zd.xfr_in.expire with
        | some expire =>
          (evsched_event_free (evsched_cancel sch expire) expire,
           { zd with xfr_in := { zd.xfr_in with expire := none } })
        | none => (sch, zd)
      -- Remove list of pending NOTIFYs.
      let zd := { zd with lock := true }
      let (zd, heap, sch) := cancel_pending env zd.notify_pending zd heap sch
      let zd := { zd with lock := false }
      -- Check XFR/IN master server.
      let (sch, zd) :=
        if zd.xfr_in.master.family ≠ -1 then
          -- Schedule REFRESH timer.
          let refresh_tmr := zones_soa_refresh (some zone)
          let (sch, tmr) := evsched_schedule_cb sch event_cb_t.zones_refresh_ev zone.name
            refresh_tmr
          (sch, { zd with xfr_in := { zd.xfr_in with timer := some tmr } })
        else (sch, zd)
      -- Schedule IXFR database syncing.
      let sync_timeout := cfzone.dbsync_timeout * 1000
      let (sch, zd) :=
        match zd.ixfr_dbsync with
        | some sync =>
          (evsched_event_free (evsched_cancel sch sync) sync, { zd with ixfr_dbsync := none })
        | none => (sch, zd)
      let (sch, sync) := evsched_schedule_cb sch event_cb_t.zones_zonefile_sync_ev zone.name
        (int_to_uint32 sync_timeout)
      let zd := { zd with ixfr_dbsync := some sync }
      -- Do not issue NOTIFY queries if stub.
      match zone.contents with
      | none => (Code.KNOTD_EOK, some { zone with data := some zd }, heap, some sch)
      | some _ =>
        -- Schedule NOTIFY to slaves.
        let (zd, heap, sch) := schedule_notifies env zone cfzone cfzone.acl_notify_out zd heap sch
        (Code.KNOTD_EOK, some { zone with data := some zd }, heap, some sch)
  | _, _ => (Code.KNOTD_EINVAL, zone, heap, sch)

/-- Example notify event 100 of `example.`, as `zones_timers_update` creates
it for `notify_retries = 1` and `notify_timeout = 60`, with timer event 9. -/
def example_notify_ev : notify_ev_t :=
  { id := 100, retries := 2, msgid := 0,
    addr := { family := 2, addr := 3221225986, port := 53 },
    timer := some 9, zone := some "example.", timeout := 60 }

/-- Example zone `example.` with two pending NOTIFY events, 100 and 101. -/
def example_zone_notify : knot_zone_t :=
  { name := "example.", contents := some { apex_soa := example_soa 3600 600 86400 },
    data := some
      { conf := { name := "example.", dbsync_timeout := 60, notify_retries := 1,
                  notify_timeout := 60 },
        xfr_in := { master := example_master, timer := none, expire := none,
                    next_id := -1 },
        notify_pending := [100, 101], ixfr_dbsync := none, zonefile_serial := 10 } }

/-- Example scheduler holding the NOTIFY timer 9. -/
def example_sched_notify : evsched_t :=
  { events := [{ id := 9, cb := event_cb_t.zones_notify_send, data := "example.",
                 timer := some 30000 }],
    fresh := 10 }

/-- Modelled from the spec: a journal entry, keyed by the 64-bit composite
`id`, with its flags and the stored changeset binary. -/
structure journal_node_t where
  id : Nat
  flags : Nat
  data : List Nat
  deriving DecidableEq, Repr

/-- Modelled from the spec: the journal, its live entries in insertion
order. -/
structure journal_t where
  nodes : List journal_node_t
  deriving DecidableEq, Repr

/-- The value of `x & ~m`: `x` with the bits of `m` cleared. -/
def clear_bits (x m : Nat) : Nat := x ^^^ (x &&& m)

/-- `zones_ixfrdb_sync_apply`: clear the dirty bit of a journal entry that has
it set and write the entry back (`journal_update`). `JOURNAL_DIRTY` is the
flag mask of `journal.h`. -/
def zones_ixfrdb_sync_apply (JOURNAL_DIRTY : Nat) (n : journal_node_t) :
    Code × journal_node_t :=
  -- Check for dirty bit (not synced to permanent storage).
  if n.flags &&& JOURNAL_DIRTY ≠ 0 then
    -- Remove dirty bit.
    (Code.KNOTD_EOK, { n with flags := clear_bits n.flags JOURNAL_DIRTY })
  else (Code.KNOTD_EOK, n)

/-- Modelled from the spec: `walk(visitor)` invokes the visitor over all live
entries; nothing happens on a `NULL` journal handle. -/
def journal_walk (j : Option journal_t) (apply : journal_node_t → Code × journal_node_t) :
    Option journal_t :=
  j.map fun j1 => { j1 with nodes := j1.nodes.map fun n => (apply n).2 }

/-- Modelled from the spec: `knot_rdata_soa_serial`, the apex SOA serial as an
`int64_t`, negative when it cannot be decoded. -/
def knot_rdata_soa_serial (rr : knot_rdata_t) : Int := rr.serial

/-- `zones_zonefile_sync`. `j` is the journal behind the handle `zd->ixfr_db`
(`none` for a `NULL` handle), `dumps` the calls of `zone_dump_text` made so
far (contents and file name). The result is the return code, the zone, the
journal and the dump calls as left by the function. -/
def zones_zonefile_sync (JOURNAL_DIRTY : Nat) (zone : Option knot_zone_t)
    (j : Option journal_t) (dumps : List (knot_zone_contents_t × String)) :
    Code × Option knot_zone_t × Option journal_t × List (knot_zone_contents_t × String) :=
  match zone with
  | none => (Code.KNOTD_EINVAL, zone, j, dumps)
  | some zone =>
    match zone.data with
    | none => (Code.KNOTD_EINVAL, some zone, j, dumps)
    | some zd =>
      -- Lock zone data.
      let zd := { zd with lock := true }
      match zone.contents with
      | none =>
        let zd := { zd with lock := false }
        (Code.KNOTD_EINVAL, some { zone with data := some zd }, j, dumps)
      | some contents =>
        -- Latest zone serial.
        let serial_ret := knot_rdata_soa_serial contents.apex_soa
        if serial_ret < 0 then
          (Code.KNOTD_EINVAL, some { zone with data := some zd }, j, dumps)
        else
          let serial_to := (serial_ret % (2 ^ 32 : Int)).toNat
          -- Check for difference against zonefile serial.
          if zd.zonefile_serial ≠ serial_to then
            -- Save zone to zonefile.
            let dumps := dumps ++ [(contents, zd.conf.file)]
            -- Update journal entries.
            let j := journal_walk j (zones_ixfrdb_sync_apply JOURNAL_DIRTY)
            -- Update zone file serial.
            let zd := { zd with zonefile_serial := serial_to }
            -- Unlock zone data.
            let zd := { zd with lock := false }
            (Code.KNOTD_EOK, some { zone with data := some zd }, j, dumps)
          else
            -- Unlock zone data.
            let zd := { zd with lock := false }
            (Code.KNOTD_EOK, some { zone with data := some zd }, j, dumps)

/-- Example flag mask of the dirty bit. -/
def example_dirty : Nat := 4

/-- Example journal of `example.`: the changeset 10 → 11, dirty. -/
def example_journal : journal_t :=
  { nodes := [{ id := ixfrdb_key_make 10 11, flags := 6, data := toy_buffer }] }

/-! ## Free sidecar file names (`zones.c`) -/

/-- The name probed for the character code `c`: the old name followed by "."
and that character. -/
def sidecar_name (old_name : String) (c : Nat) : String :=
  old_name ++ "." ++ String.singleton (Char.ofNat c)

/-- The `while (!free_name && c < 58)` loop of `zones_find_free_filename`,
indexed by the number `n = 58 - c` of character codes still to try. `readable`
tells whether `fopen(name, "r")` succeeds. The result is the free name found,
if any, and the names probed, in order. -/
def find_free_loop (readable : String → Bool) (old_name : String) :
    Nat → Option String × List String
  | 0 => (none, [])
  | n + 1 =>
    let c := 58 - (n + 1)
    let new_name := sidecar_name old_name c
    if readable new_name then
      ((find_free_loop readable old_name n).1,
       new_name :: (find_free_loop readable old_name n).2)
    else (some new_name, [new_name])

/-- `zones_find_free_filename`: starting at `c = 48` (the digit 0), the first
name `old_name.c` that cannot be opened for reading, or `NULL` when the ten
names up to `c = 57` all can. The second component lists the names probed. -/
def zones_find_free_filename (readable : String → Bool) (old_name : String) :
    Option String × List String :=
  find_free_loop readable old_name 10

/-! ## Reload: building the new zone database (`zones.c`) -/

/-- Modelled from the spec: `knot_zonedb_add_zone` adds a record to the
mapping; the mapping holds one record per owner name, so a record whose name
is already present is refused. -/
def knot_zonedb_add_zone (db : List knot_zone_t) (zone : knot_zone_t) :
    Code × List knot_zone_t :=
  if (knot_zonedb_find_zone db zone.name).isSome then (Code.KNOT_ERROR, db)
  else (Code.KNOT_EOK, db ++ [zone])

/-- Modelled from the spec: `knot_zone_new_empty`, a stub zone: the owner name
and nothing else. -/
def knot_zone_new_empty (owner : knot_dname_t) : knot_zone_t :=
  { name := owner, contents := none, data := none }

/-- `zones_journal_apply`: replay the pending changesets of the zone's
journal. `load_and_apply zone serial` stands for the replay proper
(`zones_load_changesets` from the current serial `serial` followed by
`xfrin_apply_changesets_to_zone`, translated as `journal_apply_replay`): its
return code and the contents it leaves in the zone. -/
def zones_journal_apply
    (load_and_apply : knot_zone_t → Nat → Code × Option knot_zone_contents_t)
    (zone : Option knot_zone_t) : Code × Option knot_zone_t :=
  match zone with
  | none => (Code.KNOTD_EINVAL, none)
  | some zone =>
    match zone.contents with
    | none => (Code.KNOTD_ENOENT, some zone)
    | some contents =>
      -- Fetch SOA serial.
      if knot_rdata_soa_serial contents.apex_soa < 0 then (Code.KNOTD_EINVAL, some zone)
      else
        -- Load all pending changesets.
        ((load_and_apply zone
            (knot_rdata_soa_serial contents.apex_soa % (2 ^ 32 : Int)).toNat).1,
         some { zone with
                contents := (load_and_apply zone
                  (knot_rdata_soa_serial contents.apex_soa % (2 ^ 32 : Int)).toNat).2 })

/-- What the reload takes from outside: `stat` of a compiled db file (its
modification time, `none` when it fails) and the value found in the
uninitialised `struct stat` in that case; the results of `knot_zload_open` and
`knot_zload_load` for a compiled db file; whether a configured name converts
to a domain name; the journal replay; and the inputs of
`zones_timers_update`. -/
structure reload_env where
  stat : String → Option Int
  stat_garbage : Int
  zload_open : String → Code
  zload_load : String → Option knot_zone_t
  dname_ok : String → Bool
  load_and_apply : knot_zone_t → Nat → Code × Option knot_zone_contents_t
  timers : timers_env

/-- `zones_load_zone`: load the compiled zone `filename` and add it to the
database; every failure of the loader or of the insertion gives
`KNOTD_EZONEINVAL`. The result is the return code and the database. -/
def zones_load_zone (env : reload_env) (zonedb : List knot_zone_t) (_zone_name : String)
    (_source : String) (filename : Option String) : Code × List knot_zone_t :=
  match filename with
  | some filename =>
    if env.zload_open filename = Code.KNOT_EOK then
      match env.zload_load filename with
      | some zone =>
        -- save the timestamp from the zone db file
        if (knot_zonedb_add_zone zonedb
            { zone with version := (env.stat filename).getD env.stat_garbage }).1
            = Code.KNOT_EOK then
          (Code.KNOTD_EOK,
           (knot_zonedb_add_zone zonedb
             { zone with version := (env.stat filename).getD env.stat_garbage }).2)
        else (Code.KNOTD_EZONEINVAL, zonedb)
      | none => (Code.KNOTD_EZONEINVAL, zonedb)
    else (Code.KNOTD_EZONEINVAL, zonedb)
  | none =>
    -- db is null.
    (Code.KNOTD_EINVAL, zonedb)

/-- The state `zones_insert_zones` works on: the old and the new database, the
counter `inserted`, the notify events and the scheduler. -/
structure insert_state where
  db_old : List knot_zone_t
  db_new : List knot_zone_t
  inserted : Int
  heap : notify_heap_t
  sched : evsched_t
  deriving DecidableEq, Repr

/-- The "Reload zone file" block of `zones_insert_zones` for the configured
zone `z`: when the compiled db file is missing and a master is set, add a
stub zone to the new database and, on success, decrement the counter;
otherwise load the compiled zone into the new database. The result is `ret`,
the new database and the counter. -/
def reload_zone (env : reload_env) (z : conf_zone_t) (db_new : List knot_zone_t)
    (inserted : Int) : Code × List knot_zone_t × Int :=
  -- Zone file not exists and has master set.
  if (env.stat z.db).isNone && !z.acl_xfr_in.isEmpty then
    -- Create stub database.
    if (knot_zonedb_add_zone db_new (knot_zone_new_empty z.name)).1 = Code.KNOT_EOK then
      (Code.KNOT_EOK, (knot_zonedb_add_zone db_new (knot_zone_new_empty z.name)).2,
       inserted - 1)
    else ((knot_zonedb_add_zone db_new (knot_zone_new_empty z.name)).1, db_new, inserted)
  else
    ((zones_load_zone env db_new z.name z.file (some z.db)).1,
     (zones_load_zone env db_new z.name z.file (some z.db)).2, inserted)

/-- The first half of the loop body of `zones_insert_zones` for the configured
zone `z`: find the zone in the old database, decide whether to reload, and
insert a stub, a freshly loaded zone or the old zone into the new database.
The result is the new database, the counter, the zone the rest of the body
works on, and whether that zone is the new record (stub or loaded) rather
than the old one; `none` when `zonedata_init` is handed a `NULL` zone. -/
def insert_zone_db (env : reload_env) (z : conf_zone_t) (db_old db_new : List knot_zone_t)
    (inserted : Int) : Option (List knot_zone_t × Int × Option knot_zone_t × Bool) :=
  -- try to find the zone in the current zone db
  let zone := knot_zonedb_find_zone db_old z.name
  let st_mtime := (env.stat z.db).getD env.stat_garbage
  let reload : Bool :=
    match zone with
    | some zone => decide (zone.version < st_mtime)
    | none => true
  -- Reload zone file.
  if reload then
    let r := reload_zone env z db_new inserted
    -- Find zone.
    if r.1.is_eok then
      -- Find the new zone
      match knot_zonedb_find_zone r.2.1 z.name with
      | none => none
      | some zone =>
        -- Initialize zone-related data.
        some (zonedb_store r.2.1 (zonedata_init z zone).2, r.2.2 + 1,
              some (zonedata_init z zone).2, true)
    else some (r.2.1, r.2.2, zone, false)
  else
    -- just insert the zone into the new zone db
    match zone with
    | some zone1 =>
      if (knot_zonedb_add_zone db_new zone1).1.is_eok then
        some ((knot_zonedb_add_zone db_new zone1).2, inserted + 1, zone, false)
      else some (db_new, inserted, zone, false)
    | none => some (db_new, inserted, zone, false)

/-- The second half of the loop body of `zones_insert_zones` ("Update zone
data") for a zone that was found or inserted: configuration back-reference,
master address from the first `xfr_in` remote, journal replay, timers. The
ACL sets are not part of this record. `none` when the zone has no zone
data. -/
def zone_data_update (env : reload_env) (z : conf_zone_t) (zone : knot_zone_t)
    (heap : notify_heap_t) (sched : evsched_t) :
    Option (knot_zone_t × notify_heap_t × evsched_t) :=
  match zone.data with
  | none => none
  | some zd =>
    -- Update refs.
    let zd := { zd with conf := z }
    -- Update master server address.
    let master : sockaddr_t :=
      match z.acl_xfr_in with
      | r :: _ => (env.timers.sockaddr_set r).getD { family := -1, addr := 0, port := 0 }
      | [] => { family := -1, addr := 0, port := 0 }
    let zd := { zd with xfr_in := { zd.xfr_in with master := master } }
    let zone := { zone with data := some zd }
    -- Apply changesets from journal.
    let zone := ((zones_journal_apply env.load_and_apply (some zone)).2).getD zone
    -- Update events scheduled for zone.
    match zones_timers_update env.timers (some zone) z heap (some sched) with
    | (_, some zone1, heap1, some sched1) => some (zone1, heap1, sched1)
    | (_, _, heap1, _) => some (zone, heap1, sched)

/-- The loop body of `zones_insert_zones` for the configured zone `z`. The
zone is updated through its pointer: a new record is written back to the new
database; the old zone is written back to the old database and, when the new
database holds that same zone, to the new one. -/
def insert_zone (env : reload_env) (z : conf_zone_t) (st : insert_state) :
    Option insert_state :=
  match insert_zone_db env z st.db_old st.db_new st.inserted with
  | none => none
  | some (db_new, inserted, none, _) =>
    some { st with db_new := db_new, inserted := inserted }
  | some (db_new, inserted, some zone, is_new) =>
    match zone_data_update env z zone st.heap st.sched with
    | none => none
    | some (zone1, heap, sched) =>
      if is_new then
        some { db_old := st.db_old, db_new := zonedb_store db_new zone1,
               inserted := inserted, heap := heap, sched := sched }
      else
        some { db_old := zonedb_store st.db_old zone1,
               db_new := if knot_zonedb_find_zone db_new zone.name = some zone
                         then zonedb_store db_new zone1 else db_new,
               inserted := inserted, heap := heap, sched := sched }

/-- `zones_insert_zones`: run the loop body for every configured zone, in
order; a zone name that does not convert to a domain name ends the loop
(`return inserted`). `none` when the source dereferences `NULL`. -/
def zones_insert_zones (env : reload_env) :
    List conf_zone_t → insert_state → Option insert_state
  | [], st => some st
  | z :: rest, st =>
    if env.dname_ok z.name then
      match insert_zone env z st with
      | none => none
      | some st1 => zones_insert_zones env rest st1
    else some st

/-- `zones_remove_zones`: remove every configured zone name from the old
database, without deleting the zones. -/
def zones_remove_zones (env : reload_env) :
    List conf_zone_t → List knot_zone_t → Code × List knot_zone_t
  | [], db_old => (Code.KNOTD_EOK, db_old)
  | z :: rest, db_old =>
    if env.dname_ok z.name then
      zones_remove_zones env rest (knot_zonedb_remove_zone db_old z.name).2
    else (Code.KNOTD_ERROR, db_old)

/-- The part of `conf_t` the reload reads. -/
structure conf_t where
  zones : List conf_zone_t
  zones_count : Int
  deriving DecidableEq, Repr

/-- What `zones_update_db_from_config` leaves behind: the return code, the
name server (with the new database published), the old database stored
through `db_old` (`none` when it was not stored), the number
`zones_insert_zones` returned, whether the "not all the zones were loaded"
warning was logged, the notify events. -/
structure reload_result where
  ret : Code
  ns : Option knot_nameserver_t
  db_old : Option (List knot_zone_t)
  inserted : Int
  warned : Bool
  heap : notify_heap_t
  deriving DecidableEq, Repr

/-- `zones_update_db_from_config`: build the new database from the
configuration, publish it, and remove the configured names from the old one.
The zone database of a name server is never `NULL` in this model, and
`knot_zonedb_new` is taken to succeed. `none` when the source dereferences
`NULL` while inserting the zones. -/
def zones_update_db_from_config (env : reload_env) (conf : Option conf_t)
    (ns : Option knot_nameserver_t) (heap : notify_heap_t) : Option reload_result :=
  match conf, ns with
  | some conf, some ns =>
    -- Grab a pointer to the old database
    let db_old := ns.zone_db
    -- Create new zone DB
    let db_new : List knot_zone_t := []
    -- Insert all required zones to the new zone DB.
    match zones_insert_zones env conf.zones
        { db_old := db_old, db_new := db_new, inserted := 0, heap := heap,
          sched := ns.data.sched } with
    | none => none
    | some st =>
      let warned := decide (st.inserted ≠ conf.zones_count)
      -- Switch the databases.
      let ns1 : knot_nameserver_t :=
        { zone_db := st.db_new, data := { ns.data with sched := st.sched } }
      -- Remove all zones present in the new DB from the old DB.
      let removed := zones_remove_zones env conf.zones st.db_old
      some { ret := removed.1, ns := some ns1, db_old := some removed.2,
             inserted := st.inserted, warned := warned, heap := st.heap }
  | _, _ =>
    some { ret := Code.KNOTD_EINVAL, ns := ns, db_old := none, inserted := 0,
           warned := false, heap := heap }

/-! ## Specification-side definitions for the reload -/

/-- The zone names of a database, in order. -/
def zonedb_names (db : List knot_zone_t) : List knot_dname_t :=
  db.map fun z => z.name

/-- The configured zone is moved from the old database: it is there and its
compiled db file is not newer than the loaded version. -/
def zone_kept (env : reload_env) (db_old : List knot_zone_t) (z : conf_zone_t) : Prop :=
  ∃ zone, knot_zonedb_find_zone db_old z.name = some zone ∧
    ¬ zone.version < (env.stat z.db).getD env.stat_garbage

/-- The stub condition: the compiled db file is missing and a master is
configured. -/
def stub_case (env : reload_env) (z : conf_zone_t) : Prop :=
  env.stat z.db = none ∧ z.acl_xfr_in ≠ []

/-- The compiled db of the configured zone opens and holds a zone of the
configured name. -/
def load_ok (env : reload_env) (z : conf_zone_t) : Prop :=
  env.zload_open z.db = Code.KNOT_EOK ∧
  ∃ zone, env.zload_load z.db = some zone ∧ zone.name = z.name

/-- The database holds a stub zone of that name: a record without
contents. -/
def is_stub (db : List knot_zone_t) (n : knot_dname_t) : Prop :=
  ∃ zone, knot_zonedb_find_zone db n = some zone ∧ zone.contents = none

/-- Whether the loop body for `z` creates a stub zone in the new database:
the zone is to be reloaded, the stub condition holds and the name is not in
the new database yet. -/
def stub_added (env : reload_env) (z : conf_zone_t) (db_old db_new : List knot_zone_t) :
    Bool :=
  (match knot_zonedb_find_zone db_old z.name with
   | some zone => decide (zone.version < (env.stat z.db).getD env.stat_garbage)
   | none => true) &&
  ((env.stat z.db).isNone && !z.acl_xfr_in.isEmpty) &&
  (knot_zonedb_find_zone db_new z.name).isNone

/-- The number of stub zones `zones_insert_zones` creates on a
configuration. -/
def stubs_created (env : reload_env) : List conf_zone_t → insert_state → Nat
  | [], _ => 0
  | z :: rest, st =>
    if env.dname_ok z.name then
      match insert_zone env z st with
      | none => 0
      | some st1 =>
        (if stub_added env z st.db_old st.db_new then 1 else 0) + stubs_created env rest st1
    else 0

/-- Example reload environment: no compiled db file exists, every name
converts, no NOTIFY handler interferes, the journal replay changes
nothing. -/
def example_reload_env : reload_env :=
  { stat := fun _ => none, stat_garbage := 0,
    zload_open := fun _ => Code.KNOT_EFEWDATA, zload_load := fun _ => none,
    dname_ok := fun _ => true,
    load_and_apply := fun zone _ => (Code.KNOT_EOK, zone.contents),
    timers := { self_removed := fun _ => false,
                sockaddr_set := fun r =>
                  some { family := r.family, addr := 3221225985, port := r.port },
                tmr_s := fun _ => 30 } }

/-- Example configured zone `example.` without a master. -/
def example_conf_zone : conf_zone_t :=
  { name := "example.", dbsync_timeout := 60, notify_retries := 5, notify_timeout := 60,
    file := "example.zone", db := "example.db" }

/-- Example configured zone `example.` with the master 192.0.2.1. -/
def example_conf_zone_slave : conf_zone_t :=
  { name := "example.", dbsync_timeout := 60, notify_retries := 5, notify_timeout := 60,
    file := "example.zone", db := "example.db",
    acl_xfr_in := [{ name := "master", family := 2, address := "192.0.2.1", port := 53 }] }

/-- Example name server with an empty zone database. -/
def example_ns_empty : knot_nameserver_t :=
  { zone_db := [], data := { sched := { events := [], fresh := 1 }, xfr_h := [] } }

/-- Example configuration: the single zone `example.` without a master. -/
def example_conf : conf_t :=
  { zones := [example_conf_zone], zones_count := 1 }

/-- Example configuration: the single zone `example.` with a master. -/
def example_conf_slave : conf_t :=
  { zones := [example_conf_zone_slave], zones_count := 1 }

/-- Example notify events: none. -/
def example_heap_empty : notify_heap_t :=
  { evs := [], fresh := 1 }

/-- The state `zones_insert_zones` starts from on `example_ns_empty`. -/
def example_insert_state : insert_state :=
  { db_old := [], db_new := [], inserted := 0, heap := example_heap_empty,
    sched := { events := [], fresh := 1 } }

/-- The stub zone the reload of `example_conf_slave` leaves in the new
database: no contents, REFRESH event 1, zonefile-sync event 2. -/
def example_stub_reloaded : knot_zone_t :=
  { name := "example.", contents := none,
    data := some
      { conf := example_conf_zone_slave,
        xfr_in := { master := { family := 2, addr := 3221225985, port := 53 },
                    timer := some 1, expire := none, next_id := -1 },
        notify_pending := [], ixfr_dbsync := some 2, zonefile_serial := 0 } }

/-- The scheduler after the reload of `example_conf_slave`: REFRESH at once,
zonefile sync after 60 s. -/
def example_sched_reloaded : evsched_t :=
  { events := [{ id := 1, cb := event_cb_t.zones_refresh_ev, data := "example.",
                 timer := some 0 },
               { id := 2, cb := event_cb_t.zones_zonefile_sync_ev, data := "example.",
                 timer := some 60000 }],
    fresh := 3 }

/-- The name server after the reload of `example_conf_slave`. -/
def example_ns_reloaded : knot_nameserver_t :=
  { zone_db := [example_stub_reloaded],
    data := { sched := example_sched_reloaded, xfr_h := [] } }

/-- Example reload environment in which every compiled db file exists with
modification time 5 and fails to load. -/
def example_reload_env_newer : reload_env :=
  { example_reload_env with stat := fun _ => some 5 }

/-- The scheduler after the reload of `example_ns_old` under
`example_reload_env_newer`: the zonefile-sync event of `example.`. -/
def example_sched_after_loss : evsched_t :=
  { events := [{ id := 3, cb := event_cb_t.zones_zonefile_sync_ev, data := "example.",
                 timer := some 60000 }],
    fresh := 4 }

/-- Example name server serving `example.` (loaded version 0), with its
REFRESH and EXPIRE events. -/
def example_ns_old : knot_nameserver_t :=
  { zone_db := [example_zone (example_soa 3600 600 86400) (-1)],
    data := { sched := example_sched, xfr_h := [] } }

/-- What the parser as written makes of a changeset whose buffer holds the
records `r0 :: recs`: `r0` is `soa_from`, every non-SOA record of `recs` is
appended to the removals, the additions are left alone, and `soa_to` is the
last SOA record of `recs` (unchanged when there is none). -/
def parsed_as_written {α : Type} (ops : rrset_ops α) (chs chs1 : knot_changeset_t α)
    (r0 : α) (recs : List α) : Prop :=
  chs1.soa_from = some r0 ∧
  chs1.remove = chs.remove ++ recs.filter (fun r => ops.knot_rrset_type r ≠ KNOT_RRTYPE_SOA) ∧
  chs1.add = chs.add ∧ chs1.add_allocated = chs.add_allocated ∧
  chs1.soa_to =
    (match (recs.filter fun r => ops.knot_rrset_type r = KNOT_RRTYPE_SOA).getLast? with
     | some s => some s
     | none => chs.soa_to) ∧
  chs1.data = chs.data ∧ chs1.size = chs.size

/-! ## Changeset batches (`changesets.c`) -/

/-- Initial capacity and growth step of the changeset array
(`KNOT_CHANGESET_COUNT`, `KNOT_CHANGESET_STEP`). -/
def KNOT_CHANGESET_STEP : Nat := 5

/-- A cell of the changeset array as `memset(…, 0, …)` leaves it. -/
def knot_changeset_t.zeroed {α : Type} : knot_changeset_t α :=
  { soa_from := none, remove := [], remove_allocated := 0,
    soa_to := none, add := [], add_allocated := 0,
    data := none, size := 0, allocated := 0,
    serial_from := 0, serial_to := 0, flags := 0 }

/-- The struct `knot_changesets_t`. Here `sets` holds every cell of the
array, `allocated` of them, of which the first `count` are in use. -/
structure knot_changesets_t (α : Type) where
  sets : List (knot_changeset_t α)
  count : Nat
  allocated : Nat
  flags : Nat
  deriving DecidableEq, Repr

/-- `knot_changesets_check_size`: make room for one more changeset. The
sizes are `size_t`; the subtraction is reached only with
`count ≥ allocated`. The index `int i` of the flag loop holds every index as
long as the array has fewer than `2 ^ 31` cells. -/
def knot_changesets_check_size {α : Type} (changesets : knot_changesets_t α) :
    Code × knot_changesets_t α :=
  -- Check if allocated is sufficient.
  if changesets.count < changesets.allocated then (Code.KNOT_EOK, changesets)
  else
    -- How many steps is needed to content count?
    let extra := (changesets.count - changesets.allocated) % KNOT_CHANGESET_STEP
    let extra := ((extra + 1) * KNOT_CHANGESET_STEP) % 2 ^ 64
    -- Allocate new memory block.
    let new_count := (changesets.allocated + extra) % 2 ^ 64
    -- Clear new memory block and copy old data.
    let sets : List (knot_changeset_t α) := List.replicate new_count knot_changeset_t.zeroed
    let sets := changesets.sets.take changesets.allocated ++ sets.drop changesets.allocated
    -- Set type to all newly allocated changesets.
    let sets := sets.take changesets.allocated ++
      (sets.drop changesets.allocated).map fun c => { c with flags := changesets.flags }
    -- Replace old changesets.
    (Code.KNOT_EOK, { changesets with sets := sets, allocated := new_count })

/-- `knot_changeset_allocate`: a zero-filled batch with the given flags,
grown once. -/
def knot_changeset_allocate {α : Type} (flags : Nat) : Code × Option (knot_changesets_t α) :=
  -- create new changesets
  let changesets : knot_changesets_t α := { sets := [], count := 0, allocated := 0, flags := flags }
  if (knot_changesets_check_size changesets).1 ≠ Code.KNOT_EOK then (Code.KNOT_ENOMEM, none)
  else (Code.KNOT_EOK, some (knot_changesets_check_size changesets).2)

/-! ## RR-set arrays of a changeset (`changesets.c`) -/

/-- The loop `for (int i = pos; i < *count - 1; ++i) rrsets[i] = rrsets[i + 1]`
of `knot_changeset_remove_rr`, with `n` iterations left. The array is given
by its cells (`none` is a `NULL` cell); `i` stays within `int` while the array
has at most `2 ^ 31` cells in use. -/
def remove_rr_shift {α : Type} : List (Option α) → Nat → Nat → List (Option α)
  | rrsets, _, 0 => rrsets
  | rrsets, i, n + 1 => remove_rr_shift (rrsets.set i (rrsets.getD (i + 1) none)) (i + 1) n

/-- `knot_changeset_remove_rr`: remove the RR-set at `pos` from the array and
return it. `pos` is an `int` compared with the `size_t` count, so it is
converted to 64 bits unsigned first. The result is the returned pointer, the
cells of the array and the count. -/
def knot_changeset_remove_rr {α : Type} (rrsets : List (Option α)) (count : Nat) (pos : Int) :
    Option α × List (Option α) × Nat :=
  if (pos % (2 ^ 64 : Int)).toNat ≥ count ∨ count = 0 then (none, rrsets, count)
  else
    let removed := rrsets.getD pos.toNat none
    -- shift all RRSets from pos+1 one cell to the left
    let rrsets := remove_rr_shift rrsets pos.toNat (count - 1 - pos.toNat)
    -- just to be sure, set the last previously occupied position to NULL
    let rrsets := rrsets.set (count - 1) none
    (removed, rrsets, count - 1)

/-- The record accessors `knot_changeset_add_rr` uses, which live outside the
translated files: header comparison
(`knot_rrset_compare(…, KNOT_RRSET_COMPARE_HEADER)`), the RR type, the type
covered by an RRSIG, and `knot_rrset_merge` (the merged RR-set, `none` when it
fails). -/
structure rrset_merge_ops (α : Type) where
  knot_rrset_compare_header : α → α → Bool
  knot_rrset_type : α → Nat
  knot_rdata_rrsig_type_covered : α → Nat
  knot_rrset_merge : α → α → Option α

/-- RR type code of RRSIG records (`KNOT_RRTYPE_RRSIG`). -/
def KNOT_RRTYPE_RRSIG : Nat := 46

/-- `knot_changeset_rrsets_match`: equal headers and, for RRSIGs, equal
covered types. -/
def knot_changeset_rrsets_match {α : Type} (ops : rrset_merge_ops α) (rrset1 rrset2 : α) :
    Bool :=
  ops.knot_rrset_compare_header rrset1 rrset2
    && (ops.knot_rrset_type rrset1 != KNOT_RRTYPE_RRSIG
        || ops.knot_rdata_rrsig_type_covered rrset1 == ops.knot_rdata_rrsig_type_covered rrset2)

/-- `knot_changeset_add_rr`: merge `rr` into the last RR-set of the array when
it matches, otherwise append it. The result is the return code, the array and
its capacity. -/
def knot_changeset_add_rr {α : Type} (ops : rrset_merge_ops α) (rrsets : List α)
    (allocated : Nat) (rr : α) : Code × List α × Nat :=
  -- Just check the last RRSet. If the RR belongs to it, merge it,
  -- otherwise just add the RR to the end of the list
  match rrsets.getLast? with
  | some last =>
    if knot_changeset_rrsets_match ops last rr then
      match ops.knot_rrset_merge last rr with
      | none => (Code.KNOT_ERROR, rrsets, allocated)
      | some merged => (Code.KNOT_EOK, rrsets.dropLast ++ [merged], allocated)
    else knot_changeset_add_rrset rrsets allocated rr
  | none => knot_changeset_add_rrset rrsets allocated rr

/-- Example accessors for the two-byte codec: records match when their type
codes are equal; merging keeps the first record. -/
def toy_merge_ops : rrset_merge_ops toy_rrset where
  knot_rrset_compare_header := fun a b => a.1 == b.1
  knot_rrset_type := fun a => a.1
  knot_rdata_rrsig_type_covered := fun a => a.2
  knot_rrset_merge := fun a _ => some a

/-! ## Loading changesets from the journal (`zones.c`) -/

/-- Modelled from the spec: `journal_fetch` positions a cursor on the first
entry whose key matches (`cmp(entry.key, id) == 0`); iteration advances in
insertion order. The cursor is the list of entries from the matching one to
the end of the journal (`journal_end`), `none` when no entry matches. -/
def journal_fetch (j : journal_t) (id : Nat) (cmp : Nat → Nat → Int) :
    Code × Option (List journal_node_t) :=
  match j.nodes.dropWhile (fun n => decide (cmp n.id id ≠ 0)) with
  | [] => (Code.KNOTD_ENOENT, none)
  | n :: rest => (Code.KNOTD_EOK, some (n :: rest))

/-- The `while (n != 0 && n != journal_end(…))` loop of
`zones_load_changesets` over the cursor. `journal_read` gives the bytes
delivered for a key (`none` when the read fails); `n->len` is the length of
the stored value. The result is the return code (`KNOT_EOK` for the normal
exit of the loop), `found_to` and the batch. On a failed read the freed block
is shown as `NULL`. -/
def load_changesets_loop {α : Type} (journal_read : Nat → Option (List Nat)) (sto : Nat) :
    List journal_node_t → Nat → knot_changesets_t α → Code × Nat × knot_changesets_t α
  | [], found_to, dst => (Code.KNOT_EOK, found_to, dst)
  | n :: rest, found_to, dst =>
    -- Check for history end.
    if sto = found_to then (Code.KNOT_EOK, found_to, dst)
    else
      -- Check changesets size if needed.
      let chk := knot_changesets_check_size { dst with count := dst.count + 1 }
      if chk.1 ≠ Code.KNOT_EOK then
        (chk.1, found_to, { chk.2 with count := (dst.count + (2 ^ 64 - 1)) % 2 ^ 64 })
      else
        let dst1 : knot_changesets_t α := { chk.2 with count := dst.count }
        -- Initialize changeset.
        let chs : knot_changeset_t α :=
          { dst1.sets.getD dst1.count knot_changeset_t.zeroed with
            serial_from := ixfrdb_key_from n.id
            serial_to := ixfrdb_key_to n.id }
        -- Read journal entry.
        match journal_read n.id with
        | none =>
          (Code.KNOT_ERROR, found_to,
           { dst1 with sets := dst1.sets.set dst1.count { chs with data := none } })
        | some data =>
          -- Update changeset binary size.
          let chs1 : knot_changeset_t α :=
            { chs with data := some data, size := n.data.length, allocated := n.data.length }
          -- Next node.
          load_changesets_loop journal_read sto rest chs1.serial_to
            { dst1 with sets := dst1.sets.set dst1.count chs1, count := dst1.count + 1 }

/-- `zones_load_changesets`: read the journal entries from the first one that
starts at serial `sfrom` until the serial `sto` is reached, then unpack them.
`j` is the journal behind `zd->ixfr_db`. The result is the return code and
the batch; `none` when `fuel` does not suffice for the unpacking. -/
def zones_load_changesets {α : Type} (ops : rrset_ops α) (fuel : Nat)
    (journal_read : Nat → Option (List Nat)) (zone : Option knot_zone_t)
    (j : Option journal_t) (dst : Option (knot_changesets_t α)) (sfrom sto : Nat) :
    Option (Code × Option (knot_changesets_t α)) :=
  match zone, dst with
  | some zone, some dst =>
    if zone.data.isNone then some (Code.KNOT_EBADARG, some dst)
    else
      -- Fetch zone-specific data.
      match j with
      | none => some (Code.KNOT_EBADARG, some dst)
      | some j =>
        -- Read entries from starting serial until finished.
        let n := (journal_fetch j sfrom ixfrdb_key_from_cmp).2.getD []
        let r := load_changesets_loop journal_read sto n sfrom dst
        if r.1 ≠ Code.KNOT_EOK then some (r.1, some r.2.2)
        else
          -- Unpack binary data.
          (zones_changesets_from_binary ops fuel (r.2.2.sets.take r.2.2.count)).map fun u =>
            (if u.1 ≠ Code.KNOT_EOK then u.1
             -- Check for complete history.
             else if sto ≠ r.2.1 then Code.KNOT_ERANGE
             -- History reconstructed.
             else Code.KNOT_EOK,
             some { r.2.2 with sets := u.2 ++ r.2.2.sets.drop r.2.2.count })
  | _, _ => some (Code.KNOT_EBADARG, dst)

/-- A zero-filled batch, as both callers of `zones_load_changesets` pass it. -/
def knot_changesets_t.zeroed {α : Type} : knot_changesets_t α :=
  { sets := [], count := 0, allocated := 0, flags := 0 }

/-- The part of `zones_journal_apply` from "Load all pending changesets" on,
for a zone whose apex SOA serial is `serial`: load the changesets from
`serial` to `serial - 1` (32 bits) and, when some were loaded with
`KNOT_EOK` or `KNOT_ERANGE`, apply them. `xfrin_apply_changesets_to_zone`
gives the return code of the application and the contents it leaves. The
result is the return code and the contents of the zone. -/
def journal_apply_replay {α : Type} (ops : rrset_ops α) (fuel : Nat)
    (journal_read : Nat → Option (List Nat))
    (xfrin_apply_changesets_to_zone :
      knot_zone_t → List (knot_changeset_t α) → Code × Option knot_zone_contents_t)
    (j : Option journal_t) (zone : knot_zone_t) (serial : Nat) :
    Option (Code × Option knot_zone_contents_t) :=
  (zones_load_changesets ops fuel journal_read (some zone) j
      (some knot_changesets_t.zeroed) serial ((serial + (2 ^ 32 - 1)) % 2 ^ 32)).map fun r =>
    if r.1 = Code.KNOT_EOK ∨ r.1 = Code.KNOT_ERANGE then
      if (r.2.getD knot_changesets_t.zeroed).count > 0 then
        -- Apply changesets.
        xfrin_apply_changesets_to_zone zone
          ((r.2.getD knot_changesets_t.zeroed).sets.take
            (r.2.getD knot_changesets_t.zeroed).count)
      else (r.1, zone.contents)
    else (r.1, zone.contents)

/-! ## Specification-side definitions for the journal chain -/

/-- The journal entries the reading loop takes from the cursor: every entry
until `found_to`, the target serial of the entry read last, equals `sto`. -/
def entries_read (sto : Nat) : List journal_node_t → Nat → List journal_node_t
  | [], _ => []
  | n :: rest, found_to =>
    if sto = found_to then [] else n :: entries_read sto rest (ixfrdb_key_to n.id)

/-- The target serial of the last entry of a run (`sfrom` for an empty
run). -/
def last_serial_to (sfrom : Nat) (entries : List journal_node_t) : Nat :=
  (entries.getLast?.map fun n => ixfrdb_key_to n.id).getD sfrom

/-- The changeset the reading loop sets up for a journal entry in a blank
cell of a batch with flags `fl`. -/
def loaded_changeset {α : Type} (fl : Nat) (journal_read : Nat → Option (List Nat))
    (n : journal_node_t) : knot_changeset_t α :=
  { (knot_changeset_t.zeroed : knot_changeset_t α) with
    flags := fl
    serial_from := ixfrdb_key_from n.id
    serial_to := ixfrdb_key_to n.id
    data := journal_read n.id
    size := n.data.length
    allocated := n.data.length }

/-- A serial chain: each pair's second serial is the next pair's first. -/
def serial_chain (l : List (Nat × Nat)) : Prop :=
  List.Chain' (fun a b => a.2 = b.1) l

/-- Modelled from the spec: `read(key, dest)` delivers the value stored under
the key; it fails when the journal has no entry of that key. -/
def journal_read (j : journal_t) (id : Nat) : Option (List Nat) :=
  (j.nodes.find? fun n => n.id = id).map fun n => n.data

/-- Example journal with a gap: the changesets 1 → 2 and 7 → 8, stored one
after the other. -/
def example_journal_gap : journal_t :=
  { nodes := [{ id := ixfrdb_key_make 1 2, flags := 0, data := [6, 1, 6, 2] },
              { id := ixfrdb_key_make 7 8, flags := 0, data := [6, 7, 6, 8] }] }

/-- Example journal whose chain returns to its start: 10 → 11, 11 → 10 and
then 10 → 12. -/
def example_journal_cycle : journal_t :=
  { nodes := [{ id := ixfrdb_key_make 10 11, flags := 0, data := [6, 10, 6, 11] },
              { id := ixfrdb_key_make 11 10, flags := 0, data := [6, 11, 6, 10] },
              { id := ixfrdb_key_make 10 12, flags := 0, data := [6, 10, 6, 12] }] }

/-- Example application of a batch: the zone's contents move to the target
serial of the last changeset. -/
def example_apply (zone : knot_zone_t) (chsets : List (knot_changeset_t toy_rrset)) :
    Code × Option knot_zone_contents_t :=
  (Code.KNOT_EOK,
   zone.contents.map fun c =>
     { c with apex_soa :=
         { c.apex_soa with
           serial := ((chsets.getLast?.map fun ch => (ch.serial_to : Int)).getD
             c.apex_soa.serial) } })

/-- A batch whose first cells are the changesets `used` and whose remaining
cells, up to `allocated`, are blank (zero-filled, carrying the flags of the
batch). -/
def batch_of {α : Type} (used : List (knot_changeset_t α)) (allocated fl : Nat) :
    knot_changesets_t α :=
  { sets := used ++ List.replicate (allocated - used.length)
      { (knot_changeset_t.zeroed : knot_changeset_t α) with flags := fl },
    count := used.length, allocated := allocated, flags := fl }

/-- The journal entries `zones_load_changesets` reads for the serials `sfrom`
and `sto`: from the first entry that starts at `sfrom`, in insertion order,
up to and including the first entry whose target serial is `sto`. -/
def chain_entries (j : journal_t) (sfrom sto : Nat) : List journal_node_t :=
  entries_read sto ((journal_fetch j sfrom ixfrdb_key_from_cmp).2.getD []) sfrom

/-- The serial pair of a journal key. -/
def key_serials (n : journal_node_t) : Nat × Nat :=
  (ixfrdb_key_from n.id, ixfrdb_key_to n.id)

/-- The serial pair of a changeset. -/
def knot_changeset_t.serials {α : Type} (ch : knot_changeset_t α) : Nat × Nat :=
  (ch.serial_from, ch.serial_to)

/-- Example replay for `zones_journal_apply`: the journal
`example_journal_cycle`, the example codec and `example_apply`. -/
def example_load_and_apply (zone : knot_zone_t) (serial : Nat) :
    Code × Option knot_zone_contents_t :=
  (journal_apply_replay toy_ops 8 (journal_read example_journal_cycle) example_apply
    (some example_journal_cycle) zone serial).getD (Code.KNOT_ERROR, none)

/-- The three changesets of `example_journal_cycle` as unpacked. -/
def example_cycle_parsed : List (knot_changeset_t toy_rrset) :=
  [{ (knot_changeset_t.of_binary [6, 10, 6, 11] 10 11 : knot_changeset_t toy_rrset) with
     soa_from := some (6, 10), soa_to := some (6, 11) },
   { (knot_changeset_t.of_binary [6, 11, 6, 10] 11 10 : knot_changeset_t toy_rrset) with
     soa_from := some (6, 11), soa_to := some (6, 10) },
   { (knot_changeset_t.of_binary [6, 10, 6, 12] 10 12 : knot_changeset_t toy_rrset) with
     soa_from := some (6, 10), soa_to := some (6, 12) }]

/-! ## Storing changesets into the journal (`zones.c`) -/

/-- Modelled from the spec: `journal_write`,
`write(key, bytes) → ok | OutOfSpace | Fatal`. The outcome `ret` of the call
is given from outside; on ok the entry is appended to the journal with the
journal's default flags (`JOURNAL_DIRTY`), otherwise the journal is as
before. -/
def journal_write (JOURNAL_DIRTY : Nat) (ret : Code) (j : journal_t) (id : Nat)
    (src : List Nat) : Code × journal_t :=
  if ret = Code.KNOTD_EOK then
    (Code.KNOTD_EOK,
     { j with nodes := j.nodes ++ [{ id := id, flags := JOURNAL_DIRTY, data := src }] })
  else (ret, j)

/-- What `zones_store_changesets` works on besides the batch: the zone, the
journal behind `zd->ixfr_db`, the scheduler, the zone dumps made so far and
the number of `journal_write` calls made so far. -/
structure store_state where
  zone : knot_zone_t
  j : journal_t
  sched : evsched_t
  dumps : List (knot_zone_contents_t × String)
  writes : Nat
  deriving DecidableEq, Repr

/-- The `while (ret != KNOTD_EOK)` loop of `zones_store_changesets` for the
entry with key `k` and value `data`; `ret` is the result of the write just
made and `write_ret i` the outcome of the `i`-th `journal_write` call. The
result is `KNOTD_EOK` when the loop ends normally and `KNOTD_ERROR` for the
`return KNOTD_ERROR`; `none` when `fuel` iterations do not end the loop or
`zone->data` is `NULL`. -/
def store_retry_loop (JOURNAL_DIRTY : Nat) (write_ret : Nat → Code) (k : Nat)
    (data : List Nat) : Nat → Code → store_state → Option (Code × store_state)
  | 0, _, _ => none
  | fuel + 1, ret, st =>
    if ret = Code.KNOTD_EOK then some (Code.KNOTD_EOK, st)
    else
      -- Sync to zonefile may be needed.
      if ret = Code.KNOTD_EAGAIN then
        match st.zone.data with
        | none => none
        | some zd =>
          -- Cancel sync timer.
          let tmr := zd.ixfr_dbsync
          let sched :=
            match tmr with
            | some t => evsched_cancel st.sched t
            | none => st.sched
          -- Synchronize.
          let r := zones_zonefile_sync JOURNAL_DIRTY (some st.zone) (some st.j) st.dumps
          let zone := r.2.1.getD st.zone
          let j := r.2.2.1.getD st.j
          if r.1 ≠ Code.KNOTD_EOK then
            store_retry_loop JOURNAL_DIRTY write_ret k data fuel r.1
              { st with zone := zone, j := j, sched := sched, dumps := r.2.2.2 }
          else
            -- Reschedule sync timer.
            let timeout : Int := ((zone.data.map fun d => d.conf.dbsync_timeout).getD 0) * 1000
            let sched :=
              match tmr with
              | some t => evsched_schedule sched (some t) (int_to_uint32 timeout)
              | none => sched
            -- Attempt to write again.
            let w := journal_write JOURNAL_DIRTY (write_ret st.writes) j k data
            store_retry_loop JOURNAL_DIRTY write_ret k data fuel w.1
              { zone := zone, j := w.2, sched := sched, dumps := r.2.2.2,
                writes := st.writes + 1 }
      else
        -- Other errors.
        some (Code.KNOTD_ERROR, st)

/-- The `for (unsigned i = 0; i < src->count; ++i)` loop of
`zones_store_changesets`: write every changeset of the batch to the journal,
in order. The result is the return code, the batch and the state. -/
def store_changesets_loop {α : Type} (JOURNAL_DIRTY : Nat) (write_ret : Nat → Code)
    (fuel : Nat) :
    List (knot_changeset_t α) → store_state →
      Option (Code × List (knot_changeset_t α) × store_state)
  | [], st => some (Code.KNOTD_EOK, [], st)
  | chs :: rest, st =>
    -- Make key from serials.
    let k := ixfrdb_key_make chs.serial_from chs.serial_to
    -- Write entry.
    let data := (chs.data.getD []).take chs.size
    let w := journal_write JOURNAL_DIRTY (write_ret st.writes) st.j k data
    -- Check for errors.
    match store_retry_loop JOURNAL_DIRTY write_ret k data fuel w.1
        { st with j := w.2, writes := st.writes + 1 } with
    | none => none
    | some r =>
      if r.1 ≠ Code.KNOTD_EOK then some (Code.KNOTD_ERROR, chs :: rest, r.2)
      else
        -- Free converted binary data.
        (store_changesets_loop JOURNAL_DIRTY write_ret fuel rest r.2).map fun u =>
          (u.1, { chs with data := none, size := 0 } :: u.2.1, u.2.2)

/-- What `zones_store_changesets` leaves behind. -/
structure store_result (α : Type) where
  ret : Code
  src : Option (List (knot_changeset_t α))
  zone : Option knot_zone_t
  j : Option journal_t
  sched : evsched_t
  dumps : List (knot_zone_contents_t × String)
  writes : Nat
  deriving DecidableEq, Repr

/-- `zones_store_changesets`: serialise the batch `xfr->data` and write it to
the journal of the zone `xfr->zone`. `none` when `zone->data` is `NULL` or
`fuel` does not suffice for a retry loop. -/
def zones_store_changesets {α : Type}
    (knot_zdump_rrset_serialize : Option α → Option (List Nat)) (JOURNAL_DIRTY : Nat)
    (write_ret : Nat → Code) (fuel : Nat) (src : Option (List (knot_changeset_t α)))
    (zone : Option knot_zone_t) (j : Option journal_t) (sched : evsched_t)
    (dumps : List (knot_zone_contents_t × String)) : Option (store_result α) :=
  match src, zone with
  | some src, some zone =>
    -- Convert to binary format.
    let b := zones_changesets_to_binary knot_zdump_rrset_serialize src
    if !b.1.is_eok then
      some { ret := b.1, src := some b.2, zone := some zone, j := j, sched := sched,
             dumps := dumps, writes := 0 }
    else
      -- Fetch zone-specific data.
      match zone.data with
      | none => none
      | some _ =>
        match j with
        | none =>
          some { ret := Code.KNOTD_EINVAL, src := some b.2, zone := some zone, j := none,
                 sched := sched, dumps := dumps, writes := 0 }
        | some j =>
          -- Begin writing to journal.
          (store_changesets_loop JOURNAL_DIRTY write_ret fuel b.2
              { zone := zone, j := j, sched := sched, dumps := dumps, writes := 0 }).map
            fun u =>
              { ret := u.1, src := some u.2.1, zone := some u.2.2.zone, j := some u.2.2.j,
                sched := u.2.2.sched, dumps := u.2.2.dumps, writes := u.2.2.writes }
  | _, _ =>
    some { ret := Code.KNOTD_EINVAL, src := src, zone := zone, j := j, sched := sched,
           dumps := dumps, writes := 0 }

/-! ## Specification-side definitions for the journal store -/

/-- The keys and values of a journal, in insertion order. -/
def journal_kv (j : journal_t) : List (Nat × List Nat) :=
  j.nodes.map fun n => (n.id, n.data)

/-- The key and value `zones_store_changesets` writes for a serialised
changeset: the key made of its serials and the first `size` bytes of its
block. -/
def changeset_kv {α : Type} (chs : knot_changeset_t α) : Nat × List Nat :=
  (ixfrdb_key_make chs.serial_from chs.serial_to, (chs.data.getD []).take chs.size)

/-- The key and value the format prescribes for a changeset: the key made of
its serials and its binary form. -/
def spec_changeset_kv {α : Type} (ser : Option α → Option (List Nat))
    (chs : knot_changeset_t α) : Nat × List Nat :=
  (ixfrdb_key_make chs.serial_from chs.serial_to, spec_changeset_binary ser chs)

/-- The journal entry a successful write makes of a key and a value. -/
def journal_entry (JOURNAL_DIRTY : Nat) (kv : Nat × List Nat) : journal_node_t :=
  { id := kv.1, flags := JOURNAL_DIRTY, data := kv.2 }

/-- Example batch [10 → 11, 11 → 12] of the two-byte codec. -/
def toy_batch : List (knot_changeset_t toy_rrset) :=
  [knot_changeset_t.fresh (some (6, 10)) [(1, 5)] (some (6, 11)) [] 10 11,
   knot_changeset_t.fresh (some (6, 11)) [] (some (6, 12)) [(1, 7)] 11 12]

/-- Example zone `example.` at serial 12 whose zonefile is at serial 10, with
the zonefile-sync event 3. -/
def example_zone_syncing : knot_zone_t :=
  { name := "example.",
    contents := some { apex_soa := { example_soa 3600 600 86400 with serial := 12 } },
    data := some { example_zonedata (-1) with ixfr_dbsync := some 3 } }

/-- Example scheduler with the zonefile-sync event 3 of `example.` armed. -/
def example_sched_sync : evsched_t :=
  { events := [{ id := 3, cb := event_cb_t.zones_zonefile_sync_ev, data := "example.",
                 timer := some 5000 }],
    fresh := 4 }

/-- Journal writes that all succeed. -/
def write_ok : Nat → Code := fun _ => Code.KNOTD_EOK

/-- Journal writes of which the second call (index 1) reports out of space
and all others succeed. -/
def write_again_once : Nat → Code := fun i =>
  if i = 1 then Code.KNOTD_EAGAIN else Code.KNOTD_EOK

/-- What `zones_store_changesets` returns for `toy_batch`, the zone
`example_zone_syncing`, an empty journal and `write_again_once`: both
changesets are in the journal, the first with its dirty flag cleared by the
forced sync, the zonefile is at serial 12 after one dump, the sync event 3 is
armed at 60000 ms and three writes were made. -/
def example_store_retried : store_result toy_rrset :=
  { ret := Code.KNOTD_EOK,
    src := some (toy_batch.map fun ch => { ch with allocated := 6 }),
    zone := some
      { example_zone_syncing with
        data := some { example_zonedata (-1) with ixfr_dbsync := some 3, zonefile_serial := 12 } },
    j := some
      { nodes := [{ id := 47244640266, flags := 0, data := [6, 10, 1, 5, 6, 11] },
                  { id := 51539607563, flags := example_dirty, data := [6, 11, 6, 12, 1, 7] }] },
    sched :=
      { events := [{ id := 3, cb := event_cb_t.zones_zonefile_sync_ev, data := "example.",
                     timer := some 60000 }],
        fresh := 4 },
    dumps := [({ apex_soa := { example_soa 3600 600 86400 with serial := 12 } }, "")],
    writes := 3 }

/-! ## Lemmas: changeset serialisation -/

theorem rrset_to_binary_step {α : Type} (ser : Option α → Option (List Nat))
    (st : Option (List Nat) × Nat × Nat) (r : Option α) (b : List Nat)
    (hfull : binary_full st) (hser : ser r = some b) :
    ∃ st1, zones_changeset_rrset_to_binary ser st r = (Code.KNOT_EOK, st1) ∧
      st1.1.getD [] = st.1.getD [] ++ b ∧ st1.2.1 = st.2.1 + b.length ∧ binary_full st1 := by
  obtain ⟨data, size, allocated⟩ := st
  obtain ⟨h1, h2⟩ := hfull
  simp only at h1 h2
  subst h1
  unfold zones_changeset_rrset_to_binary zones_check_binary_size
  simp only [hser]
  by_cases hle : size + b.length ≤ size
  · have hb : b = [] := by
      have : b.length = 0 := by omega
      exact List.length_eq_zero.mp this
    subst hb
    simp only [List.length_nil, Nat.add_zero, Nat.le_refl, if_true]
    refine ⟨_, rfl, ?_, rfl, ?_⟩
    · cases data <;> simp
    · cases data with
      | none => simpa [binary_full] using h2
      | some d => simpa [binary_full] using h2
  · simp only [hle, if_false]
    have htake : List.take size (data.getD []) = data.getD [] :=
      List.take_of_length_le (by omega)
    rw [htake]
    refine ⟨_, rfl, ?_, rfl, ?_⟩
    · simp only [Option.map_some', Option.getD_some, h2]
      rw [List.take_append_of_le_length (by omega), List.take_of_length_le (by omega)]
      rw [List.drop_of_length_le (by simp [h2])]
      simp
    · simp only [binary_full, Option.map_some', Option.getD_some]
      simp [h2]

theorem rrset_to_binary_append {α : Type} (ser : Option α → Option (List Nat))
    (st : Option (List Nat) × Nat × Nat) (r : Option α)
    (hfull : binary_full st) (hser : (ser r).isSome) :
    ∃ st1, zones_changeset_rrset_to_binary ser st r = (Code.KNOT_EOK, st1) ∧
      st1.1.getD [] = st.1.getD [] ++ ser_bytes ser r ∧ binary_full st1 := by
  obtain ⟨b, hb⟩ := Option.isSome_iff_exists.mp hser
  obtain ⟨st1, h1, h2, _, h4⟩ := rrset_to_binary_step ser st r b hfull hb
  exact ⟨st1, h1, by simp [ser_bytes, hb, h2], h4⟩

theorem rrsets_to_binary_concat {α : Type} (ser : Option α → Option (List Nat))
    (rs : List α) : ∀ (st : Option (List Nat) × Nat × Nat), binary_full st →
    (∀ r ∈ rs, (ser (some r)).isSome) →
    ∃ st1, rrsets_to_binary ser rs st = (Code.KNOT_EOK, st1) ∧
      st1.1.getD [] = st.1.getD [] ++ (rs.map fun r => ser_bytes ser (some r)).flatten ∧
      binary_full st1 := by
  induction rs with
  | nil => intro st hfull _; exact ⟨st, rfl, by simp, hfull⟩
  | cons r rs ih =>
    intro st hfull hser
    obtain ⟨st1, h1, h2, h3⟩ :=
      rrset_to_binary_append ser st (some r) hfull (hser r (List.mem_cons_self _ _))
    obtain ⟨st2, k1, k2, k3⟩ := ih st1 h3 (fun x hx => hser x (List.mem_cons_of_mem _ hx))
    refine ⟨st2, ?_, ?_, k3⟩
    · simp only [rrsets_to_binary, h1, k1]
    · rw [k2, h2]; simp

theorem changeset_to_binary_concat {α : Type} (ser : Option α → Option (List Nat))
    (ch : knot_changeset_t α) (hfresh : unserialised ch) (hser : serialisable ser ch) :
    ∃ ch1, changeset_to_binary ser ch = (Code.KNOT_EOK, ch1) ∧
      ch1.data.getD [] = spec_changeset_binary ser ch ∧
      ch1.size = (spec_changeset_binary ser ch).length ∧
      ch1 = { ch with data := ch1.data, size := ch1.size, allocated := ch1.allocated } := by
  obtain ⟨hd, hs, ha⟩ := hfresh
  obtain ⟨s1, s2, s3, s4⟩ := hser
  have h0 : binary_full (ch.data, ch.size, ch.allocated) := by
    simp [binary_full, hd, hs, ha]
  obtain ⟨st1, a1, a2, a3⟩ := rrset_to_binary_append ser _ ch.soa_from h0 s1
  obtain ⟨st2, b1, b2, b3⟩ := rrsets_to_binary_concat ser ch.remove st1 a3 s2
  obtain ⟨st3, c1, c2, c3⟩ := rrset_to_binary_append ser st2 ch.soa_to b3 s3
  obtain ⟨st4, d1, d2, d3⟩ := rrsets_to_binary_concat ser ch.add st3 c3 s4
  refine ⟨ch.with_binary st4, ?_, ?_, ?_, ?_⟩
  · simp only [changeset_to_binary, a1, b1, c1, d1]
  · simp [knot_changeset_t.with_binary, d2, c2, b2, a2, hd, spec_changeset_binary]
  · have hlen : st4.2.1 = (st4.1.getD []).length := by
      rw [d3.1, d3.2]
    simp only [knot_changeset_t.with_binary, hlen]
    simp [d2, c2, b2, a2, hd, spec_changeset_binary]
  · simp [knot_changeset_t.with_binary]

/-! ## Lemmas: changeset deserialisation -/

/-- More fuel does not change a result of the section loop. -/
theorem from_binary_loop_fuel_mono {α : Type} (ops : rrset_ops α) (k : Nat) :
    ∀ (fuel remaining : Nat) (flag : Bool) (chs : knot_changeset_t α)
      (r : Except (Code × knot_changeset_t α) (knot_changeset_t α)),
      from_binary_loop ops fuel remaining flag chs = some r →
      from_binary_loop ops (fuel + k) remaining flag chs = some r := by
  intro fuel
  induction fuel with
  | zero => intro remaining flag chs r h; simp [from_binary_loop] at h
  | succ n ih =>
    intro remaining flag chs r h
    have hk : n + 1 + k = (n + k) + 1 := by omega
    rw [hk]
    unfold from_binary_loop at h ⊢
    by_cases hrem : remaining > 0
    · simp only [hrem, if_true] at h ⊢
      cases hdes : ops.knot_zload_rrset_deserialize
          (List.drop (chs.size - remaining) (List.take chs.size (chs.data.getD []))) remaining with
      | none => simpa [hdes] using h
      | some p =>
        obtain ⟨rrset, remaining1⟩ := p
        simp only [hdes] at h ⊢
        by_cases hsoa : ops.knot_rrset_type rrset = KNOT_RRTYPE_SOA
        · simp only [hsoa, if_true] at h ⊢
          cases flag with
          | true =>
            simp only [if_true, knot_changeset_store_soa] at h ⊢
            exact ih _ _ _ _ h
          | false => simpa using h
        · simp only [hsoa, if_false] at h ⊢
          cases flag with
          | true =>
            simp only [if_true, knot_changeset_add_rrset] at h ⊢
            exact ih _ _ _ _ h
          | false =>
            simp only [Bool.false_eq_true, if_false, knot_changeset_add_rrset] at h ⊢
            exact ih _ _ _ _ h
    · simpa [hrem] using h

/-- More fuel does not change a result of `zones_changesets_from_binary`. -/
theorem zones_changesets_from_binary_fuel_mono {α : Type} (ops : rrset_ops α)
    (fuel k : Nat) :
    ∀ (chgsets : List (knot_changeset_t α)) (r : Code × List (knot_changeset_t α)),
      zones_changesets_from_binary ops fuel chgsets = some r →
      zones_changesets_from_binary ops (fuel + k) chgsets = some r := by
  intro chgsets
  induction chgsets with
  | nil => intro r h; simpa [zones_changesets_from_binary] using h
  | cons chs rest ih =>
    intro r h
    unfold zones_changesets_from_binary at h ⊢
    have hone : ∀ x, changeset_from_binary ops fuel chs = some x →
        changeset_from_binary ops (fuel + k) chs = some x := by
      intro x hx
      unfold changeset_from_binary at hx ⊢
      cases hdes : ops.knot_zload_rrset_deserialize
          (List.take chs.size (chs.data.getD [])) chs.size with
      | none => simpa [hdes] using hx
      | some p =>
        obtain ⟨rrset, remaining⟩ := p
        simp only [hdes] at hx ⊢
        exact from_binary_loop_fuel_mono ops k _ _ _ _ _ hx
    cases hc : changeset_from_binary ops fuel chs with
    | none => simp [hc] at h
    | some x =>
      rw [hone x hc]
      rw [hc] at h
      cases x with
      | error ret => simpa using h
      | ok chs1 =>
        simp only at h ⊢
        cases hr : zones_changesets_from_binary ops fuel rest with
        | none => simp [hr] at h
        | some r1 =>
          rw [ih r1 hr]
          simpa [hr] using h

/-- The example codec is faithful: a serialised record followed by anything
parses back to the record and consumes exactly its two bytes. -/
theorem toy_codec_faithful (r : toy_rrset) (rest : List Nat) (remaining : Nat)
    (h : 2 ≤ remaining) :
    toy_deserialize (ser_bytes toy_serialize (some r) ++ rest) remaining
      = some (r, remaining - 2) := by
  obtain ⟨t, v⟩ := r
  simp [ser_bytes, toy_serialize, toy_deserialize, h]

/-! ## Lemmas: journal keys -/

theorem ixfrdb_key_from_eq_mod (k : Nat) : ixfrdb_key_from k = k % 2 ^ 32 := by
  unfold ixfrdb_key_from
  have h : (0x00000000ffffffff : Nat) = 2 ^ 32 - 1 := by norm_num
  rw [h, Nat.and_pow_two_sub_one_eq_mod, Nat.mod_mod]

theorem ixfrdb_key_to_eq_div (k : Nat) : ixfrdb_key_to k = (k / 2 ^ 32) % 2 ^ 32 := by
  unfold ixfrdb_key_to
  rw [Nat.shiftRight_eq_div_pow]

theorem ixfrdb_key_make_eq_add (sfrom sto : Nat) :
    ixfrdb_key_make sfrom sto = 2 ^ 32 * (sto % 2 ^ 32) + sfrom % 2 ^ 32 := by
  unfold ixfrdb_key_make
  have hlt : (sto % 2 ^ 32) <<< 32 < 2 ^ 64 := by
    rw [Nat.shiftLeft_eq]
    have : sto % 2 ^ 32 < 2 ^ 32 := Nat.mod_lt _ (by norm_num)
    omega
  rw [Nat.mod_eq_of_lt hlt, Nat.shiftLeft_eq, Nat.mul_comm]
  exact (Nat.mul_add_lt_is_or (Nat.mod_lt _ (by norm_num)) _).symm

/-! ## Lemmas: SOA timers -/

/-- What `zones_soa_timer` computes for a zone with contents: the selected
field times 1000, reduced to 32 bits. -/
theorem zones_soa_timer_eq (zone : knot_zone_t) (zc : knot_zone_contents_t)
    (rr_func : knot_rdata_t → Nat) (hc : zone.contents = some zc) :
    zones_soa_timer (some zone) rr_func = (rr_func zc.apex_soa % 2 ^ 32 * 1000) % 2 ^ 32 := by
  simp [zones_soa_timer, hc]

/-- Below the overflow bound the REFRESH timer is the SOA field times 1000. -/
theorem zones_soa_refresh_small (zone : knot_zone_t) (zc : knot_zone_contents_t)
    (hc : zone.contents = some zc) (hv : zc.apex_soa.refresh * 1000 < 2 ^ 32) :
    zones_soa_refresh (some zone) = zc.apex_soa.refresh * 1000 := by
  unfold zones_soa_refresh
  rw [zones_soa_timer_eq zone zc _ hc]
  unfold knot_rdata_soa_refresh
  omega

/-! ## Lemmas: scheduler -/

theorem find_map_schedule (l : List event_t) (ev dt : Nat) (h : ∃ e ∈ l, e.id = ev) :
    ((l.map fun e => if e.id = ev then { e with timer := some dt } else e).find?
      fun e => e.id = ev).bind (fun e => e.timer) = some dt := by
  induction l with
  | nil => simp at h
  | cons a l ih =>
    by_cases ha : a.id = ev
    · simp [List.find?, ha]
    · have h1 : ∃ e ∈ l, e.id = ev := by
        obtain ⟨e, he, hid⟩ := h
        rcases List.mem_cons.mp he with rfl | hl
        · exact absurd hid ha
        · exact ⟨e, hl, hid⟩
      simpa [List.find?, ha] using ih h1

theorem armed_schedule (s : evsched_t) (ev dt : Nat) (h : ∃ e ∈ s.events, e.id = ev) :
    (evsched_schedule s (some ev) dt).armed ev = some dt := by
  unfold evsched_schedule evsched_t.armed
  exact find_map_schedule s.events ev dt h

theorem exists_cancel (s : evsched_t) (c ev : Nat) (h : ∃ e ∈ s.events, e.id = ev) :
    ∃ e ∈ (evsched_cancel s c).events, e.id = ev := by
  obtain ⟨e, he, hid⟩ := h
  unfold evsched_cancel
  refine ⟨if e.id = c then { e with timer := none } else e, ?_, ?_⟩
  · simp only [List.mem_map]
    exact ⟨e, he, rfl⟩
  · split_ifs <;> simp [hid]

theorem exists_event_free (s : evsched_t) (c ev : Nat) (hne : ev ≠ c)
    (h : ∃ e ∈ s.events, e.id = ev) :
    ∃ e ∈ (evsched_event_free s c).events, e.id = ev := by
  obtain ⟨e, he, hid⟩ := h
  unfold evsched_event_free
  refine ⟨e, ?_, hid⟩
  simp only [List.mem_filter]
  refine ⟨he, ?_⟩
  simp [hid, hne]

theorem event_free_absent (s : evsched_t) (c : Nat) :
    ∀ e ∈ (evsched_event_free s c).events, e.id ≠ c := by
  intro e he
  unfold evsched_event_free at he
  simp only [List.mem_filter] at he
  simpa using he.2

theorem cancel_absent (s : evsched_t) (c ev : Nat) (h : ∀ e ∈ s.events, e.id ≠ ev) :
    ∀ e ∈ (evsched_cancel s c).events, e.id ≠ ev := by
  intro e he
  unfold evsched_cancel at he
  simp only [List.mem_map] at he
  obtain ⟨a, ha, rfl⟩ := he
  split_ifs <;> exact h a ha

theorem schedule_absent (s : evsched_t) (c : Option Nat) (dt ev : Nat)
    (h : ∀ e ∈ s.events, e.id ≠ ev) :
    ∀ e ∈ (evsched_schedule s c dt).events, e.id ≠ ev := by
  intro e he
  cases c with
  | none => exact h e he
  | some i =>
    unfold evsched_schedule at he
    simp only [List.mem_map] at he
    obtain ⟨a, ha, rfl⟩ := he
    split_ifs <;> exact h a ha

/-! ## Lemmas: response dispatcher -/

/-- An SOA response that is not awaited is refused with an error, a zero
response size and an unchanged name server. -/
theorem zones_process_response_reject
    (needed : knot_zone_contents_t → knot_packet_t → Int)
    (ns : knot_nameserver_t) (sfrom : sockaddr_t) (packet : knot_packet_t)
    (wire : List Nat) (rsize : Nat)
    (hq : packet.qtype = KNOT_RRTYPE_SOA) (hid : packet.id < 2 ^ 16)
    (hno : ¬ soa_response_awaited ns packet) :
    (zones_process_response needed (some ns) (some sfrom) (some packet) (some wire)
        (some rsize) = (Code.KNOTD_EINVAL, some ns, some 0) ∨
     zones_process_response needed (some ns) (some sfrom) (some packet) (some wire)
        (some rsize) = (Code.KNOTD_ERROR, some ns, some 0)) := by
  unfold zones_process_response
  simp only [hq, if_true]
  cases hz : knot_zonedb_find_zone ns.zone_db packet.qname with
  | none => left; simp
  | some zone =>
    cases hd : zone.data with
    | none => left; simp [hd]
    | some zd =>
      cases hc : zone.contents with
      | none => left; simp [hd, hc]
      | some contents =>
        right
        have hne : (packet.id : Int) ≠ zd.xfr_in.next_id := by
          intro h
          exact hno ⟨zone, zd, contents, hz, hd, hc, h⟩
        have hmod : packet.id % 2 ^ 16 = packet.id := Nat.mod_eq_of_lt hid
        simp only [Option.some_bind, hd, hc, hmod]
        rw [if_pos hne]

/-- An accepted SOA response that needs no transfer: the call returns ok with
a zero response size, the zone's EXPIRE timer is cleared and its event
destroyed, the REFRESH event is armed at the SOA refresh value times 1000
reduced to 32 bits, and the transfer queue is unchanged. -/
theorem zones_process_response_no_transfer
    (needed : knot_zone_contents_t → knot_packet_t → Int)
    (ns : knot_nameserver_t) (sfrom : sockaddr_t) (packet : knot_packet_t)
    (wire : List Nat) (rsize : Nat) (zone : knot_zone_t) (zd : zonedata_t)
    (contents : knot_zone_contents_t)
    (hq : packet.qtype = KNOT_RRTYPE_SOA) (hid : packet.id < 2 ^ 16)
    (hz : knot_zonedb_find_zone ns.zone_db packet.qname = some zone)
    (hd : zone.data = some zd) (hc : zone.contents = some contents)
    (hmatch : (packet.id : Int) = zd.xfr_in.next_id)
    (hn : needed contents packet < 1) :
    ∃ sched1,
      zones_process_response needed (some ns) (some sfrom) (some packet) (some wire)
          (some rsize) =
        (Code.KNOTD_EOK,
         some { zone_db := zonedb_store ns.zone_db
                  { zone with data := some { zd with xfr_in := { zd.xfr_in with expire := none } } },
                data := { sched := sched1, xfr_h := ns.data.xfr_h } },
         some 0) ∧
      (∀ ev, zd.xfr_in.expire = some ev → ∀ e ∈ sched1.events, e.id ≠ ev) ∧
      (∀ ev, zd.xfr_in.timer = some ev → zd.xfr_in.expire ≠ some ev →
        (∃ e ∈ ns.data.sched.events, e.id = ev) →
        sched1.armed ev = some (knot_rdata_soa_refresh contents.apex_soa * 1000 % 2 ^ 32)) := by
  have hmod : packet.id % 2 ^ 16 = packet.id := Nat.mod_eq_of_lt hid
  unfold zones_process_response
  simp only [hq, if_true, hz, Option.some_bind, hd, hc, hmod, hn]
  rw [if_neg (by simpa using hmatch)]
  obtain ⟨conf, ⟨master, timer, expire, next_id⟩, np, sync, zs, lk⟩ := zd
  cases expire with
  | none =>
    cases timer with
    | none =>
      refine ⟨_, rfl, ?_, ?_⟩
      · intro ev h; simp at h
      · intro ev h; simp at h
    | some t =>
      refine ⟨_, rfl, ?_, ?_⟩
      · intro ev h; simp at h
      · intro ev h _ hex
        simp only [Option.some.injEq] at h
        subst h
        exact armed_schedule _ _ _ (exists_cancel _ _ _ hex)
  | some x =>
    cases timer with
    | none =>
      refine ⟨_, rfl, ?_, ?_⟩
      · intro ev h
        simp only [Option.some.injEq] at h
        subst h
        exact schedule_absent _ _ _ _ (event_free_absent _ _)
      · intro ev h; simp at h
    | some t =>
      refine ⟨_, rfl, ?_, ?_⟩
      · intro ev h
        simp only [Option.some.injEq] at h
        subst h
        exact schedule_absent _ _ _ _ (cancel_absent _ _ _ (event_free_absent _ _))
      · intro ev h hne hex
        simp only [Option.some.injEq] at h
        subst h
        have hne1 : t ≠ x := fun h => hne (by simp [h])
        exact armed_schedule _ _ _
          (exists_cancel _ _ _ (exists_event_free _ _ _ hne1 (exists_cancel _ _ _ hex)))

/-! ## Changeset format: round trips and section order -/

/-- C1: evaluation of the round trip parse-after-serialise at the changeset
1 → 2 that removes the record (1, 10) and adds the record (1, 20), with a
faithful two-byte codec. The binary is `6 1 1 10 6 2 1 20`, both SOAs come
back, but the parsed changeset has both records in its removals and no
additions, so the additions are not the original ones up to reordering:
the section loop never leaves the REMOVE section. -/
theorem changeset_roundtrip_loses_additions :
    changeset_roundtrip toy_serialize toy_ops 8 toy_changeset
      = some (Code.KNOT_EOK, [toy_parsed]) ∧
    toy_parsed.soa_from = toy_changeset.soa_from ∧
    toy_parsed.soa_to = toy_changeset.soa_to ∧
    toy_parsed.remove = [(1, 10), (1, 20)] ∧
    toy_parsed.add = [] ∧
    toy_changeset.add = [(1, 20)] ∧
    ¬ List.Perm toy_parsed.add toy_changeset.add := by
  refine ⟨by decide, rfl, rfl, rfl, rfl, rfl, ?_⟩
  simp [toy_parsed, toy_changeset, knot_changeset_t.fresh]

/-- C2: evaluation of the round trip serialise-after-parse at the buffer
`6 1 1 10 6 2 1 20`, which `zones_changesets_to_binary` produces from the
example changeset. Parsing it and serialising the parsed changeset gives
`6 1 1 10 1 20 6 2`: the added record has moved in front of the second SOA,
so the bytes of the buffer are not reproduced. -/
theorem binary_roundtrip_reorders_buffer :
    (zones_changesets_to_binary toy_serialize [toy_changeset]).1 = Code.KNOT_EOK ∧
    ((zones_changesets_to_binary toy_serialize [toy_changeset]).2.map fun ch => ch.data)
      = [some toy_buffer] ∧
    binary_roundtrip toy_serialize toy_ops 8 toy_buffer 1 2
      = some (Code.KNOT_EOK, [some [6, 1, 1, 10, 1, 20, 6, 2]]) ∧
    [6, 1, 1, 10, 1, 20, 6, 2] ≠ toy_buffer := by
  refine ⟨by decide, by decide, by decide, by decide⟩

/-- C3: for every batch of not yet serialised changesets whose records all
serialise, `zones_changesets_to_binary` returns ok and gives each changeset
the binary ser(soa_from), ser of each removal in list order, ser(soa_to),
ser of each addition in list order, nothing else, with `size` the total
length; the other fields of the changeset are unchanged. -/
theorem zones_changesets_to_binary_concat {α : Type}
    (knot_zdump_rrset_serialize : Option α → Option (List Nat))
    (chgsets : List (knot_changeset_t α))
    (h : ∀ ch ∈ chgsets, unserialised ch ∧ serialisable knot_zdump_rrset_serialize ch) :
    ∃ out, zones_changesets_to_binary knot_zdump_rrset_serialize chgsets
        = (Code.KNOT_EOK, out) ∧
      List.Forall₂ (fun ch ch1 =>
        ch1.data.getD [] = spec_changeset_binary knot_zdump_rrset_serialize ch ∧
        ch1.size = (spec_changeset_binary knot_zdump_rrset_serialize ch).length ∧
        ch1 = { ch with data := ch1.data, size := ch1.size, allocated := ch1.allocated })
        chgsets out := by
  induction chgsets with
  | nil => exact ⟨[], rfl, List.Forall₂.nil⟩
  | cons ch rest ih =>
    obtain ⟨hf, hs⟩ := h ch (List.mem_cons_self _ _)
    obtain ⟨ch1, e1, e2, e3, e4⟩ :=
      changeset_to_binary_concat knot_zdump_rrset_serialize ch hf hs
    obtain ⟨out, o1, o2⟩ := ih (fun x hx => h x (List.mem_cons_of_mem _ hx))
    refine ⟨ch1 :: out, ?_, List.Forall₂.cons ⟨e2, e3, e4⟩ o2⟩
    simp only [zones_changesets_to_binary, e1, o1]

/-- Witness of C3 at the example changeset and the two-byte codec. -/
theorem zones_changesets_to_binary_concat_witness :
    (∀ ch ∈ [toy_changeset], unserialised ch ∧ serialisable toy_serialize ch) ∧
    ∃ out, zones_changesets_to_binary toy_serialize [toy_changeset]
        = (Code.KNOT_EOK, out) ∧
      List.Forall₂ (fun ch ch1 =>
        ch1.data.getD [] = spec_changeset_binary toy_serialize ch ∧
        ch1.size = (spec_changeset_binary toy_serialize ch).length ∧
        ch1 = { ch with data := ch1.data, size := ch1.size, allocated := ch1.allocated })
        [toy_changeset] out := by
  have h : ∀ ch ∈ [toy_changeset], unserialised ch ∧ serialisable toy_serialize ch := by
    intro ch hch
    rw [List.mem_singleton] at hch
    subst hch
    simp [unserialised, serialisable, toy_changeset, knot_changeset_t.fresh, toy_serialize]
  exact ⟨h, zones_changesets_to_binary_concat toy_serialize [toy_changeset] h⟩

/-- C4: evaluation of the parser against the three-section reference parser.
On the buffer `6 1 1 10 6 2 1 20` the reference gives removals [(1, 10)] and
additions [(1, 20)], the code gives removals [(1, 10), (1, 20)] and no
additions. On the buffer with a third SOA (6, 3) followed by (1, 30) the
reference stops at the third SOA, the code stores it as soa_to and appends
(1, 30) to the removals. -/
theorem from_binary_differs_from_three_sections :
    spec_parse_buffer toy_ops 8 toy_buffer
      = some { soa_from := (6, 1), removals := [(1, 10)], soa_to := some (6, 2),
               additions := [(1, 20)] } ∧
    ((zones_changesets_from_binary toy_ops 8
        [knot_changeset_t.of_binary toy_buffer 1 2]).map
        fun r => (r.1, r.2.map fun ch => ch.sections))
      = some (Code.KNOT_EOK, [(some (6, 1), [(1, 10), (1, 20)], some (6, 2), [])]) ∧
    spec_parse_buffer toy_ops 8 toy_buffer_three_soa
      = some { soa_from := (6, 1), removals := [(1, 10)], soa_to := some (6, 2),
               additions := [(1, 20)] } ∧
    ((zones_changesets_from_binary toy_ops 8
        [knot_changeset_t.of_binary toy_buffer_three_soa 1 2]).map
        fun r => (r.1, r.2.map fun ch => ch.sections))
      = some (Code.KNOT_EOK,
          [(some (6, 1), [(1, 10), (1, 20), (1, 30)], some (6, 3), [])]) := by
  refine ⟨by decide, by rfl, by decide, by rfl⟩

/-! ## Journal keys -/

/-- C5: for 32-bit serials `sfrom`, `sto` the key `ixfrdb_key_make sfrom sto`
is the 64-bit value `(sto << 32) | sfrom`, `ixfrdb_key_from` and
`ixfrdb_key_to` give back `sfrom` and `sto`, and every 64-bit key `k` is the
key made of its two parts. -/
theorem ixfrdb_key_make_roundtrip (sfrom sto k : Nat)
    (hfrom : sfrom < 2 ^ 32) (hto : sto < 2 ^ 32) (hk : k < 2 ^ 64) :
    ixfrdb_key_make sfrom sto = (sto <<< 32) ||| sfrom ∧
    ixfrdb_key_make sfrom sto < 2 ^ 64 ∧
    ixfrdb_key_from (ixfrdb_key_make sfrom sto) = sfrom ∧
    ixfrdb_key_to (ixfrdb_key_make sfrom sto) = sto ∧
    ixfrdb_key_make (ixfrdb_key_from k) (ixfrdb_key_to k) = k := by
  refine ⟨?_, ?_, ?_, ?_, ?_⟩
  · unfold ixfrdb_key_make
    rw [Nat.mod_eq_of_lt hto, Nat.mod_eq_of_lt hfrom, Nat.mod_eq_of_lt]
    rw [Nat.shiftLeft_eq]
    omega
  · rw [ixfrdb_key_make_eq_add]; omega
  · rw [ixfrdb_key_from_eq_mod, ixfrdb_key_make_eq_add]; omega
  · rw [ixfrdb_key_to_eq_div, ixfrdb_key_make_eq_add]; omega
  · rw [ixfrdb_key_make_eq_add, ixfrdb_key_from_eq_mod, ixfrdb_key_to_eq_div]; omega

/-- Witness of C5 at the serial pair 10 → 11 and the key `(12 << 32) | 11`. -/
theorem ixfrdb_key_make_roundtrip_witness :
    (10 < 2 ^ 32 ∧ 11 < 2 ^ 32 ∧ 51539607563 < 2 ^ 64) ∧
    ixfrdb_key_make 10 11 = (11 <<< 32) ||| 10 ∧
    ixfrdb_key_make 10 11 < 2 ^ 64 ∧
    ixfrdb_key_from (ixfrdb_key_make 10 11) = 10 ∧
    ixfrdb_key_to (ixfrdb_key_make 10 11) = 11 ∧
    ixfrdb_key_make (ixfrdb_key_from 51539607563) (ixfrdb_key_to 51539607563)
      = 51539607563 :=
  ⟨⟨by norm_num, by norm_num, by norm_num⟩,
   ixfrdb_key_make_roundtrip 10 11 51539607563 (by norm_num) (by norm_num) (by norm_num)⟩

/-- C6: for every 64-bit key `k` and 32-bit serial `s`, `ixfrdb_key_from_cmp`
returns 0 exactly when the low 32 bits of `k` are `s`, and `ixfrdb_key_to_cmp`
returns 0 exactly when the high 32 bits of `k` are `s`. -/
theorem ixfrdb_key_cmp_zero_iff (k s : Nat) (hk : k < 2 ^ 64) (hs : s < 2 ^ 32) :
    (ixfrdb_key_from_cmp k s = 0 ↔ k % 2 ^ 32 = s) ∧
    (ixfrdb_key_to_cmp k s = 0 ↔ k / 2 ^ 32 = s) := by
  constructor
  · unfold ixfrdb_key_from_cmp uint64_to_int
    rw [ixfrdb_key_from_eq_mod]
    simp only
    split_ifs <;> omega
  · unfold ixfrdb_key_to_cmp uint64_to_int
    rw [ixfrdb_key_to_eq_div]
    simp only
    split_ifs <;> omega

/-- Witness of C6 at the key `(12 << 32) | 11` and the serial 11. -/
theorem ixfrdb_key_cmp_zero_iff_witness :
    (51539607563 < 2 ^ 64 ∧ 11 < 2 ^ 32) ∧
    (ixfrdb_key_from_cmp 51539607563 11 = 0 ↔ 51539607563 % 2 ^ 32 = 11) ∧
    (ixfrdb_key_to_cmp 51539607563 11 = 0 ↔ 51539607563 / 2 ^ 32 = 11) :=
  ⟨⟨by norm_num, by norm_num⟩,
   ixfrdb_key_cmp_zero_iff 51539607563 11 (by norm_num) (by norm_num)⟩

/-! ## SOA timers -/

/-- C7: evaluation of the SOA timers at the 32-bit field value 4294968.
The timer in milliseconds is 4294968000, which does not fit 32 bits; the
multiplication wraps and `zones_soa_refresh`, `zones_soa_retry` and
`zones_soa_expire` each return 704. -/
theorem zones_soa_timer_wraps :
    4294968 < 2 ^ 32 ∧
    zones_soa_refresh (some (example_zone (example_soa 4294968 0 0) (-1))) = 704 ∧
    zones_soa_retry (some (example_zone (example_soa 0 4294968 0) (-1))) = 704 ∧
    zones_soa_expire (some (example_zone (example_soa 0 0 4294968) (-1))) = 704 ∧
    704 ≠ 4294968 * 1000 := by
  refine ⟨by norm_num, by decide, by decide, by decide, by norm_num⟩

/-! ## Response dispatcher -/

/-- C8: for an inbound SOA packet (16-bit id, all five arguments present),
`zones_process_response` goes past its checks only if the named zone exists,
has zone data and contents, and the packet id equals `xfr_in.next_id`. In
every other case it returns an error (`KNOTD_EINVAL` or `KNOTD_ERROR`), sets
the response size to 0 and leaves the whole name server, hence the zone's
EXPIRE timer, REFRESH timer and `next_id`, unchanged. When `next_id` is -1,
the value `zonedata_init` installs, no packet id is accepted. -/
theorem zones_process_response_soa_gate
    (needed : knot_zone_contents_t → knot_packet_t → Int)
    (ns : knot_nameserver_t) (sfrom : sockaddr_t) (packet : knot_packet_t)
    (wire : List Nat) (rsize : Nat)
    (hq : packet.qtype = KNOT_RRTYPE_SOA) (hid : packet.id < 2 ^ 16) :
    (¬ soa_response_awaited ns packet →
      (zones_process_response needed (some ns) (some sfrom) (some packet) (some wire)
          (some rsize) = (Code.KNOTD_EINVAL, some ns, some 0) ∨
       zones_process_response needed (some ns) (some sfrom) (some packet) (some wire)
          (some rsize) = (Code.KNOTD_ERROR, some ns, some 0))) ∧
    (((zones_process_response needed (some ns) (some sfrom) (some packet) (some wire)
          (some rsize)).1 = Code.KNOTD_EOK ∨
      (zones_process_response needed (some ns) (some sfrom) (some packet) (some wire)
          (some rsize)).2.1 ≠ some ns) →
      soa_response_awaited ns packet) ∧
    (∀ zone zd, knot_zonedb_find_zone ns.zone_db packet.qname = some zone →
      zone.data = some zd → zd.xfr_in.next_id = -1 →
      (zones_process_response needed (some ns) (some sfrom) (some packet) (some wire)
          (some rsize) = (Code.KNOTD_EINVAL, some ns, some 0) ∨
       zones_process_response needed (some ns) (some sfrom) (some packet) (some wire)
          (some rsize) = (Code.KNOTD_ERROR, some ns, some 0))) ∧
    (∀ cfg zone,
      ((zonedata_init cfg zone).2.data.map fun zd => zd.xfr_in.next_id) = some (-1)) := by
  refine ⟨?_, ?_, ?_, ?_⟩
  · exact zones_process_response_reject needed ns sfrom packet wire rsize hq hid
  · intro h
    by_contra hno
    rcases zones_process_response_reject needed ns sfrom packet wire rsize hq hid hno
      with hr | hr
    · rw [hr] at h; simp at h
    · rw [hr] at h; simp at h
  · intro zone zd hz hd hnext
    apply zones_process_response_reject needed ns sfrom packet wire rsize hq hid
    rintro ⟨zone1, zd1, contents, hz1, hd1, _, hm⟩
    rw [hz] at hz1
    cases hz1
    rw [hd] at hd1
    cases hd1
    rw [hnext] at hm
    omega
  · intro cfg zone
    unfold zonedata_init
    cases zone.contents with
    | none => rfl
    | some contents =>
      simp only
      split_ifs <;> rfl

/-- Witness of C8: the example zone awaits nothing (`next_id = -1`) and the
SOA response with id 0xFFFF is refused. -/
theorem zones_process_response_soa_gate_witness :
    ((example_packet 65535).qtype = KNOT_RRTYPE_SOA ∧ (example_packet 65535).id < 2 ^ 16) ∧
    (zones_process_response (fun _ _ => 0)
        (some (example_ns (example_soa 3600 600 86400) (-1))) (some example_master)
        (some (example_packet 65535)) (some []) (some 512)
      = (Code.KNOTD_EINVAL, some (example_ns (example_soa 3600 600 86400) (-1)), some 0) ∨
     zones_process_response (fun _ _ => 0)
        (some (example_ns (example_soa 3600 600 86400) (-1))) (some example_master)
        (some (example_packet 65535)) (some []) (some 512)
      = (Code.KNOTD_ERROR, some (example_ns (example_soa 3600 600 86400) (-1)), some 0)) :=
  ⟨⟨rfl, by decide⟩,
   (zones_process_response_soa_gate (fun _ _ => 0)
      (example_ns (example_soa 3600 600 86400) (-1)) example_master
      (example_packet 65535) [] 512 rfl (by decide)).2.2.1
      (example_zone (example_soa 3600 600 86400) (-1)) (example_zonedata (-1)) rfl rfl rfl⟩

/-- C9: evaluation of an accepted SOA response that needs no transfer, for a
zone whose apex SOA refresh field is 4294968. The call returns ok, the EXPIRE
timer is cancelled and cleared, no transfer request is enqueued, but the
REFRESH event is re-armed at 704 ms, the 32-bit wrap of 4294968000 ms. -/
theorem zones_process_response_refresh_wraps :
    zones_process_response (fun _ _ => 0)
        (some (example_ns (example_soa 4294968 600 86400) 7)) (some example_master)
        (some (example_packet 7)) (some []) (some 512)
      = (Code.KNOTD_EOK,
         some { zone_db :=
                  [{ name := "example.",
                     contents := some { apex_soa := example_soa 4294968 600 86400 },
                     data := some
                       { example_zonedata 7 with
                         xfr_in := { master := example_master, timer := some 1,
                                     expire := none, next_id := 7 } } }],
                data := { sched := { events := [{ id := 1, cb := event_cb_t.zones_refresh_ev,
                                                  data := "example.", timer := some 704 }],
                                     fresh := 3 },
                          xfr_h := [] } },
         some 0) ∧
    704 ≠ 4294968 * 1000 := by
  refine ⟨by decide, by norm_num⟩

/-! ## REFRESH/RETRY event -/

/-- C10: for a zone with zone data and no contents, `zones_refresh_ev`
enqueues exactly one transfer request, of type `XFR_TYPE_AIN` and addressed to
the zone's master, and returns: the scheduler is unchanged (no EXPIRE timer is
armed, the event is not rescheduled) and the zone, including `next_id`, is
unchanged. -/
theorem zones_refresh_ev_bootstrap (env : soa_query_env) (e : Nat) (zone : knot_zone_t)
    (zd : zonedata_t) (srv : server_t)
    (hd : zone.data = some zd) (hc : zone.contents = none) :
    zones_refresh_ev env e (some zone) srv =
      (ev_ret.code Code.KNOTD_EOK, some zone,
       { sched := srv.sched, xfr_h := srv.xfr_h ++ [bootstrap_request zone zd] }) ∧
    (bootstrap_request zone zd).type = xfr_type_t.XFR_TYPE_AIN ∧
    (bootstrap_request zone zd).addr = zd.xfr_in.master := by
  refine ⟨?_, rfl, rfl⟩
  simp [zones_refresh_ev, hd, hc, xfr_request, bootstrap_request]

/-- Witness of C10: the REFRESH event 1 fires for the example stub zone. -/
theorem zones_refresh_ev_bootstrap_witness :
    (example_stub.data.isSome ∧ example_stub.contents = none) ∧
    zones_refresh_ev example_env 1 (some example_stub)
        { sched := { events := [{ id := 1, cb := event_cb_t.zones_refresh_ev,
                                  data := "example.", timer := none }], fresh := 2 },
          xfr_h := [] } =
      (ev_ret.code Code.KNOTD_EOK, some example_stub,
       { sched := { events := [{ id := 1, cb := event_cb_t.zones_refresh_ev,
                                 data := "example.", timer := none }], fresh := 2 },
         xfr_h := [{ type := xfr_type_t.XFR_TYPE_AIN, addr := example_master,
                     data := some "example.", send := true, session := 0 }] }) :=
  ⟨⟨rfl, rfl⟩,
   (zones_refresh_ev_bootstrap example_env 1 example_stub
      { conf := { name := "example.", dbsync_timeout := 60, notify_retries := 5,
                  notify_timeout := 60 },
        xfr_in := { master := example_master, timer := some 1, expire := none,
                    next_id := -1 },
        notify_pending := [], ixfr_dbsync := none, zonefile_serial := 0 }
      { sched := { events := [{ id := 1, cb := event_cb_t.zones_refresh_ev,
                                data := "example.", timer := none }], fresh := 2 },
        xfr_h := [] } rfl rfl).1⟩

/-! ## Lemmas: REFRESH/RETRY and EXPIRE events -/

theorem filter_length_map_timer (l : List event_t) (f : event_t → event_t)
    (p : event_t → Bool) (hf : ∀ x, p (f x) = p x) :
    ((l.map f).filter p).length = (l.filter p).length := by
  induction l with
  | nil => rfl
  | cons a l ih =>
    simp only [List.map_cons, List.filter_cons, hf]
    split_ifs <;> simp [ih]

theorem count_for_schedule (s : evsched_t) (ev : Option Nat) (dt : Nat) (cb : event_cb_t)
    (name : knot_dname_t) :
    (evsched_schedule s ev dt).count_for cb name = s.count_for cb name := by
  cases ev with
  | none => rfl
  | some i =>
    unfold evsched_schedule evsched_t.count_for
    apply filter_length_map_timer
    intro x
    split_ifs <;> rfl

theorem count_for_schedule_cb (s : evsched_t) (cb1 cb : event_cb_t) (data name : knot_dname_t)
    (dt : Nat) :
    (evsched_schedule_cb s cb1 data dt).1.count_for cb name =
      s.count_for cb name + (if cb1 = cb ∧ data = name then 1 else 0) := by
  unfold evsched_schedule_cb evsched_t.count_for
  simp only [List.filter_append, List.length_append, List.filter_cons, List.filter_nil]
  split_ifs <;> simp_all

/-- What `zones_refresh_ev` does to the timers of a zone with contents: an
EXPIRE event that is already registered is kept and nothing is added; when
none is registered a new one is created, armed at `zones_soa_expire`; in both
cases the firing event is re-armed at `zones_soa_retry`, whatever the outcome
of sending the query. The number of EXPIRE events of the zone grows by one
exactly when none was registered, the number of REFRESH events is unchanged. -/
theorem zones_refresh_ev_timers (env : soa_query_env) (e : Nat) (zone : knot_zone_t)
    (zd : zonedata_t) (contents : knot_zone_contents_t) (srv : server_t)
    (hd : zone.data = some zd) (hc : zone.contents = some contents) :
    ∃ ret zd1 srv1,
      zones_refresh_ev env e (some zone) srv = (ret, some { zone with data := some zd1 }, srv1) ∧
      zd1.xfr_in.timer = zd.xfr_in.timer ∧
      (∀ x, zd.xfr_in.expire = some x →
        zd1.xfr_in.expire = some x ∧
        srv1.sched = evsched_schedule srv.sched (some e) (zones_soa_retry (some zone))) ∧
      (zd.xfr_in.expire = none →
        zd1.xfr_in.expire = some srv.sched.fresh ∧
        srv1.sched = evsched_schedule
          (evsched_schedule_cb srv.sched event_cb_t.zones_expire_ev zone.name
            (zones_soa_expire (some zone))).1 (some e) (zones_soa_retry (some zone))) ∧
      srv1.sched.count_for event_cb_t.zones_expire_ev zone.name =
        srv.sched.count_for event_cb_t.zones_expire_ev zone.name +
          (if zd.xfr_in.expire = none then 1 else 0) ∧
      srv1.sched.count_for event_cb_t.zones_refresh_ev zone.name =
        srv.sched.count_for event_cb_t.zones_refresh_ev zone.name := by
  obtain ⟨conf, ⟨master, timer, expire, next_id⟩, np, sync, zs, lk⟩ := zd
  unfold zones_refresh_ev
  simp only [hd, hc]
  by_cases h1 : env.create_ret = Code.KNOTD_EOK
  · by_cases h2 : ((if env.sock > -1 then env.sendto_ret else -1) % (2 ^ 64 : Int)).toNat
        = env.buflen
    · simp only [h1, h2, if_true]
      cases expire with
      | none =>
        refine ⟨_, _, _, rfl, rfl, ?_, ?_, ?_, ?_⟩
        · intro x hx; simp at hx
        · intro _; exact ⟨rfl, rfl⟩
        · simp [count_for_schedule, count_for_schedule_cb]
        · simp [count_for_schedule, count_for_schedule_cb]
      | some x =>
        refine ⟨_, _, _, rfl, rfl, ?_, ?_, ?_, ?_⟩
        · intro y hy
          simp only [Option.some.injEq] at hy
          subst hy
          exact ⟨rfl, rfl⟩
        · intro h; simp at h
        · simp [count_for_schedule]
        · simp [count_for_schedule]
    · simp only [h1, h2, if_true, if_false]
      cases expire with
      | none =>
        refine ⟨_, _, _, rfl, rfl, ?_, ?_, ?_, ?_⟩
        · intro x hx; simp at hx
        · intro _; exact ⟨rfl, rfl⟩
        · simp [count_for_schedule, count_for_schedule_cb]
        · simp [count_for_schedule, count_for_schedule_cb]
      | some x =>
        refine ⟨_, _, _, rfl, rfl, ?_, ?_, ?_, ?_⟩
        · intro y hy
          simp only [Option.some.injEq] at hy
          subst hy
          exact ⟨rfl, rfl⟩
        · intro h; simp at h
        · simp [count_for_schedule]
        · simp [count_for_schedule]
  · simp only [h1, if_false]
    cases expire with
    | none =>
      refine ⟨_, _, _, rfl, rfl, ?_, ?_, ?_, ?_⟩
      · intro x hx; simp at hx
      · intro _; exact ⟨rfl, rfl⟩
      · simp [count_for_schedule, count_for_schedule_cb]
      · simp [count_for_schedule, count_for_schedule_cb]
    | some x =>
      refine ⟨_, _, _, rfl, rfl, ?_, ?_, ?_, ?_⟩
      · intro y hy
        simp only [Option.some.injEq] at hy
        subst hy
        exact ⟨rfl, rfl⟩
      · intro h; simp at h
      · simp [count_for_schedule]
      · simp [count_for_schedule]

/-! ## REFRESH/RETRY event: timers -/

/-- C11: evaluation of `zones_refresh_ev` on a zone with contents whose apex
SOA expire and retry fields are 4294968, with no EXPIRE event registered and
the SOA query sent. A single EXPIRE event (id 3) is created and the REFRESH
event 1 is re-armed, so there is one event of each kind, but both delays are
704 ms, the 32-bit wrap of 4294968000 ms. -/
theorem zones_refresh_ev_timers_wrap :
    zones_refresh_ev example_env 1
        (some { name := "example.",
                contents := some { apex_soa := example_soa 3600 4294968 4294968 },
                data := some example_zonedata_idle })
        { sched := example_sched_idle, xfr_h := [] }
      = (ev_ret.raw 25,
         some { name := "example.",
                contents := some { apex_soa := example_soa 3600 4294968 4294968 },
                data := some
                  { example_zonedata_idle with
                    xfr_in := { master := example_master, timer := some 1,
                                expire := some 3, next_id := 7 } } },
         { sched := { events := [{ id := 1, cb := event_cb_t.zones_refresh_ev,
                                   data := "example.", timer := some 704 },
                                 { id := 3, cb := event_cb_t.zones_expire_ev,
                                   data := "example.", timer := some 704 }],
                      fresh := 4 },
           xfr_h := [{ type := xfr_type_t.XFR_TYPE_SOA, addr := example_master,
                       data := none, send := false, session := 5 }] }) ∧
    704 ≠ 4294968 * 1000 := by
  refine ⟨by decide, by norm_num⟩
/-! ## Lemmas: zone database -/

theorem event_free_subset (s : evsched_t) (c : Nat) (ev : event_t)
    (h : ev ∈ (evsched_event_free s c).events) : ev ∈ s.events := by
  unfold evsched_event_free at h
  simp only [List.mem_filter] at h
  exact h.1

theorem find_filter_ne (db : List knot_zone_t) (name other : knot_dname_t)
    (h : other ≠ name) :
    knot_zonedb_find_zone (db.filter fun z => decide (z.name ≠ name)) other
      = knot_zonedb_find_zone db other := by
  unfold knot_zonedb_find_zone
  induction db with
  | nil => rfl
  | cons z rest ih =>
    rw [List.filter_cons]
    by_cases hz : z.name = name
    · have hne : ¬ z.name = other := fun h1 => h (h1.symm.trans hz)
      have h1 : decide (z.name ≠ name) = false := by simp [hz]
      have h2 : decide (z.name = other) = false := by simp [hne]
      rw [h1, List.find?_cons, h2]
      simpa using ih
    · have h1 : decide (z.name ≠ name) = true := by simp [hz]
      rw [h1]
      simp only [if_true, List.find?_cons]
      by_cases ho : z.name = other
      · simp [ho]
      · have h2 : decide (z.name = other) = false := by simp [ho]
        rw [h2]
        simpa using ih

theorem find_filter_self (db : List knot_zone_t) (name : knot_dname_t) :
    knot_zonedb_find_zone (db.filter fun z => decide (z.name ≠ name)) name = none := by
  unfold knot_zonedb_find_zone
  rw [List.find?_eq_none]
  intro z hz
  simp only [List.mem_filter] at hz
  simpa using hz.2

theorem filter_ne_of_not_mem (db : List knot_zone_t) (name : knot_dname_t)
    (h : name ∉ db.map fun z => z.name) :
    (db.filter fun z => decide (z.name ≠ name)) = db := by
  rw [List.filter_eq_self]
  intro z hz
  have : z.name ≠ name := by
    intro heq
    exact h (List.mem_map.mpr ⟨z, hz, heq⟩)
  simpa using this

/-- Removing the record of a zone written back through its pointer leaves
exactly the records of the other names, and hands out the written record when
the name was present. -/
theorem remove_store (db : List knot_zone_t) (zone : knot_zone_t) (hwf : zonedb_wf db) :
    (knot_zonedb_remove_zone (zonedb_store db zone) zone.name).2
      = db.filter (fun z => decide (z.name ≠ zone.name)) ∧
    ((∃ z0, knot_zonedb_find_zone db zone.name = some z0) →
      (knot_zonedb_remove_zone (zonedb_store db zone) zone.name).1 = some zone) := by
  induction db with
  | nil =>
    refine ⟨rfl, ?_⟩
    rintro ⟨z0, h⟩
    simp [knot_zonedb_find_zone] at h
  | cons z rest ih =>
    unfold zonedb_wf at hwf
    rw [List.map_cons, List.nodup_cons] at hwf
    obtain ⟨hnot, hrest⟩ := hwf
    rw [List.filter_cons]
    by_cases hz : z.name = zone.name
    · have hfil := filter_ne_of_not_mem rest zone.name (hz ▸ hnot)
      have h1 : decide (z.name ≠ zone.name) = false := by simp [hz]
      rw [h1, hfil]
      simp [zonedb_store, knot_zonedb_remove_zone, hz]
    · obtain ⟨ih1, ih2⟩ := ih hrest
      have h1 : decide (z.name ≠ zone.name) = true := by simp [hz]
      rw [h1]
      refine ⟨?_, ?_⟩
      · simp only [zonedb_store, hz, if_false, knot_zonedb_remove_zone, if_true, ih1]
      · rintro ⟨z0, h0⟩
        have h2 : ∃ z1, knot_zonedb_find_zone rest zone.name = some z1 := by
          refine ⟨z0, ?_⟩
          simpa [knot_zonedb_find_zone, List.find?_cons, hz] using h0
        simpa [zonedb_store, knot_zonedb_remove_zone, hz] using ih2 h2

/-! ## EXPIRE event -/

/-- C12: for every zone database (one record per name) and every zone present
in it with zone data, after the zone's EXPIRE event the database has no
record for the zone's name, the records of all other names are exactly as
before, and the retired zone, the one handed to `knot_zone_deep_free`, has
its REFRESH timer cleared (the event destroyed), its EXPIRE timer cleared and
`next_id` set to -1. -/
theorem zones_expire_ev_removes (e : Nat) (ns : knot_nameserver_t) (zone : knot_zone_t)
    (zd : zonedata_t) (hwf : zonedb_wf ns.zone_db)
    (hin : knot_zonedb_find_zone ns.zone_db zone.name = some zone)
    (hd : zone.data = some zd) :
    ∃ zone1 ns1,
      zones_expire_ev e (some zone) ns = (ev_ret.raw 0, some zone1, ns1, some zone1) ∧
      zone1 = { zone with
                data := some { zd with xfr_in := { zd.xfr_in with timer := none,
                                                                  expire := none,
                                                                  next_id := -1 } } } ∧
      knot_zonedb_find_zone ns1.zone_db zone.name = none ∧
      ns1.zone_db = ns.zone_db.filter (fun z => decide (z.name ≠ zone.name)) ∧
      (∀ name, name ≠ zone.name →
        knot_zonedb_find_zone ns1.zone_db name = knot_zonedb_find_zone ns.zone_db name) ∧
      (∀ t, zd.xfr_in.timer = some t → ∀ ev ∈ ns1.data.sched.events, ev.id ≠ t) ∧
      (∀ ev ∈ ns1.data.sched.events, ev.id ≠ e) := by
  obtain ⟨conf, ⟨master, timer, expire, next_id⟩, np, sync, zs, lk⟩ := zd
  unfold zones_expire_ev
  simp only [hd]
  cases timer with
  | none =>
    simp only
    obtain ⟨r1, r2⟩ := remove_store ns.zone_db
      { zone with
        data := some
          { conf := conf,
            xfr_in := { master := master, timer := none, expire := none, next_id := -1 },
            notify_pending := np, ixfr_dbsync := sync, zonefile_serial := zs, lock := lk } } hwf
    have r3 := r2 ⟨zone, hin⟩
    simp only at r1 r3
    rw [r3]
    refine ⟨_, _, rfl, rfl, ?_, r1, ?_, ?_, ?_⟩
    · simp only [r1]; exact find_filter_self _ _
    · intro name hne; simp only [r1]; exact find_filter_ne _ _ _ hne
    · intro t ht; simp at ht
    · exact event_free_absent _ _
  | some t =>
    simp only
    obtain ⟨r1, r2⟩ := remove_store ns.zone_db
      { zone with
        data := some
          { conf := conf,
            xfr_in := { master := master, timer := none, expire := none, next_id := -1 },
            notify_pending := np, ixfr_dbsync := sync, zonefile_serial := zs, lock := lk } } hwf
    have r3 := r2 ⟨zone, hin⟩
    simp only at r1 r3
    rw [r3]
    refine ⟨_, _, rfl, rfl, ?_, r1, ?_, ?_, ?_⟩
    · simp only [r1]; exact find_filter_self _ _
    · intro name hne; simp only [r1]; exact find_filter_ne _ _ _ hne
    · intro t1 ht
      simp only [Option.some.injEq] at ht
      subst ht
      intro ev hev
      exact event_free_absent (evsched_cancel ns.data.sched t) t ev
        (event_free_subset _ _ ev hev)
    · exact event_free_absent _ _

/-- Witness of C12: EXPIRE event 2 fires for `example.` in a database that
also holds `example.org.`. -/
theorem zones_expire_ev_removes_witness :
    (zonedb_wf [example_zone (example_soa 3600 600 86400) 7, example_zone_org] ∧
     knot_zonedb_find_zone [example_zone (example_soa 3600 600 86400) 7, example_zone_org]
        "example." = some (example_zone (example_soa 3600 600 86400) 7)) ∧
    ∃ zone1 ns1,
      zones_expire_ev 2 (some (example_zone (example_soa 3600 600 86400) 7))
          { zone_db := [example_zone (example_soa 3600 600 86400) 7, example_zone_org],
            data := { sched := example_sched, xfr_h := [] } }
        = (ev_ret.raw 0, some zone1, ns1, some zone1) ∧
      knot_zonedb_find_zone ns1.zone_db "example." = none ∧
      ns1.zone_db = [example_zone_org] := by
  have hwf : zonedb_wf [example_zone (example_soa 3600 600 86400) 7, example_zone_org] := by
    unfold zonedb_wf; decide
  refine ⟨⟨hwf, by decide⟩, ?_⟩
  obtain ⟨zone1, ns1, h1, _, h3, h4, _⟩ :=
    zones_expire_ev_removes 2
      { zone_db := [example_zone (example_soa 3600 600 86400) 7, example_zone_org],
        data := { sched := example_sched, xfr_h := [] } }
      (example_zone (example_soa 3600 600 86400) 7) (example_zonedata 7) hwf (by decide) rfl
  exact ⟨zone1, ns1, h1, h3, by rw [h4]; decide⟩

/-! ## Lemmas: NOTIFY events -/

theorem int_to_uint32_of_bounds (x : Int) (h0 : 0 ≤ x) (h1 : x < 2 ^ 32) :
    int_to_uint32 x = x.toNat := by
  unfold int_to_uint32
  rw [Int.emod_eq_of_lt h0 h1]

/-- C14: for every zone record whose pending list has no repeated node and
every notify event `ev`: when `ev`'s timer is set, `zones_cancel_notify`
returns ok, `ev` is not in `notify_pending` afterwards and the other pending
events are all still there in their original order, both when the running
handler had already removed `ev` by the time the lock was re-acquired and
when `ev` was still in the list; when `ev`'s timer is not set the call
returns `KNOTD_EINVAL` and changes nothing. -/
theorem zones_cancel_notify_removes (self_removed : Bool) (zd : zonedata_t)
    (ev : notify_ev_t) (sched : evsched_t) (hnd : zd.notify_pending.Nodup) :
    (∀ tmr, ev.timer = some tmr →
      ∃ alive sched1,
        zones_cancel_notify self_removed (some zd) (some ev) sched =
          (Code.KNOTD_EOK,
           some { zd with notify_pending := zd.notify_pending.erase ev.id, lock := true },
           alive, sched1) ∧
        ev.id ∉ zd.notify_pending.erase ev.id ∧
        zd.notify_pending.erase ev.id = zd.notify_pending.filter (fun n => n != ev.id) ∧
        (ev.id ∈ zd.notify_pending → alive = none)) ∧
    (ev.timer = none →
      zones_cancel_notify self_removed (some zd) (some ev) sched =
        (Code.KNOTD_EINVAL, some zd, some ev, sched)) := by
  refine ⟨?_, ?_⟩
  · intro tmr ht
    have hnot : ev.id ∉ zd.notify_pending.erase ev.id := hnd.not_mem_erase
    unfold zones_cancel_notify
    simp only [ht]
    cases self_removed with
    | true =>
      have hc : (zd.notify_pending.erase ev.id).contains ev.id = false := by
        simpa using hnot
      simp only [if_true, rem_node, hc]
      exact ⟨_, _, rfl, hnot, hnd.erase_eq_filter _, fun _ => rfl⟩
    | false =>
      by_cases hmem : ev.id ∈ zd.notify_pending
      · have hc : zd.notify_pending.contains ev.id = true := by simpa using hmem
        simp only [Bool.false_eq_true, if_false, rem_node, hc]
        exact ⟨_, _, rfl, hnot, hnd.erase_eq_filter _, fun _ => rfl⟩
      · have hc : zd.notify_pending.contains ev.id = false := by simpa using hmem
        have he : zd.notify_pending.erase ev.id = zd.notify_pending :=
          List.erase_of_not_mem hmem
        simp only [Bool.false_eq_true, if_false, rem_node, hc, he]
        refine ⟨_, _, rfl, hmem, ?_, fun h => absurd h hmem⟩
        have hf := hnd.erase_eq_filter ev.id
        rw [he] at hf
        exact hf
  · intro ht
    unfold zones_cancel_notify
    simp only [ht]

/-- Witness of C14: cancelling the example event 100 while 101 is pending
too, the handler not having removed it. -/
theorem zones_cancel_notify_removes_witness :
    ([100, 101] : List Nat).Nodup ∧
    ∃ alive sched1,
      zones_cancel_notify false example_zone_notify.data (some example_notify_ev)
          example_sched_notify =
        (Code.KNOTD_EOK,
         example_zone_notify.data.map fun zd =>
           { zd with notify_pending := [101], lock := true },
         alive, sched1) := by
  refine ⟨by decide, ?_⟩
  obtain ⟨alive, sched1, h1, _⟩ :=
    (zones_cancel_notify_removes false
      { conf := { name := "example.", dbsync_timeout := 60, notify_retries := 1,
                  notify_timeout := 60 },
        xfr_in := { master := example_master, timer := none, expire := none,
                    next_id := -1 },
        notify_pending := [100, 101], ixfr_dbsync := none, zonefile_serial := 10 }
      example_notify_ev example_sched_notify (by decide)).1 9 rfl
  exact ⟨alive, sched1, h1⟩

/-! ## Lemmas: zonefile sync -/

theorem clear_bits_and (x m : Nat) : clear_bits x m &&& m = 0 := by
  apply Nat.eq_of_testBit_eq
  intro i
  simp only [clear_bits, Nat.testBit_and, Nat.testBit_xor, Nat.zero_testBit]
  cases x.testBit i <;> cases m.testBit i <;> rfl

theorem sync_apply_clean (D : Nat) (n : journal_node_t) :
    (zones_ixfrdb_sync_apply D n).2.flags &&& D = 0 := by
  unfold zones_ixfrdb_sync_apply
  split_ifs with h
  · exact clear_bits_and _ _
  · simpa using h

theorem sync_apply_keeps (D : Nat) (n : journal_node_t) :
    (zones_ixfrdb_sync_apply D n).2.id = n.id ∧ (zones_ixfrdb_sync_apply D n).2.data = n.data := by
  unfold zones_ixfrdb_sync_apply
  split_ifs <;> exact ⟨rfl, rfl⟩

/-- The three return paths of `zones_zonefile_sync` that release the lock:
contents absent, nothing to sync, sync done. -/
theorem zones_zonefile_sync_unlocks (D : Nat) (zone : knot_zone_t) (zd : zonedata_t)
    (j : Option journal_t) (dumps : List (knot_zone_contents_t × String))
    (hd : zone.data = some zd)
    (hs : ∀ c, zone.contents = some c → 0 ≤ knot_rdata_soa_serial c.apex_soa) :
    ∃ zd1, (zones_zonefile_sync D (some zone) j dumps).2.1 = some { zone with data := some zd1 } ∧
      zd1.lock = false := by
  unfold zones_zonefile_sync
  simp only [hd]
  cases hc : zone.contents with
  | none => exact ⟨_, rfl, rfl⟩
  | some c =>
    have h0 : ¬ knot_rdata_soa_serial c.apex_soa < 0 := by
      have := hs c hc
      omega
    simp only [h0, if_false]
    split_ifs
    · exact ⟨_, rfl, rfl⟩
    · exact ⟨_, rfl, rfl⟩

/-! ## Zonefile sync -/

/-- C15, as stated, fails: with `zonefile_serial` equal to the apex SOA serial
(both 10) and a dirty entry in the journal, `zones_zonefile_sync` returns ok
without walking the journal, and the entry is still dirty. -/
theorem zones_zonefile_sync_leaves_dirty :
    zones_zonefile_sync example_dirty
        (some (example_zone (example_soa 3600 600 86400) (-1))) (some example_journal) []
      = (Code.KNOTD_EOK, some (example_zone (example_soa 3600 600 86400) (-1)),
         some example_journal, []) ∧
    (∃ n ∈ example_journal.nodes, n.flags &&& example_dirty ≠ 0) := by
  refine ⟨by decide, ?_⟩
  exact ⟨_, List.mem_cons_self _ _, by decide⟩

/-- C15, amended: when `zonefile_serial` differs from the (non-negative) apex
SOA serial on entry, `zones_zonefile_sync` returns ok and afterwards no entry
of the zone's journal has the dirty flag set, the entries keeping their keys
and data; when the two are equal it returns ok and leaves the journal as it
was. -/
theorem zones_zonefile_sync_clears_dirty (D : Nat) (zone : knot_zone_t) (zd : zonedata_t)
    (contents : knot_zone_contents_t) (j : journal_t)
    (dumps : List (knot_zone_contents_t × String))
    (hd : zone.data = some zd) (hc : zone.contents = some contents)
    (hs : 0 ≤ knot_rdata_soa_serial contents.apex_soa) :
    (zd.zonefile_serial ≠ (knot_rdata_soa_serial contents.apex_soa % (2 ^ 32 : Int)).toNat →
      ∃ j1,
        (zones_zonefile_sync D (some zone) (some j) dumps).1 = Code.KNOTD_EOK ∧
        (zones_zonefile_sync D (some zone) (some j) dumps).2.2.1 = some j1 ∧
        (∀ n ∈ j1.nodes, n.flags &&& D = 0) ∧
        (j1.nodes.map fun n => (n.id, n.data)) = (j.nodes.map fun n => (n.id, n.data))) ∧
    (zd.zonefile_serial = (knot_rdata_soa_serial contents.apex_soa % (2 ^ 32 : Int)).toNat →
      (zones_zonefile_sync D (some zone) (some j) dumps).1 = Code.KNOTD_EOK ∧
      (zones_zonefile_sync D (some zone) (some j) dumps).2.2.1 = some j) := by
  have h0 : ¬ knot_rdata_soa_serial contents.apex_soa < 0 := by omega
  refine ⟨?_, ?_⟩
  · intro hne
    unfold zones_zonefile_sync
    simp only [hd, hc, h0, if_false]
    rw [if_pos hne]
    refine ⟨_, rfl, rfl, ?_, ?_⟩
    · intro n hn
      simp only [List.mem_map] at hn
      obtain ⟨a, _, rfl⟩ := hn
      exact sync_apply_clean D a
    · simp only [List.map_map]
      apply List.map_congr_left
      intro a _
      simp [(sync_apply_keeps D a).1, (sync_apply_keeps D a).2]
  · intro heq
    unfold zones_zonefile_sync
    simp only [hd, hc, h0, if_false]
    rw [if_neg (by simpa using heq)]
    exact ⟨rfl, rfl⟩

/-- Witness of the amended C15: the example zone with `zonefile_serial = 9`
behind the SOA serial 10. -/
theorem zones_zonefile_sync_clears_dirty_witness :
    (0 ≤ knot_rdata_soa_serial (example_soa 3600 600 86400)) ∧
    ∃ j1,
      (zones_zonefile_sync example_dirty
        (some { name := "example.",
                contents := some { apex_soa := example_soa 3600 600 86400 },
                data := some { example_zonedata (-1) with zonefile_serial := 9 } })
        (some example_journal) []).2.2.1 = some j1 ∧
      (∀ n ∈ j1.nodes, n.flags &&& example_dirty = 0) := by
  refine ⟨by decide, ?_⟩
  obtain ⟨j1, _, h2, h3, _⟩ :=
    (zones_zonefile_sync_clears_dirty example_dirty
      { name := "example.",
        contents := some { apex_soa := example_soa 3600 600 86400 },
        data := some { example_zonedata (-1) with zonefile_serial := 9 } }
      { example_zonedata (-1) with zonefile_serial := 9 }
      { apex_soa := example_soa 3600 600 86400 } example_journal [] rfl rfl
      (by decide)).1 (by decide)
  exact ⟨j1, h2, h3⟩

/-- C16: for a zone whose lock is free on entry, with a 32-bit
`zonefile_serial` and a 32-bit apex SOA serial: if `zones_zonefile_sync`
returns ok then `zonefile_serial` is the apex SOA serial afterwards; if the
two are equal on entry the call returns ok without dumping the zone and
leaves the zone, `zonefile_serial` included, and the journal unchanged; with
contents absent it returns `KNOTD_EINVAL` and changes nothing. -/
theorem zones_zonefile_sync_serial (D : Nat) (zone : knot_zone_t) (zd : zonedata_t)
    (j : Option journal_t) (dumps : List (knot_zone_contents_t × String))
    (hd : zone.data = some zd) (hl : zd.lock = false) (hz : zd.zonefile_serial < 2 ^ 32) :
    (∀ contents, zone.contents = some contents →
      knot_rdata_soa_serial contents.apex_soa < 2 ^ 32 →
      (zones_zonefile_sync D (some zone) j dumps).1 = Code.KNOTD_EOK →
      ∃ zd1, (zones_zonefile_sync D (some zone) j dumps).2.1
          = some { zone with data := some zd1 } ∧
        (zd1.zonefile_serial : Int) = knot_rdata_soa_serial contents.apex_soa) ∧
    (∀ contents, zone.contents = some contents →
      (zd.zonefile_serial : Int) = knot_rdata_soa_serial contents.apex_soa →
      zones_zonefile_sync D (some zone) j dumps = (Code.KNOTD_EOK, some zone, j, dumps)) ∧
    (zone.contents = none →
      zones_zonefile_sync D (some zone) j dumps = (Code.KNOTD_EINVAL, some zone, j, dumps)) := by
  obtain ⟨name, cont, data, ver⟩ := zone
  obtain ⟨conf, xin, np, sync, zs, lk⟩ := zd
  simp only at hd hl hz
  subst hd hl
  refine ⟨?_, ?_, ?_⟩
  · intro contents hc hlt hok
    simp only at hc
    subst hc
    unfold zones_zonefile_sync at hok ⊢
    simp only at hok ⊢
    by_cases hneg : knot_rdata_soa_serial contents.apex_soa < 0
    · simp [hneg] at hok
    · simp only [hneg, if_false]
      have hmod : knot_rdata_soa_serial contents.apex_soa % (2 ^ 32 : Int)
          = knot_rdata_soa_serial contents.apex_soa :=
        Int.emod_eq_of_lt (by omega) hlt
      by_cases hne : zs = (knot_rdata_soa_serial contents.apex_soa % (2 ^ 32 : Int)).toNat
      · rw [if_neg (by simpa using hne)]
        refine ⟨_, rfl, ?_⟩
        simp only [hne, hmod]
        omega
      · rw [if_pos hne]
        refine ⟨_, rfl, ?_⟩
        simp only [hmod]
        omega
  · intro contents hc heq
    simp only at hc heq
    subst hc
    have h0 : ¬ knot_rdata_soa_serial contents.apex_soa < 0 := by omega
    have hs : zs = (knot_rdata_soa_serial contents.apex_soa % (2 ^ 32 : Int)).toNat := by
      rw [← heq]
      omega
    unfold zones_zonefile_sync
    simp only [h0, if_false]
    rw [if_neg (by simpa using hs)]
  · intro hc
    simp only at hc
    subst hc
    rfl

/-- Witness of C16: the example zone, whose `zonefile_serial` 10 is its apex
SOA serial. -/
theorem zones_zonefile_sync_serial_witness :
    ((example_zonedata (-1)).lock = false ∧ (example_zonedata (-1)).zonefile_serial < 2 ^ 32) ∧
    zones_zonefile_sync example_dirty
        (some (example_zone (example_soa 3600 600 86400) (-1))) (some example_journal) []
      = (Code.KNOTD_EOK, some (example_zone (example_soa 3600 600 86400) (-1)),
         some example_journal, []) :=
  ⟨⟨rfl, by decide⟩,
   (zones_zonefile_sync_serial example_dirty (example_zone (example_soa 3600 600 86400) (-1))
      (example_zonedata (-1)) (some example_journal) [] rfl rfl (by decide)).2.1
      { apex_soa := example_soa 3600 600 86400 } rfl (by decide)⟩

/-- C17: evaluation of `zones_zonefile_sync` at a zone whose apex SOA serial
decodes as negative (-1), with the lock free on entry. The function returns
`KNOTD_EINVAL` after taking the lock and without releasing it: the lock is
held on exit. -/
theorem zones_zonefile_sync_keeps_lock :
    (example_zonedata (-1)).lock = false ∧
    zones_zonefile_sync example_dirty
        (some { name := "example.",
                contents := some { apex_soa := { serial := -1, refresh := 3600, retry := 600,
                                                 expire := 86400 } },
                data := some (example_zonedata (-1)) })
        (some example_journal) []
      = (Code.KNOTD_EINVAL,
         some { name := "example.",
                contents := some { apex_soa := { serial := -1, refresh := 3600, retry := 600,
                                                 expire := 86400 } },
                data := some { example_zonedata (-1) with lock := true } },
         some example_journal, []) := by
  refine ⟨rfl, by decide⟩

/-! ## Lemmas: free sidecar file names -/

theorem find_free_loop_spec (readable : String → Bool) (old_name : String) :
    ∀ n, n ≤ 58 →
      (find_free_loop readable old_name n).2.length ≤ n ∧
      ((find_free_loop readable old_name n).1 = none ↔
        ∀ i, i < n → readable (sidecar_name old_name (58 - n + i)) = true) ∧
      (∀ i, i < n → readable (sidecar_name old_name (58 - n + i)) = false →
        (∀ i1, i1 < i → readable (sidecar_name old_name (58 - n + i1)) = true) →
        (find_free_loop readable old_name n).1 = some (sidecar_name old_name (58 - n + i))) := by
  intro n
  induction n with
  | zero =>
    intro _
    refine ⟨by simp [find_free_loop], ?_, ?_⟩
    · simp [find_free_loop]
    · intro i hi; omega
  | succ n ih =>
    intro hn
    obtain ⟨ih1, ih2, ih3⟩ := ih (by omega)
    have hshift : ∀ i, 58 - n + i = 58 - (n + 1) + (i + 1) := by intro i; omega
    unfold find_free_loop
    by_cases hr : readable (sidecar_name old_name (58 - (n + 1))) = true
    · simp only [hr, if_true]
      refine ⟨by simp only [List.length_cons]; omega, ?_, ?_⟩
      · rw [ih2]
        constructor
        · intro h i hi
          cases i with
          | zero => simpa using hr
          | succ i1 =>
            rw [← hshift]
            exact h i1 (by omega)
        · intro h i hi
          rw [hshift]
          exact h (i + 1) (by omega)
      · intro i hi hfree hbefore
        cases i with
        | zero =>
          rw [Nat.add_zero] at hfree
          rw [hr] at hfree
          exact absurd hfree (by simp)
        | succ i1 =>
          rw [← hshift] at hfree ⊢
          apply ih3 i1 (by omega) hfree
          intro i2 hi2
          rw [hshift]
          exact hbefore (i2 + 1) (by omega)
    · simp only [hr, if_false]
      refine ⟨by simp, ?_, ?_⟩
      · constructor
        · intro h; simp at h
        · intro h
          exact absurd (by simpa using h 0 (by omega)) hr
      · intro i hi hfree hbefore
        cases i with
        | zero => simp
        | succ i1 =>
          exact absurd (by simpa using hbefore 0 (by omega)) hr

theorem sidecar_name_digit (old_name : String) (d : Nat) (hd : d < 10) :
    sidecar_name old_name (48 + d) = old_name ++ "." ++ toString d := by
  unfold sidecar_name
  congr 1
  interval_cases d <;> rfl

/-! ## Free sidecar file names -/

/-- C18: for every base name and every set of readable names,
`zones_find_free_filename` returns the base name followed by "." and the
smallest decimal digit `d` in 0..9 whose name cannot be opened, it returns no
name exactly when all ten names base.0 … base.9 can be opened, and it probes
at most ten names. -/
theorem zones_find_free_filename_smallest (readable : String → Bool) (old_name : String) :
    (zones_find_free_filename readable old_name).2.length ≤ 10 ∧
    ((zones_find_free_filename readable old_name).1 = none ↔
      ∀ d, d < 10 → readable (old_name ++ "." ++ toString d) = true) ∧
    (∀ d, d < 10 → readable (old_name ++ "." ++ toString d) = false →
      (∀ d1, d1 < d → readable (old_name ++ "." ++ toString d1) = true) →
      (zones_find_free_filename readable old_name).1 = some (old_name ++ "." ++ toString d)) := by
  obtain ⟨h1, h2, h3⟩ := find_free_loop_spec readable old_name 10 (by omega)
  have hname : ∀ d, d < 10 → sidecar_name old_name (58 - 10 + d) = old_name ++ "." ++ toString d := by
    intro d hd
    have : 58 - 10 + d = 48 + d := by omega
    rw [this]
    exact sidecar_name_digit old_name d hd
  unfold zones_find_free_filename
  refine ⟨h1, ?_, ?_⟩
  · rw [h2]
    constructor
    · intro h d hd
      rw [← hname d hd]
      exact h d hd
    · intro h d hd
      rw [hname d hd]
      exact h d hd
  · intro d hd hfree hbefore
    rw [← hname d hd] at hfree ⊢
    apply h3 d hd hfree
    intro d1 hd1
    rw [hname d1 (by omega)]
    exact hbefore d1 hd1

/-! ## Lemmas: reload -/

theorem find_isSome_iff (db : List knot_zone_t) (n : knot_dname_t) :
    (knot_zonedb_find_zone db n).isSome = true ↔ n ∈ zonedb_names db := by
  unfold knot_zonedb_find_zone zonedb_names
  rw [List.find?_isSome]
  simp only [List.mem_map, decide_eq_true_eq]

theorem find_name (db : List knot_zone_t) (n : knot_dname_t) (zone : knot_zone_t)
    (h : knot_zonedb_find_zone db n = some zone) : zone.name = n := by
  unfold knot_zonedb_find_zone at h
  simpa using List.find?_some h

theorem names_store (db : List knot_zone_t) (zone : knot_zone_t) :
    zonedb_names (zonedb_store db zone) = zonedb_names db := by
  unfold zonedb_names
  induction db with
  | nil => rfl
  | cons a rest ih =>
    unfold zonedb_store
    split_ifs with h
    · simp [h]
    · simp only [List.map_cons, ih]

theorem length_store (db : List knot_zone_t) (zone : knot_zone_t) :
    (zonedb_store db zone).length = db.length := by
  have h := congrArg List.length (names_store db zone)
  simpa [zonedb_names] using h

theorem names_add_mono (db : List knot_zone_t) (zone : knot_zone_t) :
    ∀ n ∈ zonedb_names db, n ∈ zonedb_names (knot_zonedb_add_zone db zone).2 := by
  intro n hn
  unfold knot_zonedb_add_zone
  split_ifs
  · exact hn
  · simp only [zonedb_names, List.map_append, List.mem_append]
    exact Or.inl hn

theorem names_add_self (db : List knot_zone_t) (zone : knot_zone_t) :
    zone.name ∈ zonedb_names (knot_zonedb_add_zone db zone).2 := by
  unfold knot_zonedb_add_zone
  split_ifs with h
  · exact (find_isSome_iff db zone.name).mp h
  · simp [zonedb_names]

theorem add_count (db : List knot_zone_t) (zone : knot_zone_t) :
    ((knot_zonedb_add_zone db zone).1 = Code.KNOT_EOK ↔
      (knot_zonedb_find_zone db zone.name).isSome = false) ∧
    ((knot_zonedb_add_zone db zone).2.length : Int) =
      db.length + (if (knot_zonedb_add_zone db zone).1 = Code.KNOT_EOK then 1 else 0) ∧
    ((knot_zonedb_add_zone db zone).1.is_eok = true ↔
      (knot_zonedb_add_zone db zone).1 = Code.KNOT_EOK) := by
  unfold knot_zonedb_add_zone
  by_cases h : (knot_zonedb_find_zone db zone.name).isSome = true
  · simp [h, Code.is_eok]
  · simp [h, Code.is_eok]

theorem zonedata_init_keeps (cfg : conf_zone_t) (zone : knot_zone_t) :
    (zonedata_init cfg zone).2.name = zone.name ∧
    (zonedata_init cfg zone).2.version = zone.version ∧
    (zonedata_init cfg zone).2.contents = zone.contents := by
  unfold zonedata_init
  cases zone.contents with
  | none => exact ⟨rfl, rfl, rfl⟩
  | some c =>
    simp only
    split_ifs <;> exact ⟨rfl, rfl, rfl⟩

theorem zones_load_zone_spec (env : reload_env) (db : List knot_zone_t) (z : conf_zone_t) :
    (∀ n ∈ zonedb_names db, n ∈ zonedb_names (zones_load_zone env db z.name z.file (some z.db)).2) ∧
    (load_ok env z → z.name ∈ zonedb_names (zones_load_zone env db z.name z.file (some z.db)).2) ∧
    (((zones_load_zone env db z.name z.file (some z.db)).2.length : Int) =
      db.length + (if (zones_load_zone env db z.name z.file (some z.db)).1.is_eok then 1 else 0)) := by
  unfold zones_load_zone
  simp only
  by_cases hopen : env.zload_open z.db = Code.KNOT_EOK
  · simp only [hopen, if_true]
    cases hload : env.zload_load z.db with
    | none =>
      exact ⟨fun n hn => hn, fun h => by simp [load_ok, hload] at h, by simp [Code.is_eok]⟩
    | some zone =>
      simp only
      obtain ⟨a1, a2, _⟩ := add_count db
        { zone with version := (env.stat z.db).getD env.stat_garbage }
      by_cases hadd : (knot_zonedb_add_zone db
          { zone with version := (env.stat z.db).getD env.stat_garbage }).1 = Code.KNOT_EOK
      · simp only [hadd, if_true]
        refine ⟨names_add_mono db _, ?_, ?_⟩
        · rintro ⟨_, zone1, h1, h2⟩
          rw [hload] at h1
          cases h1
          have := names_add_self db
            { zone with version := (env.stat z.db).getD env.stat_garbage }
          simpa [h2] using this
        · rw [a2, hadd]; simp [Code.is_eok]
      · simp only [hadd, if_false]
        have hpres : (knot_zonedb_find_zone db zone.name).isSome = true := by
          by_contra hcon
          apply hadd
          exact a1.mpr (by simpa using hcon)
        refine ⟨fun n hn => hn, ?_, by simp [Code.is_eok]⟩
        rintro ⟨_, zone1, h1, h2⟩
        rw [hload] at h1
        cases h1
        rw [← h2]
        exact (find_isSome_iff db zone.name).mp hpres
  · simp only [hopen, if_false]
    exact ⟨fun n hn => hn, fun h => absurd h.1 hopen, by simp [Code.is_eok]⟩

theorem stub_case_iff (env : reload_env) (z : conf_zone_t) :
    ((env.stat z.db).isNone && !z.acl_xfr_in.isEmpty) = true ↔ stub_case env z := by
  unfold stub_case
  cases env.stat z.db <;> cases z.acl_xfr_in <;> simp

theorem reload_zone_spec (env : reload_env) (z : conf_zone_t) (db_new : List knot_zone_t)
    (ins : Int) :
    (∀ n ∈ zonedb_names db_new, n ∈ zonedb_names (reload_zone env z db_new ins).2.1) ∧
    ((stub_case env z ∨ load_ok env z) →
      z.name ∈ zonedb_names (reload_zone env z db_new ins).2.1) ∧
    ((reload_zone env z db_new ins).2.2 +
        (if (reload_zone env z db_new ins).1.is_eok then 1 else 0) =
      ins + (((reload_zone env z db_new ins).2.1.length : Int) - db_new.length) -
        (if (((env.stat z.db).isNone && !z.acl_xfr_in.isEmpty) &&
              (knot_zonedb_find_zone db_new z.name).isNone) then 1 else 0)) := by
  unfold reload_zone
  by_cases hstub : ((env.stat z.db).isNone && !z.acl_xfr_in.isEmpty) = true
  · simp only [hstub, if_true, Bool.true_and]
    obtain ⟨a1, a2, _⟩ := add_count db_new (knot_zone_new_empty z.name)
    have hself := names_add_self db_new (knot_zone_new_empty z.name)
    have hn : (knot_zone_new_empty z.name).name = z.name := rfl
    rw [hn] at hself a1
    by_cases hadd : (knot_zonedb_add_zone db_new (knot_zone_new_empty z.name)).1 = Code.KNOT_EOK
    · simp only [hadd, if_true]
      refine ⟨names_add_mono db_new _, fun _ => hself, ?_⟩
      have hnone : (knot_zonedb_find_zone db_new z.name).isNone = true := by
        have := a1.mp hadd
        cases hf : knot_zonedb_find_zone db_new z.name <;> simp_all
      rw [a2, hadd, hnone]
      simp [Code.is_eok]
    · simp only [hadd, if_false]
      have hpres : (knot_zonedb_find_zone db_new z.name).isSome = true := by
        by_contra hcon
        apply hadd
        exact a1.mpr (by simpa using hcon)
      have hnone : (knot_zonedb_find_zone db_new z.name).isNone = false := by
        cases hf : knot_zonedb_find_zone db_new z.name <;> simp_all
      refine ⟨fun n hn => hn, fun _ => (find_isSome_iff db_new z.name).mp hpres, ?_⟩
      have hne : (knot_zonedb_add_zone db_new (knot_zone_new_empty z.name)).1.is_eok = false := by
        have hv : (knot_zonedb_add_zone db_new (knot_zone_new_empty z.name)).1
            = Code.KNOT_ERROR := by
          unfold knot_zonedb_add_zone
          rw [hn, hpres]
          rfl
        rw [hv]; rfl
      rw [hne, hnone]
      simp
  · have hstub1 : ((env.stat z.db).isNone && !z.acl_xfr_in.isEmpty) = false := by
      simpa using hstub
    simp only [hstub1, Bool.false_and]
    obtain ⟨b1, b2, b3⟩ := zones_load_zone_spec env db_new z
    refine ⟨b1, ?_, ?_⟩
    · rintro (h | h)
      · exact absurd ((stub_case_iff env z).mpr h) hstub
      · exact b2 h
    · simp only [Bool.false_eq_true, if_false]
      rw [b3]
      split_ifs <;> omega

theorem zone_kept_iff (env : reload_env) (db_old : List knot_zone_t) (z : conf_zone_t) :
    zone_kept env db_old z ↔
      (match knot_zonedb_find_zone db_old z.name with
       | some zone => decide (zone.version < (env.stat z.db).getD env.stat_garbage)
       | none => true) = false := by
  unfold zone_kept
  cases knot_zonedb_find_zone db_old z.name with
  | none => simp
  | some zone => simp

theorem insert_zone_db_spec (env : reload_env) (z : conf_zone_t)
    (db_old db_new : List knot_zone_t) (ins : Int) (db1 : List knot_zone_t) (ins1 : Int)
    (zo : Option knot_zone_t) (b : Bool)
    (h : insert_zone_db env z db_old db_new ins = some (db1, ins1, zo, b)) :
    (∀ n ∈ zonedb_names db_new, n ∈ zonedb_names db1) ∧
    ((zone_kept env db_old z ∨ stub_case env z ∨ load_ok env z) → z.name ∈ zonedb_names db1) ∧
    (b = false → zo = knot_zonedb_find_zone db_old z.name) ∧
    (b = true → ∃ zn, zo = some zn ∧ zn.name = z.name) ∧
    (ins1 = ins + ((db1.length : Int) - db_new.length) -
      (if stub_added env z db_old db_new then 1 else 0)) := by
  have hk := zone_kept_iff env db_old z
  unfold insert_zone_db at h
  simp only at h
  unfold stub_added
  by_cases hre : (match knot_zonedb_find_zone db_old z.name with
       | some zone => decide (zone.version < (env.stat z.db).getD env.stat_garbage)
       | none => true) = true
  · have hnk : ¬ zone_kept env db_old z := by rw [hk, hre]; simp
    simp only [hre, if_true, Bool.true_and] at h ⊢
    obtain ⟨r1, r2, r3⟩ := reload_zone_spec env z db_new ins
    by_cases hok : (reload_zone env z db_new ins).1.is_eok = true
    · simp only [hok, if_true] at h r3
      cases hf : knot_zonedb_find_zone (reload_zone env z db_new ins).2.1 z.name with
      | none => simp [hf] at h
      | some zone =>
        simp only [hf, Option.some.injEq, Prod.mk.injEq] at h
        obtain ⟨h1, h2, h3, h4⟩ := h
        subst h1 h2 h3 h4
        have hmem : z.name ∈ zonedb_names (reload_zone env z db_new ins).2.1 :=
          (find_isSome_iff _ _).mp (by rw [hf]; rfl)
        refine ⟨?_, ?_, ?_, ?_, ?_⟩
        · intro n hn; rw [names_store]; exact r1 n hn
        · intro _; rw [names_store]; exact hmem
        · intro hb; simp at hb
        · intro _
          exact ⟨_, rfl, by rw [(zonedata_init_keeps z zone).1]; exact find_name _ _ _ hf⟩
        · rw [length_store]; omega
    · have hok1 : (reload_zone env z db_new ins).1.is_eok = false := by simpa using hok
      simp only [hok1, Bool.false_eq_true, if_false, Option.some.injEq, Prod.mk.injEq] at h r3
      obtain ⟨h1, h2, h3, h4⟩ := h
      subst h1 h2 h3 h4
      refine ⟨r1, ?_, fun _ => rfl, fun hb => by simp at hb, by omega⟩
      rintro (hkept | hs | hl)
      · exact absurd hkept hnk
      · exact r2 (Or.inl hs)
      · exact r2 (Or.inr hl)
  · have hre1 : (match knot_zonedb_find_zone db_old z.name with
       | some zone => decide (zone.version < (env.stat z.db).getD env.stat_garbage)
       | none => true) = false := by simpa using hre
    simp only [hre1, Bool.false_eq_true, if_false, Bool.false_and] at h ⊢
    cases hf : knot_zonedb_find_zone db_old z.name with
    | none => simp [hf] at hre1
    | some zone1 =>
      simp only [hf] at h
      obtain ⟨a1, a2, a3⟩ := add_count db_new zone1
      have hname : zone1.name = z.name := find_name _ _ _ hf
      have hself := names_add_self db_new zone1
      rw [hname] at hself
      by_cases hadd : (knot_zonedb_add_zone db_new zone1).1.is_eok = true
      · simp only [hadd, if_true, Option.some.injEq, Prod.mk.injEq] at h
        obtain ⟨h1, h2, h3, h4⟩ := h
        subst h1 h2 h3 h4
        refine ⟨names_add_mono db_new zone1, fun _ => hself, fun _ => rfl,
          fun hb => by simp at hb, ?_⟩
        rw [a2, a3.mp hadd]
        simp
      · have hadd1 : (knot_zonedb_add_zone db_new zone1).1.is_eok = false := by simpa using hadd
        simp only [hadd1, Bool.false_eq_true, if_false, Option.some.injEq, Prod.mk.injEq] at h
        obtain ⟨h1, h2, h3, h4⟩ := h
        subst h1 h2 h3 h4
        refine ⟨fun n hn => hn, ?_, fun _ => rfl, fun hb => by simp at hb, by simp⟩
        intro _
        have hnot : ¬ (knot_zonedb_add_zone db_new zone1).1 = Code.KNOT_EOK :=
          fun hc => hadd (a3.mpr hc)
        have hpres : (knot_zonedb_find_zone db_new zone1.name).isSome = true := by
          by_contra hcon
          exact hnot (a1.mpr (by simpa using hcon))
        rw [← hname]
        exact (find_isSome_iff db_new zone1.name).mp hpres


theorem zones_timers_update_keeps (env : timers_env) (zone : knot_zone_t) (cf : conf_zone_t)
    (heap : notify_heap_t) (sch : evsched_t) :
    ∃ zone1, (zones_timers_update env (some zone) cf heap (some sch)).2.1 = some zone1 ∧
      zone1.name = zone.name ∧ zone1.version = zone.version ∧
      zone1.contents = zone.contents := by
  obtain ⟨name, contents, data, version⟩ := zone
  cases data with
  | none => exact ⟨_, rfl, rfl, rfl, rfl⟩
  | some zd =>
    cases contents with
    | none => exact ⟨_, rfl, rfl, rfl, rfl⟩
    | some c => exact ⟨_, rfl, rfl, rfl, rfl⟩

theorem zones_journal_apply_keeps
    (f : knot_zone_t → Nat → Code × Option knot_zone_contents_t)
    (zone : knot_zone_t) :
    ∃ zone1, (zones_journal_apply f (some zone)).2 = some zone1 ∧
      zone1.name = zone.name ∧ zone1.version = zone.version ∧
      (zone.contents = none → zone1.contents = none) := by
  unfold zones_journal_apply
  simp only
  cases hc : zone.contents with
  | none => exact ⟨zone, rfl, rfl, rfl, fun _ => hc⟩
  | some c =>
    simp only
    split_ifs
    · exact ⟨zone, rfl, rfl, rfl, fun h => by simp at h⟩
    · exact ⟨_, rfl, rfl, rfl, fun h => by simp at h⟩

theorem zone_data_update_keeps (env : reload_env) (z : conf_zone_t) (zone zone1 : knot_zone_t)
    (heap heap1 : notify_heap_t) (sched sched1 : evsched_t)
    (h : zone_data_update env z zone heap sched = some (zone1, heap1, sched1)) :
    zone1.name = zone.name ∧ zone1.version = zone.version ∧
      (zone.contents = none → zone1.contents = none) := by
  unfold zone_data_update at h
  cases hd : zone.data with
  | none => simp [hd] at h
  | some zd =>
    simp only [hd] at h
    generalize hz0 : ({ zone with data := some { zd with conf := z, xfr_in := { zd.xfr_in with master :=
        (match z.acl_xfr_in with
          | r :: _ => (env.timers.sockaddr_set r).getD { family := -1, addr := 0, port := 0 }
          | [] => { family := -1, addr := 0, port := 0 }) } } } : knot_zone_t) = zone0 at h
    have hz0n : zone0.name = zone.name ∧ zone0.version = zone.version ∧
        zone0.contents = zone.contents := by
      subst hz0; exact ⟨rfl, rfl, rfl⟩
    obtain ⟨zj, hj, hjn, hjv, hjc⟩ := zones_journal_apply_keeps env.load_and_apply zone0
    rw [hj] at h
    simp only [Option.getD_some] at h
    obtain ⟨zt, ht, htn, htv, htc⟩ := zones_timers_update_keeps env.timers zj z heap sched
    have hkeep : zj.name = zone.name ∧ zj.version = zone.version ∧
        (zone.contents = none → zj.contents = none) :=
      ⟨hjn.trans hz0n.1, hjv.trans hz0n.2.1, fun hc => hjc (hz0n.2.2.trans hc)⟩
    generalize hr : zones_timers_update env.timers (some zj) z heap (some sched) = r at h ht
    obtain ⟨c, zo, h1, so⟩ := r
    simp only at ht
    subst ht
    cases so with
    | none =>
      simp only [Option.some.injEq, Prod.mk.injEq] at h
      obtain ⟨h1, _, _⟩ := h
      subst h1
      exact hkeep
    | some s1 =>
      simp only [Option.some.injEq, Prod.mk.injEq] at h
      obtain ⟨h1, _, _⟩ := h
      subst h1
      exact ⟨htn.trans hkeep.1, htv.trans hkeep.2.1, fun hc => htc.trans (hkeep.2.2 hc)⟩

theorem find_store (db : List knot_zone_t) (zone : knot_zone_t) (n : knot_dname_t) :
    knot_zonedb_find_zone (zonedb_store db zone) n =
      if n = zone.name ∧ (knot_zonedb_find_zone db n).isSome = true then some zone
      else knot_zonedb_find_zone db n := by
  unfold knot_zonedb_find_zone
  induction db with
  | nil => simp [zonedb_store]
  | cons a rest ih =>
    unfold zonedb_store
    by_cases ha : a.name = zone.name
    · simp only [ha, if_true]
      by_cases hn : n = zone.name
      · subst hn
        simp [List.find?, ha]
      · have h1 : ¬ zone.name = n := fun hc => hn hc.symm
        simp [List.find?, ha, hn, h1]
    · simp only [ha, if_false]
      by_cases han : a.name = n
      · have hn : ¬ n = zone.name := fun hc => ha (han.trans hc)
        simp [List.find?, han, hn]
      · simp only [List.find?, han, decide_False]
        exact ih

theorem store_versions (db : List knot_zone_t) (zone0 zone1 : knot_zone_t)
    (h0 : knot_zonedb_find_zone db zone0.name = some zone0)
    (hn : zone1.name = zone0.name) (hv : zone1.version = zone0.version) (n : knot_dname_t) :
    (knot_zonedb_find_zone (zonedb_store db zone1) n).map (fun z => z.version) =
      (knot_zonedb_find_zone db n).map (fun z => z.version) := by
  rw [find_store]
  split_ifs with h
  · obtain ⟨h1, _⟩ := h
    rw [h1, hn, h0]
    simp [hv]
  · rfl

theorem zone_kept_versions (env : reload_env) (db db1 : List knot_zone_t) (z : conf_zone_t)
    (h : (knot_zonedb_find_zone db1 z.name).map (fun z => z.version) =
      (knot_zonedb_find_zone db z.name).map (fun z => z.version)) :
    zone_kept env db z → zone_kept env db1 z := by
  rintro ⟨zone, hf, hlt⟩
  rw [hf] at h
  cases hf1 : knot_zonedb_find_zone db1 z.name with
  | none => simp [hf1] at h
  | some zone1 =>
    rw [hf1] at h
    simp only [Option.map_some', Option.some.injEq] at h
    exact ⟨zone1, hf1, by rw [h]; exact hlt⟩


theorem insert_zone_spec (env : reload_env) (z : conf_zone_t) (st st1 : insert_state)
    (h : insert_zone env z st = some st1) :
    (∀ n ∈ zonedb_names st.db_new, n ∈ zonedb_names st1.db_new) ∧
    ((zone_kept env st.db_old z ∨ stub_case env z ∨ load_ok env z) →
      z.name ∈ zonedb_names st1.db_new) ∧
    (st1.inserted = st.inserted + ((st1.db_new.length : Int) - st.db_new.length) -
      (if stub_added env z st.db_old st.db_new then 1 else 0)) ∧
    (∀ n, (knot_zonedb_find_zone st1.db_old n).map (fun z => z.version) =
      (knot_zonedb_find_zone st.db_old n).map (fun z => z.version)) := by
  unfold insert_zone at h
  cases hdb : insert_zone_db env z st.db_old st.db_new st.inserted with
  | none => simp [hdb] at h
  | some r =>
    obtain ⟨db1, ins1, zo, b⟩ := r
    obtain ⟨s1, s2, s3, s4, s5⟩ := insert_zone_db_spec env z _ _ _ _ _ _ _ hdb
    rw [hdb] at h
    cases zo with
    | none =>
      simp only [Option.some.injEq] at h
      subst h
      exact ⟨s1, s2, s5, fun _ => rfl⟩
    | some zone =>
      simp only at h
      cases hu : zone_data_update env z zone st.heap st.sched with
      | none => simp [hu] at h
      | some u =>
        obtain ⟨zone1, heap, sched⟩ := u
        obtain ⟨u1, u2, _⟩ := zone_data_update_keeps env z _ _ _ _ _ _ hu
        rw [hu] at h
        cases b with
        | true =>
          simp only [if_true, Option.some.injEq] at h
          subst h
          simp only
          rw [names_store, length_store]
          exact ⟨s1, s2, s5, by simp⟩
        | false =>
          simp only [Bool.false_eq_true, if_false, Option.some.injEq] at h
          subst h
          simp only
          have hz := (s3 rfl).symm
          have hzn : zone.name = z.name := find_name _ _ _ hz
          have hz1 : knot_zonedb_find_zone st.db_old zone.name = some zone := by
            rw [hzn]; exact hz
          have hnames : zonedb_names (if knot_zonedb_find_zone db1 zone.name = some zone
              then zonedb_store db1 zone1 else db1) = zonedb_names db1 := by
            split_ifs
            · exact names_store _ _
            · rfl
          have hlen : (if knot_zonedb_find_zone db1 zone.name = some zone
              then zonedb_store db1 zone1 else db1).length = db1.length := by
            split_ifs
            · exact length_store _ _
            · rfl
          rw [hnames, hlen]
          exact ⟨s1, s2, s5, fun n => store_versions _ zone zone1 hz1 u1 u2 n⟩

theorem zones_insert_zones_spec (env : reload_env) (conf : List conf_zone_t) :
    ∀ (st st1 : insert_state), zones_insert_zones env conf st = some st1 →
    (∀ z ∈ conf, env.dname_ok z.name = true) →
    (∀ n ∈ zonedb_names st.db_new, n ∈ zonedb_names st1.db_new) ∧
    (∀ z ∈ conf, (zone_kept env st.db_old z ∨ stub_case env z ∨ load_ok env z) →
      z.name ∈ zonedb_names st1.db_new) ∧
    (∀ n, (knot_zonedb_find_zone st1.db_old n).map (fun z => z.version) =
      (knot_zonedb_find_zone st.db_old n).map (fun z => z.version)) := by
  induction conf with
  | nil =>
    intro st st1 h _
    simp only [zones_insert_zones, Option.some.injEq] at h
    subst h
    exact ⟨fun n hn => hn, fun z hz => by simp at hz, fun _ => rfl⟩
  | cons z rest ih =>
    intro st st1 h hok
    have hz : env.dname_ok z.name = true := hok z (List.mem_cons_self _ _)
    simp only [zones_insert_zones, hz, if_true] at h
    cases hi : insert_zone env z st with
    | none => simp [hi] at h
    | some st2 =>
      rw [hi] at h
      simp only at h
      obtain ⟨a1, a2, _, a4⟩ := insert_zone_spec env z st st2 hi
      obtain ⟨b1, b2, b3⟩ := ih st2 st1 h (fun z1 hz1 => hok z1 (List.mem_cons_of_mem _ hz1))
      refine ⟨fun n hn => b1 n (a1 n hn), ?_, fun n => (b3 n).trans (a4 n)⟩
      intro z1 hz1 hcond
      rcases List.mem_cons.mp hz1 with heq | hmem
      · subst heq
        exact b1 _ (a2 hcond)
      · apply b2 z1 hmem
        rcases hcond with hk | hs | hl
        · exact Or.inl (zone_kept_versions env st.db_old st2.db_old z1 (a4 z1.name) hk)
        · exact Or.inr (Or.inl hs)
        · exact Or.inr (Or.inr hl)

theorem zones_insert_zones_count (env : reload_env) (conf : List conf_zone_t) :
    ∀ (st st1 : insert_state), zones_insert_zones env conf st = some st1 →
    st1.inserted = st.inserted + ((st1.db_new.length : Int) - st.db_new.length) -
      stubs_created env conf st := by
  induction conf with
  | nil =>
    intro st st1 h
    simp only [zones_insert_zones, Option.some.injEq] at h
    subst h
    simp [stubs_created]
  | cons z rest ih =>
    intro st st1 h
    by_cases hz : env.dname_ok z.name = true
    · simp only [zones_insert_zones, hz, if_true] at h
      cases hi : insert_zone env z st with
      | none => simp [hi] at h
      | some st2 =>
        rw [hi] at h
        simp only at h
        obtain ⟨_, _, a3, _⟩ := insert_zone_spec env z st st2 hi
        have b := ih st2 st1 h
        simp only [stubs_created, hz, if_true, hi]
        rw [b, a3]
        split_ifs <;> push_cast <;> omega
    · simp only [zones_insert_zones, hz, Bool.false_eq_true, if_false, Option.some.injEq] at h
      subst h
      simp [stubs_created, hz]


theorem find_append_some (db : List knot_zone_t) (zone x : knot_zone_t) (n : knot_dname_t)
    (h : knot_zonedb_find_zone db n = some x) :
    knot_zonedb_find_zone (db ++ [zone]) n = some x := by
  unfold knot_zonedb_find_zone at h ⊢
  rw [List.find?_append, h]
  rfl

theorem find_append_none (db : List knot_zone_t) (zone : knot_zone_t) (n : knot_dname_t)
    (h : knot_zonedb_find_zone db n = none) :
    knot_zonedb_find_zone (db ++ [zone]) n = if zone.name = n then some zone else none := by
  unfold knot_zonedb_find_zone at h ⊢
  rw [List.find?_append, h]
  by_cases hn : zone.name = n <;> simp [List.find?, hn]

theorem is_stub_append (db : List knot_zone_t) (zone : knot_zone_t) (n : knot_dname_t)
    (h : is_stub db n) : is_stub (db ++ [zone]) n := by
  obtain ⟨x, hx, hc⟩ := h
  exact ⟨x, find_append_some db zone x n hx, hc⟩

theorem is_stub_store (db : List knot_zone_t) (zn zone1 : knot_zone_t) (n : knot_dname_t)
    (hf : knot_zonedb_find_zone db zn.name = some zn) (hn : zone1.name = zn.name)
    (hc : zn.contents = none → zone1.contents = none) (h : is_stub db n) :
    is_stub (zonedb_store db zone1) n := by
  obtain ⟨x, hx, hxc⟩ := h
  unfold is_stub
  rw [find_store]
  split_ifs with hcond
  · obtain ⟨h1, _⟩ := hcond
    rw [h1, hn, hf] at hx
    simp only [Option.some.injEq] at hx
    subst hx
    exact ⟨zone1, rfl, hc hxc⟩
  · exact ⟨x, hx, hxc⟩

theorem zones_load_zone_shape (env : reload_env) (db : List knot_zone_t) (z : conf_zone_t) :
    ((zones_load_zone env db z.name z.file (some z.db)).2 = db) ∨
    ((zones_load_zone env db z.name z.file (some z.db)).1.is_eok = true ∧
      ∃ zone, (zones_load_zone env db z.name z.file (some z.db)).2 = db ++ [zone]) := by
  unfold zones_load_zone
  simp only
  by_cases hopen : env.zload_open z.db = Code.KNOT_EOK
  · simp only [hopen, if_true]
    cases hl : env.zload_load z.db with
    | none => exact Or.inl rfl
    | some zone =>
      simp only
      by_cases hadd : (knot_zonedb_add_zone db
          { zone with version := (env.stat z.db).getD env.stat_garbage }).1 = Code.KNOT_EOK
      · simp only [hadd, if_true]
        refine Or.inr ⟨rfl, { zone with version := (env.stat z.db).getD env.stat_garbage }, ?_⟩
        unfold knot_zonedb_add_zone at hadd ⊢
        split_ifs at hadd ⊢ with h1
        rfl
      · simp [hadd]
  · simp [hopen]

theorem reload_zone_shape (env : reload_env) (z : conf_zone_t) (db_new : List knot_zone_t)
    (ins : Int) :
    (((reload_zone env z db_new ins).2.1 = db_new) ∨
      ((reload_zone env z db_new ins).1.is_eok = true ∧
        ∃ zone, (reload_zone env z db_new ins).2.1 = db_new ++ [zone])) ∧
    (((env.stat z.db).isNone && !z.acl_xfr_in.isEmpty) = true →
      knot_zonedb_find_zone db_new z.name = none →
      (reload_zone env z db_new ins).1.is_eok = true ∧
      (reload_zone env z db_new ins).2.1 = db_new ++ [knot_zone_new_empty z.name]) := by
  unfold reload_zone
  by_cases hstub : ((env.stat z.db).isNone && !z.acl_xfr_in.isEmpty) = true
  · simp only [hstub, if_true]
    have hn : (knot_zone_new_empty z.name).name = z.name := rfl
    by_cases hf : (knot_zonedb_find_zone db_new z.name).isSome = true
    · have h1 : knot_zonedb_add_zone db_new (knot_zone_new_empty z.name)
          = (Code.KNOT_ERROR, db_new) := by
        unfold knot_zonedb_add_zone
        rw [hn, hf]; rfl
      rw [h1]
      refine ⟨Or.inl (by simp), ?_⟩
      intro _ hnone
      rw [hnone] at hf
      simp at hf
    · have h1 : knot_zonedb_add_zone db_new (knot_zone_new_empty z.name)
          = (Code.KNOT_EOK, db_new ++ [knot_zone_new_empty z.name]) := by
        unfold knot_zonedb_add_zone
        rw [hn]
        simp only [hf, Bool.false_eq_true, if_false]
      rw [h1]
      simp only [if_true]
      exact ⟨Or.inr ⟨rfl, _, rfl⟩, fun _ _ => by simp [Code.is_eok]⟩
  · have hstub1 : ((env.stat z.db).isNone && !z.acl_xfr_in.isEmpty) = false := by
      simpa using hstub
    simp only [hstub1, Bool.false_eq_true, if_false]
    exact ⟨zones_load_zone_shape env db_new z, fun hc => by simp at hc⟩

theorem add_shape (db : List knot_zone_t) (zone : knot_zone_t) :
    (knot_zonedb_add_zone db zone).2 = db ∨ (knot_zonedb_add_zone db zone).2 = db ++ [zone] := by
  unfold knot_zonedb_add_zone
  split_ifs
  · exact Or.inl rfl
  · exact Or.inr rfl

theorem find_none_of_not_mem (db : List knot_zone_t) (n : knot_dname_t)
    (h : n ∉ zonedb_names db) : knot_zonedb_find_zone db n = none := by
  cases hf : knot_zonedb_find_zone db n with
  | none => rfl
  | some x =>
    exact absurd ((find_isSome_iff db n).mp (by rw [hf]; rfl)) h

theorem insert_zone_db_stub (env : reload_env) (z : conf_zone_t)
    (db_old db_new : List knot_zone_t) (ins : Int) (db1 : List knot_zone_t) (ins1 : Int)
    (zo : Option knot_zone_t) (b : Bool)
    (h : insert_zone_db env z db_old db_new ins = some (db1, ins1, zo, b)) :
    (∀ n, is_stub db_new n → is_stub db1 n) ∧
    (stub_added env z db_old db_new = true → is_stub db1 z.name) ∧
    (z.name ∉ zonedb_names db_new →
      ∀ n ∈ zonedb_names db1, n ∈ zonedb_names db_new ∨ n = z.name) ∧
    (b = true → zo = knot_zonedb_find_zone db1 z.name) := by
  unfold insert_zone_db at h
  simp only at h
  unfold stub_added
  by_cases hre : (match knot_zonedb_find_zone db_old z.name with
       | some zone => decide (zone.version < (env.stat z.db).getD env.stat_garbage)
       | none => true) = true
  · simp only [hre, if_true, Bool.true_and] at h ⊢
    obtain ⟨sh1, sh2⟩ := reload_zone_shape env z db_new ins
    have hstubr : ∀ n, is_stub db_new n → is_stub (reload_zone env z db_new ins).2.1 n := by
      intro n hn
      rcases sh1 with heq | ⟨_, zone, heq⟩
      · rw [heq]; exact hn
      · rw [heq]; exact is_stub_append _ _ _ hn
    by_cases hok : (reload_zone env z db_new ins).1.is_eok = true
    · simp only [hok, if_true] at h
      cases hf : knot_zonedb_find_zone (reload_zone env z db_new ins).2.1 z.name with
      | none => simp [hf] at h
      | some zone =>
        simp only [hf, Option.some.injEq, Prod.mk.injEq] at h
        obtain ⟨h1, h2, h3, h4⟩ := h
        subst h1 h2 h3 h4
        obtain ⟨k1, _, k3⟩ := zonedata_init_keeps z zone
        have hzn : zone.name = z.name := find_name _ _ _ hf
        have hf1 : knot_zonedb_find_zone (reload_zone env z db_new ins).2.1 zone.name
            = some zone := by rw [hzn]; exact hf
        have hfind : knot_zonedb_find_zone
            (zonedb_store (reload_zone env z db_new ins).2.1 (zonedata_init z zone).2) z.name
            = some (zonedata_init z zone).2 := by
          rw [find_store, k1, hzn, hf]
          simp
        refine ⟨?_, ?_, ?_, fun _ => hfind.symm⟩
        · intro n hn
          exact is_stub_store _ zone _ n hf1 k1 (fun hc => k3.trans hc) (hstubr n hn)
        · intro hadded
          simp only [Bool.and_eq_true] at hadded
          obtain ⟨hs, hnone⟩ := hadded
          have hnone1 : knot_zonedb_find_zone db_new z.name = none := by
            cases hx : knot_zonedb_find_zone db_new z.name with
            | none => rfl
            | some x => rw [hx] at hnone; simp at hnone
          obtain ⟨_, hshape⟩ := sh2 (by simpa using hs) hnone1
          rw [hshape, find_append_none _ _ _ hnone1] at hf
          have hn0 : (knot_zone_new_empty z.name).name = z.name := rfl
          simp only [hn0, if_true, Option.some.injEq] at hf
          refine ⟨_, hfind, ?_⟩
          rw [k3, ← hf]
          rfl
        · intro hnot n hn
          rw [names_store] at hn
          rcases sh1 with heq | ⟨_, zone1, heq⟩
          · rw [heq] at hn; exact Or.inl hn
          · rw [heq] at hn hf
            rw [find_append_none _ _ _ (find_none_of_not_mem _ _ hnot)] at hf
            have hz1 : zone1.name = z.name := by
              by_contra hc
              simp [hc] at hf
            simp only [zonedb_names, List.map_append, List.mem_append, List.map_cons,
              List.map_nil, List.mem_singleton] at hn
            rcases hn with hn | hn
            · exact Or.inl hn
            · exact Or.inr (hn.trans hz1)
    · have hok1 : (reload_zone env z db_new ins).1.is_eok = false := by simpa using hok
      simp only [hok1, Bool.false_eq_true, if_false, Option.some.injEq, Prod.mk.injEq] at h
      obtain ⟨h1, h2, h3, h4⟩ := h
      subst h1 h2 h3 h4
      have heq : (reload_zone env z db_new ins).2.1 = db_new := by
        rcases sh1 with heq | ⟨hc, _⟩
        · exact heq
        · rw [hok1] at hc; simp at hc
      rw [heq]
      refine ⟨fun n hn => hn, ?_, fun _ n hn => Or.inl hn, fun hb => by simp at hb⟩
      intro hadded
      simp only [Bool.and_eq_true] at hadded
      obtain ⟨hs, hnone⟩ := hadded
      have hnone1 : knot_zonedb_find_zone db_new z.name = none := by
        cases hx : knot_zonedb_find_zone db_new z.name with
        | none => rfl
        | some x => rw [hx] at hnone; simp at hnone
      obtain ⟨hc, _⟩ := sh2 (by simpa using hs) hnone1
      rw [hok1] at hc; simp at hc
  · have hre1 : (match knot_zonedb_find_zone db_old z.name with
       | some zone => decide (zone.version < (env.stat z.db).getD env.stat_garbage)
       | none => true) = false := by simpa using hre
    simp only [hre1, Bool.false_eq_true, if_false, Bool.false_and] at h ⊢
    cases hf : knot_zonedb_find_zone db_old z.name with
    | none => simp [hf] at hre1
    | some zone1 =>
      simp only [hf] at h
      have hname : zone1.name = z.name := find_name _ _ _ hf
      have hsub : ∀ (d : List knot_zone_t), (d = db_new ∨ d = db_new ++ [zone1]) →
          (∀ n, is_stub db_new n → is_stub d n) ∧
          (z.name ∉ zonedb_names db_new →
            ∀ n ∈ zonedb_names d, n ∈ zonedb_names db_new ∨ n = z.name) := by
        intro d hd
        rcases hd with hd | hd
        · subst hd
          exact ⟨fun n hn => hn, fun _ n hn => Or.inl hn⟩
        · subst hd
          refine ⟨fun n hn => is_stub_append _ _ _ hn, fun _ n hn => ?_⟩
          simp only [zonedb_names, List.map_append, List.mem_append, List.map_cons,
            List.map_nil, List.mem_singleton] at hn
          rcases hn with hn | hn
          · exact Or.inl hn
          · exact Or.inr (hn.trans hname)
      by_cases hadd : (knot_zonedb_add_zone db_new zone1).1.is_eok = true
      · simp only [hadd, if_true, Option.some.injEq, Prod.mk.injEq] at h
        obtain ⟨h1, h2, h3, h4⟩ := h
        subst h1 h2 h3 h4
        obtain ⟨a, c⟩ := hsub _ (add_shape db_new zone1)
        exact ⟨a, fun hc => by simp at hc, c, fun hb => by simp at hb⟩
      · have hadd1 : (knot_zonedb_add_zone db_new zone1).1.is_eok = false := by simpa using hadd
        simp only [hadd1, Bool.false_eq_true, if_false, Option.some.injEq, Prod.mk.injEq] at h
        obtain ⟨h1, h2, h3, h4⟩ := h
        subst h1 h2 h3 h4
        exact ⟨fun n hn => hn, fun hc => by simp at hc, fun _ n hn => Or.inl hn,
          fun hb => by simp at hb⟩


theorem insert_zone_stub (env : reload_env) (z : conf_zone_t) (st st1 : insert_state)
    (h : insert_zone env z st = some st1) :
    (∀ n, is_stub st.db_new n → is_stub st1.db_new n) ∧
    (stub_added env z st.db_old st.db_new = true → is_stub st1.db_new z.name) ∧
    (z.name ∉ zonedb_names st.db_new →
      ∀ n ∈ zonedb_names st1.db_new, n ∈ zonedb_names st.db_new ∨ n = z.name) := by
  unfold insert_zone at h
  cases hdb : insert_zone_db env z st.db_old st.db_new st.inserted with
  | none => simp [hdb] at h
  | some r =>
    obtain ⟨db1, ins1, zo, b⟩ := r
    obtain ⟨s1, s2, s3, s4⟩ := insert_zone_db_stub env z _ _ _ _ _ _ _ hdb
    obtain ⟨_, _, t3, _, _⟩ := insert_zone_db_spec env z _ _ _ _ _ _ _ hdb
    rw [hdb] at h
    cases zo with
    | none =>
      simp only [Option.some.injEq] at h
      subst h
      exact ⟨s1, s2, s3⟩
    | some zone =>
      simp only at h
      cases hu : zone_data_update env z zone st.heap st.sched with
      | none => simp [hu] at h
      | some u =>
        obtain ⟨zone1, heap, sched⟩ := u
        obtain ⟨u1, _, u3⟩ := zone_data_update_keeps env z _ _ _ _ _ _ hu
        rw [hu] at h
        have hwb : ∀ (d : List knot_zone_t),
            (d = zonedb_store db1 zone1 ∧ knot_zonedb_find_zone db1 zone.name = some zone) ∨
              d = db1 →
            (∀ n, is_stub db1 n → is_stub d n) ∧ zonedb_names d = zonedb_names db1 := by
          intro d hd
          rcases hd with ⟨hd, hf⟩ | hd
          · subst hd
            exact ⟨fun n hn => is_stub_store db1 zone zone1 n hf u1 u3 hn, names_store _ _⟩
          · subst hd
            exact ⟨fun n hn => hn, rfl⟩
        have hfin : ∀ (d : List knot_zone_t),
            (d = zonedb_store db1 zone1 ∧ knot_zonedb_find_zone db1 zone.name = some zone) ∨
              d = db1 →
            (∀ n, is_stub st.db_new n → is_stub d n) ∧
            (stub_added env z st.db_old st.db_new = true → is_stub d z.name) ∧
            (z.name ∉ zonedb_names st.db_new →
              ∀ n ∈ zonedb_names d, n ∈ zonedb_names st.db_new ∨ n = z.name) := by
          intro d hd
          obtain ⟨w1, w2⟩ := hwb d hd
          refine ⟨fun n hn => w1 n (s1 n hn), fun ha => w1 _ (s2 ha), ?_⟩
          intro hnot n hn
          rw [w2] at hn
          exact s3 hnot n hn
        cases b with
        | true =>
          simp only [if_true, Option.some.injEq] at h
          subst h
          simp only
          apply hfin
          left
          refine ⟨rfl, ?_⟩
          have hz := (s4 rfl).symm
          rw [find_name _ _ _ hz]
          exact hz
        | false =>
          simp only [Bool.false_eq_true, if_false, Option.some.injEq] at h
          subst h
          simp only
          apply hfin
          by_cases hc : knot_zonedb_find_zone db1 zone.name = some zone
          · left
            exact ⟨by rw [if_pos hc], hc⟩
          · right
            rw [if_neg hc]

theorem stub_added_of (env : reload_env) (z : conf_zone_t) (db_old db_new : List knot_zone_t)
    (hs : stub_case env z) (hk : ¬ zone_kept env db_old z)
    (hn : z.name ∉ zonedb_names db_new) : stub_added env z db_old db_new = true := by
  unfold stub_added
  have h1 := (stub_case_iff env z).mpr hs
  have h2 : (match knot_zonedb_find_zone db_old z.name with
       | some zone => decide (zone.version < (env.stat z.db).getD env.stat_garbage)
       | none => true) = true := by
    by_contra hc
    exact hk ((zone_kept_iff env db_old z).mpr (by simpa using hc))
  rw [h2, h1, find_none_of_not_mem _ _ hn]
  rfl

theorem zones_insert_zones_stub (env : reload_env) (conf : List conf_zone_t) :
    ∀ (st st1 : insert_state), zones_insert_zones env conf st = some st1 →
    (∀ z ∈ conf, env.dname_ok z.name = true) →
    (conf.map fun z => z.name).Nodup →
    (∀ z ∈ conf, z.name ∉ zonedb_names st.db_new) →
    (∀ n, is_stub st.db_new n → is_stub st1.db_new n) ∧
    (∀ z ∈ conf, stub_case env z → ¬ zone_kept env st.db_old z →
      is_stub st1.db_new z.name) := by
  induction conf with
  | nil =>
    intro st st1 h _ _ _
    simp only [zones_insert_zones, Option.some.injEq] at h
    subst h
    exact ⟨fun n hn => hn, fun z hz => by simp at hz⟩
  | cons z rest ih =>
    intro st st1 h hok hnd hfresh
    have hz : env.dname_ok z.name = true := hok z (List.mem_cons_self _ _)
    simp only [zones_insert_zones, hz, if_true] at h
    cases hi : insert_zone env z st with
    | none => simp [hi] at h
    | some st2 =>
      rw [hi] at h
      simp only at h
      obtain ⟨_, _, _, a4⟩ := insert_zone_spec env z st st2 hi
      obtain ⟨c1, c2, c3⟩ := insert_zone_stub env z st st2 hi
      simp only [List.map_cons, List.nodup_cons, List.mem_map, not_exists, not_and] at hnd
      obtain ⟨hhead, hnd1⟩ := hnd
      have hzfresh : z.name ∉ zonedb_names st.db_new := hfresh z (List.mem_cons_self _ _)
      have hfresh2 : ∀ z1 ∈ rest, z1.name ∉ zonedb_names st2.db_new := by
        intro z1 hz1 hmem
        rcases c3 hzfresh _ hmem with hm | hm
        · exact hfresh z1 (List.mem_cons_of_mem _ hz1) hm
        · exact hhead z1 hz1 hm
      obtain ⟨b1, b2⟩ := ih st2 st1 h (fun z1 hz1 => hok z1 (List.mem_cons_of_mem _ hz1))
        hnd1 hfresh2
      refine ⟨fun n hn => b1 n (c1 n hn), ?_⟩
      intro z1 hz1 hs hk
      rcases List.mem_cons.mp hz1 with heq | hmem
      · subst heq
        exact b1 _ (c2 (stub_added_of env z1 _ _ hs hk hzfresh))
      · apply b2 z1 hmem hs
        intro hk2
        exact hk (zone_kept_versions env st2.db_old st.db_old z1 (a4 z1.name).symm hk2)


/-! ## Reload: configured names in the new database -/

/-- C19, counterexample: the configuration lists the zone `example.` with no
master; its compiled db file is missing and does not load, and the old
database is empty. The reload returns `KNOTD_EOK` and publishes an empty
database: the configured name `example.` is not in it. -/
theorem zones_update_db_from_config_drops_zone :
    example_conf_zone ∈ example_conf.zones ∧
    zones_update_db_from_config example_reload_env (some example_conf) (some example_ns_empty)
        example_heap_empty
      = some { ret := Code.KNOTD_EOK, ns := some example_ns_empty, db_old := some [],
               inserted := 0, warned := true, heap := example_heap_empty } ∧
    example_conf_zone.name ∉ zonedb_names example_ns_empty.zone_db := by
  refine ⟨by decide, rfl, by decide⟩

/-- C19, amended: when `zones_update_db_from_config` returns for a
configuration whose names all convert to domain names, it publishes a
database `new_db` in which a configured name is present whenever the zone is
kept from the old database, or its compiled db file is missing and a master
is configured, or its compiled db loads a zone of that name. When the
configured names are distinct, a zone whose compiled db file is missing, with
a master configured, and which is not kept from the old database, is present
as a stub with absent contents. -/
theorem zones_update_db_from_config_present (env : reload_env) (conf : conf_t)
    (ns : knot_nameserver_t) (heap : notify_heap_t) (r : reload_result)
    (h : zones_update_db_from_config env (some conf) (some ns) heap = some r)
    (hok : ∀ z ∈ conf.zones, env.dname_ok z.name = true) :
    ∃ ns1, r.ns = some ns1 ∧
      (∀ z ∈ conf.zones, (zone_kept env ns.zone_db z ∨ stub_case env z ∨ load_ok env z) →
        z.name ∈ zonedb_names ns1.zone_db) ∧
      ((conf.zones.map fun z => z.name).Nodup →
        ∀ z ∈ conf.zones, stub_case env z → ¬ zone_kept env ns.zone_db z →
          is_stub ns1.zone_db z.name) := by
  unfold zones_update_db_from_config at h
  simp only at h
  cases hi : zones_insert_zones env conf.zones
      { db_old := ns.zone_db, db_new := [], inserted := 0, heap := heap,
        sched := ns.data.sched } with
  | none => simp [hi] at h
  | some st =>
    rw [hi] at h
    simp only [Option.some.injEq] at h
    subst h
    obtain ⟨_, a2, _⟩ := zones_insert_zones_spec env conf.zones _ _ hi hok
    refine ⟨_, rfl, a2, ?_⟩
    intro hnd
    exact (zones_insert_zones_stub env conf.zones _ _ hi hok hnd
      (fun z _ hm => by simp [zonedb_names] at hm)).2

/-- Witness of C19: the configuration with the slave zone `example.`, whose
compiled db file is missing: the new database holds `example.` as a stub. -/
theorem zones_update_db_from_config_present_witness :
    (zones_update_db_from_config example_reload_env (some example_conf_slave)
        (some example_ns_empty) example_heap_empty
      = some { ret := Code.KNOTD_EOK, ns := some example_ns_reloaded, db_old := some [],
               inserted := 0, warned := true, heap := example_heap_empty } ∧
     ∀ z ∈ example_conf_slave.zones, example_reload_env.dname_ok z.name = true) ∧
    ∃ ns1, some example_ns_reloaded = some ns1 ∧
      (∀ z ∈ example_conf_slave.zones,
        (zone_kept example_reload_env example_ns_empty.zone_db z ∨
          stub_case example_reload_env z ∨ load_ok example_reload_env z) →
        z.name ∈ zonedb_names ns1.zone_db) ∧
      ((example_conf_slave.zones.map fun z => z.name).Nodup →
        ∀ z ∈ example_conf_slave.zones, stub_case example_reload_env z →
          ¬ zone_kept example_reload_env example_ns_empty.zone_db z →
          is_stub ns1.zone_db z.name) :=
  ⟨⟨rfl, by decide⟩,
   zones_update_db_from_config_present example_reload_env example_conf_slave example_ns_empty
     example_heap_empty
     { ret := Code.KNOTD_EOK, ns := some example_ns_reloaded, db_old := some [],
       inserted := 0, warned := true, heap := example_heap_empty }
     rfl (by decide)⟩

/-! ## Reload: the number of inserted zones -/

/-- C20, counterexample: the configuration lists the slave zone `example.`,
whose compiled db file is missing. `zones_insert_zones` inserts one zone, the
stub, into the new database and returns 0; the reload compares 0 with the
configured count 1 and logs the warning. -/
theorem zones_insert_zones_skips_stub :
    zones_insert_zones example_reload_env example_conf_slave.zones example_insert_state
      = some { db_old := [], db_new := [example_stub_reloaded], inserted := 0,
               heap := example_heap_empty, sched := example_sched_reloaded } ∧
    [example_stub_reloaded].length = 1 ∧
    (zones_update_db_from_config example_reload_env (some example_conf_slave)
        (some example_ns_empty) example_heap_empty).map (fun r => (r.inserted, r.warned))
      = some (0, true) := by
  refine ⟨rfl, rfl, rfl⟩

/-- C20, amended: the number `zones_insert_zones` returns is the number it
started from plus the number of zones it put into the new database, stub
zones not included: a stub is added after the counter has been decremented,
so it leaves the counter as it was. The reload logs the warning exactly when
that number differs from the configured zone count. -/
theorem zones_insert_zones_counts_loaded (env : reload_env) (conf : List conf_zone_t)
    (st st1 : insert_state) (h : zones_insert_zones env conf st = some st1) :
    st1.inserted = st.inserted + ((st1.db_new.length : Int) - st.db_new.length) -
      stubs_created env conf st ∧
    ∀ (cf : conf_t) (ns : knot_nameserver_t) (r : reload_result),
      cf.zones = conf →
      st = { db_old := ns.zone_db, db_new := [], inserted := 0, heap := st.heap,
             sched := ns.data.sched } →
      zones_update_db_from_config env (some cf) (some ns) st.heap = some r →
      r.inserted = st1.inserted ∧ r.warned = decide (st1.inserted ≠ cf.zones_count) ∧
      r.ns.map (fun n => n.zone_db) = some st1.db_new := by
  refine ⟨zones_insert_zones_count env conf st st1 h, ?_⟩
  intro cf ns r hcf hst hr
  unfold zones_update_db_from_config at hr
  simp only at hr
  rw [hcf, ← hst, h] at hr
  simp only [Option.some.injEq] at hr
  subst hr
  exact ⟨rfl, rfl, rfl⟩

/-- Witness of C20: the slave zone `example.` alone: one zone in the new
database, one stub created, 0 returned. -/
theorem zones_insert_zones_counts_loaded_witness :
    zones_insert_zones example_reload_env example_conf_slave.zones example_insert_state
      = some { db_old := [], db_new := [example_stub_reloaded], inserted := 0,
               heap := example_heap_empty, sched := example_sched_reloaded } ∧
    (0 : Int) = 0 + ((([example_stub_reloaded] : List knot_zone_t).length : Int) -
        (([] : List knot_zone_t).length : Int)) -
      stubs_created example_reload_env example_conf_slave.zones example_insert_state :=
  ⟨rfl,
   (zones_insert_zones_counts_loaded example_reload_env example_conf_slave.zones
      example_insert_state
      { db_old := [], db_new := [example_stub_reloaded], inserted := 0,
        heap := example_heap_empty, sched := example_sched_reloaded } rfl).1⟩

/-! ## Reload: the residue of the old database -/

theorem remove_zone_eq_filter (db : List knot_zone_t) (name : knot_dname_t)
    (hwf : zonedb_wf db) :
    (knot_zonedb_remove_zone db name).2 = db.filter (fun z => decide (z.name ≠ name)) := by
  induction db with
  | nil => rfl
  | cons z rest ih =>
    unfold zonedb_wf at hwf
    simp only [List.map_cons, List.nodup_cons] at hwf
    unfold knot_zonedb_remove_zone
    by_cases hz : z.name = name
    · simp only [hz, if_true]
      rw [List.filter_cons]
      have h1 : decide (z.name ≠ name) = false := by simp [hz]
      rw [h1]
      have hnot : name ∉ rest.map fun z => z.name := by rw [← hz]; exact hwf.1
      simpa using (filter_ne_of_not_mem rest name hnot).symm
    · simp only [hz, if_false]
      rw [List.filter_cons]
      have h1 : decide (z.name ≠ name) = true := by simp [hz]
      rw [h1]
      simp only [if_true]
      rw [ih hwf.2]

/-- What `zones_remove_zones` leaves in the old database when every configured
name converts: the zones whose name is not configured, whether or not the
configured name made it into the new database. -/
theorem zones_remove_zones_spec (env : reload_env) (conf : List conf_zone_t) :
    ∀ (db : List knot_zone_t), zonedb_wf db →
    (∀ z ∈ conf, env.dname_ok z.name = true) →
    zones_remove_zones env conf db
      = (Code.KNOTD_EOK, db.filter fun zone => decide (zone.name ∉ conf.map fun z => z.name)) := by
  induction conf with
  | nil => intro db _ _; simp [zones_remove_zones]
  | cons z rest ih =>
    intro db hwf hok
    have hz : env.dname_ok z.name = true := hok z (List.mem_cons_self _ _)
    simp only [zones_remove_zones, hz, if_true]
    rw [remove_zone_eq_filter db z.name hwf]
    have hwf1 : zonedb_wf (db.filter fun zone => decide (zone.name ≠ z.name)) := by
      unfold zonedb_wf at hwf ⊢
      exact (List.Nodup.sublist (List.Sublist.map _ (List.filter_sublist _)) hwf)
    rw [ih _ hwf1 (fun z1 hz1 => hok z1 (List.mem_cons_of_mem _ hz1))]
    rw [List.filter_filter]
    congr 1
    apply List.filter_congr
    intro zone _
    simp only [List.map_cons, List.mem_cons, not_or, Bool.decide_and, ne_eq, decide_not]
    rw [Bool.and_comm]

/-- C21: evaluation of the reload on a name server that serves `example.`
(loaded version 0) with a configuration that lists `example.` without a
master, when the compiled db file is newer (modification time 5) and fails to
load. The reload returns `KNOTD_EOK`; the new database is empty, so the name
is not present in it, and the zone has been removed from the old database all
the same: it is in neither, while a zonefile-sync event (id 3) has been
scheduled for it. -/
theorem zones_update_db_from_config_loses_zone :
    (knot_zonedb_find_zone example_ns_old.zone_db "example.").isSome = true ∧
    zones_update_db_from_config example_reload_env_newer (some example_conf)
        (some example_ns_old) example_heap_empty
      = some { ret := Code.KNOTD_EOK,
               ns := some { zone_db := [],
                            data := { sched := example_sched_after_loss, xfr_h := [] } },
               db_old := some [], inserted := 0, warned := true,
               heap := example_heap_empty } ∧
    "example." ∉ zonedb_names ([] : List knot_zone_t) := by
  refine ⟨by decide, rfl, by decide⟩

/-! ## Changeset format: the parser as written -/

theorem from_binary_loop_as_written {α : Type} (ops : rrset_ops α) :
    ∀ (fuel remaining : Nat) (chs : knot_changeset_t α) (recs : List α),
      chs.size ≤ (chs.data.getD []).length →
      spec_records ops fuel ((chs.data.getD []).take chs.size) remaining = some recs →
      ∃ chs1, from_binary_loop ops fuel remaining true chs = some (Except.ok chs1) ∧
        chs1.soa_from = chs.soa_from ∧
        chs1.remove = chs.remove ++
          recs.filter (fun r => ops.knot_rrset_type r ≠ KNOT_RRTYPE_SOA) ∧
        chs1.add = chs.add ∧ chs1.add_allocated = chs.add_allocated ∧
        chs1.soa_to =
          (match (recs.filter fun r => ops.knot_rrset_type r = KNOT_RRTYPE_SOA).getLast? with
           | some s => some s
           | none => chs.soa_to) ∧
        chs1.data = chs.data ∧ chs1.size = chs.size := by
  intro fuel
  induction fuel with
  | zero => intro remaining chs recs _ h; simp [spec_records] at h
  | succ n ih =>
    intro remaining chs recs hsize h
    have hlen : ((chs.data.getD []).take chs.size).length = chs.size := by
      rw [List.length_take]; omega
    unfold spec_records at h
    unfold from_binary_loop
    by_cases hrem : remaining > 0
    · simp only [hrem, if_true, hlen] at h ⊢
      cases hd : ops.knot_zload_rrset_deserialize
          (List.drop (chs.size - remaining) (List.take chs.size (chs.data.getD []))) remaining with
      | none => simp [hd] at h
      | some p =>
        obtain ⟨r, remaining1⟩ := p
        rw [hd] at h
        simp only [Option.map_eq_some'] at h
        obtain ⟨rs, hrs, hrecs⟩ := h
        subst hrecs
        simp only
        by_cases hsoa : ops.knot_rrset_type r = KNOT_RRTYPE_SOA
        · simp only [hsoa, if_true, knot_changeset_store_soa]
          obtain ⟨chs1, e1, e2, e3, e4, e5, e6, e7, e8⟩ :=
            ih remaining1
              { chs with
                soa_to := some r
                serial_to := (ops.knot_rdata_soa_serial r % (2 ^ 32 : Int)).toNat }
              rs hsize hrs
          refine ⟨chs1, e1, e2, ?_, e4, e5, ?_, e7, e8⟩
          · rw [e3]
            simp [List.filter_cons, hsoa]
          · rw [e6]
            simp only [List.filter_cons, hsoa, decide_True, if_true]
            rw [List.getLast?_cons]
            cases (List.filter (fun r => decide (ops.knot_rrset_type r = KNOT_RRTYPE_SOA))
              rs).getLast? <;> rfl
        · simp only [hsoa, if_false, knot_changeset_add_rrset]
          obtain ⟨chs1, e1, e2, e3, e4, e5, e6, e7, e8⟩ :=
            ih remaining1
              { chs with
                remove := chs.remove ++ [r]
                remove_allocated :=
                  knot_changeset_check_count (chs.remove.length + 1) chs.remove_allocated }
              rs hsize hrs
          refine ⟨chs1, e1, e2, ?_, e4, e5, ?_, e7, e8⟩
          · rw [e3]
            simp [List.filter_cons, hsoa]
          · rw [e6]
            simp [List.filter_cons, hsoa]
    · simp only [hrem, if_false, Option.some.injEq] at h ⊢
      subst h
      exact ⟨chs, rfl, rfl, by simp, rfl, rfl, rfl, rfl, rfl⟩

theorem changeset_from_binary_as_written {α : Type} (ops : rrset_ops α) (fuel : Nat)
    (chs : knot_changeset_t α) (r0 : α) (recs : List α)
    (hsize : chs.size ≤ (chs.data.getD []).length)
    (h : spec_records ops (fuel + 1) ((chs.data.getD []).take chs.size) chs.size
      = some (r0 :: recs)) :
    ∃ chs1, changeset_from_binary ops fuel chs = some (Except.ok chs1) ∧
      parsed_as_written ops chs chs1 r0 recs := by
  have hlen : ((chs.data.getD []).take chs.size).length = chs.size := by
    rw [List.length_take]; omega
  unfold spec_records at h
  by_cases hrem : chs.size > 0
  · simp only [hrem, if_true, hlen, Nat.sub_self, List.drop_zero] at h
    unfold changeset_from_binary
    cases hd : ops.knot_zload_rrset_deserialize (List.take chs.size (chs.data.getD []))
        chs.size with
    | none => simp [hd] at h
    | some p =>
      obtain ⟨r, remaining1⟩ := p
      rw [hd] at h
      simp only [Option.map_eq_some', List.cons.injEq] at h
      obtain ⟨rs, hrs, hr, hrecs⟩ := h
      subst hr hrecs
      simp only [knot_changeset_store_soa, hd]
      unfold parsed_as_written
      obtain ⟨chs1, e1, e2, e3, e4, e5, e6, e7, e8⟩ :=
        from_binary_loop_as_written ops fuel remaining1
          { chs with
            soa_from := some r
            serial_from := (ops.knot_rdata_soa_serial r % (2 ^ 32 : Int)).toNat }
          rs hsize hrs
      exact ⟨chs1, e1, e2, e3, e4, e5, e6, e7, e8⟩
  · simp [hrem] at h

/-- C27: for every batch of changesets whose buffers parse completely (first
record `r0`, then the records `recs`, up to the end of the buffer),
`zones_changesets_from_binary` as written returns ok and, for each changeset,
`soa_from` is `r0`, every non-SOA record of `recs` has been appended to the
removals in buffer order, the additions and their capacity are as on entry,
and `soa_to` is the last SOA record of `recs` (left as it was when there is
none). All records of the buffer are consumed: parsing does not stop before
its end. -/
theorem zones_changesets_from_binary_as_written {α : Type} (ops : rrset_ops α) (fuel : Nat)
    (chgsets : List (knot_changeset_t α))
    (h : ∀ chs ∈ chgsets, chs.size ≤ (chs.data.getD []).length ∧
      ∃ r0 recs, spec_records ops (fuel + 1) ((chs.data.getD []).take chs.size) chs.size
        = some (r0 :: recs)) :
    ∃ out, zones_changesets_from_binary ops fuel chgsets = some (Code.KNOT_EOK, out) ∧
      List.Forall₂ (fun chs chs1 => ∀ r0 recs,
        spec_records ops (fuel + 1) ((chs.data.getD []).take chs.size) chs.size
          = some (r0 :: recs) →
        parsed_as_written ops chs chs1 r0 recs ∧ chs1.add.length = chs.add.length)
        chgsets out := by
  induction chgsets with
  | nil => exact ⟨[], rfl, List.Forall₂.nil⟩
  | cons chs rest ih =>
    obtain ⟨hsize, r0, recs, hrec⟩ := h chs (List.mem_cons_self _ _)
    obtain ⟨out, hout, hall⟩ := ih (fun c hc => h c (List.mem_cons_of_mem _ hc))
    obtain ⟨chs1, h1, h2⟩ := changeset_from_binary_as_written ops fuel chs r0 recs hsize hrec
    refine ⟨chs1 :: out, ?_, List.Forall₂.cons ?_ hall⟩
    · simp only [zones_changesets_from_binary, h1, hout]
    · intro r0a recsa hreca
      rw [hrec] at hreca
      simp only [Option.some.injEq, List.cons.injEq] at hreca
      obtain ⟨e1, e2⟩ := hreca
      subst e1 e2
      exact ⟨h2, by rw [h2.2.2.1]⟩

/-- Witness of C27: the buffer of the changeset 1 → 2 with one removal and one
addition: both non-SOA records end up in the removals. -/
theorem zones_changesets_from_binary_as_written_witness :
    ∃ out, zones_changesets_from_binary toy_ops 8
        [(knot_changeset_t.of_binary toy_buffer 1 2 : knot_changeset_t toy_rrset)]
        = some (Code.KNOT_EOK, out) ∧
      List.Forall₂ (fun chs chs1 => ∀ r0 recs,
        spec_records toy_ops (8 + 1) ((chs.data.getD []).take chs.size) chs.size
          = some (r0 :: recs) →
        parsed_as_written toy_ops chs chs1 r0 recs ∧ chs1.add.length = chs.add.length)
        [(knot_changeset_t.of_binary toy_buffer 1 2 : knot_changeset_t toy_rrset)] out :=
  zones_changesets_from_binary_as_written toy_ops 8
    [(knot_changeset_t.of_binary toy_buffer 1 2 : knot_changeset_t toy_rrset)]
    (fun chs hchs => by
      rw [List.mem_singleton] at hchs
      subst hchs
      exact ⟨by decide, (6, 1), [(1, 10), (6, 2), (1, 20)], by decide⟩)

/-! ## Changeset batches: capacity -/

theorem check_size_grow {α : Type} (c : knot_changesets_t α) (hge : c.allocated ≤ c.count)
    (hd : c.count ≤ c.allocated + 4) (hlen : c.sets.length = c.allocated)
    (hmax : c.allocated + (c.count - c.allocated + 1) * 5 < 2 ^ 64) :
    ∃ extra, c.count - c.allocated < extra ∧ extra = (c.count - c.allocated + 1) * 5 ∧
      knot_changesets_check_size c
        = (Code.KNOT_EOK,
           { c with
             sets := c.sets ++
               List.replicate extra { (knot_changeset_t.zeroed : knot_changeset_t α) with
                                      flags := c.flags }
             allocated := c.allocated + extra }) := by
  have hnot : ¬ c.count < c.allocated := by omega
  have hmod : (c.count - c.allocated) % 5 = c.count - c.allocated := Nat.mod_eq_of_lt (by omega)
  refine ⟨(c.count - c.allocated + 1) * 5, by omega, rfl, ?_⟩
  unfold knot_changesets_check_size
  simp only [hnot, if_false, KNOT_CHANGESET_STEP, hmod]
  have h1 : ((c.count - c.allocated + 1) * 5) % 2 ^ 64 = (c.count - c.allocated + 1) * 5 :=
    Nat.mod_eq_of_lt (by omega)
  have h2 : (c.allocated + (c.count - c.allocated + 1) * 5) % 2 ^ 64
      = c.allocated + (c.count - c.allocated + 1) * 5 := Nat.mod_eq_of_lt (by omega)
  rw [h1, h2]
  have htake : List.take c.allocated c.sets = c.sets := by
    rw [← hlen]; exact List.take_length _
  have hdrop : List.drop c.allocated
      (List.replicate (c.allocated + (c.count - c.allocated + 1) * 5)
        (knot_changeset_t.zeroed : knot_changeset_t α))
      = List.replicate ((c.count - c.allocated + 1) * 5) knot_changeset_t.zeroed := by
    rw [List.drop_replicate]
    congr 1
    omega
  rw [htake, hdrop]
  have htake2 : List.take c.allocated
      (c.sets ++ List.replicate ((c.count - c.allocated + 1) * 5)
        (knot_changeset_t.zeroed : knot_changeset_t α)) = c.sets := by
    rw [List.take_append_of_le_length (by omega), htake]
  have hdrop2 : List.drop c.allocated
      (c.sets ++ List.replicate ((c.count - c.allocated + 1) * 5)
        (knot_changeset_t.zeroed : knot_changeset_t α))
      = List.replicate ((c.count - c.allocated + 1) * 5) knot_changeset_t.zeroed := by
    rw [← hlen, List.drop_left]
  rw [htake2, hdrop2, List.map_replicate]

/-- C28: for every batch with `count ≤ allocated` (the array holding
`allocated` cells, fewer than `2 ^ 64 - 5`), `knot_changesets_check_size`
returns ok with room for one more changeset (`count < allocated`), `count`
unchanged, the previously allocated cells unchanged, and every newly
allocated cell carrying the batch's flags; the batch is left untouched
exactly when `count < allocated` already held. `knot_changeset_allocate`
yields a batch with `count = 0` and 5 allocated cells. -/
theorem knot_changesets_check_size_room {α : Type} (c : knot_changesets_t α)
    (hle : c.count ≤ c.allocated) (hlen : c.sets.length = c.allocated)
    (hmax : c.allocated + 5 < 2 ^ 64) :
    (knot_changesets_check_size c).1 = Code.KNOT_EOK ∧
    (knot_changesets_check_size c).2.count < (knot_changesets_check_size c).2.allocated ∧
    (knot_changesets_check_size c).2.count = c.count ∧
    (knot_changesets_check_size c).2.flags = c.flags ∧
    (knot_changesets_check_size c).2.sets.take c.allocated = c.sets ∧
    (knot_changesets_check_size c).2.sets.length = (knot_changesets_check_size c).2.allocated ∧
    (∀ cell ∈ (knot_changesets_check_size c).2.sets.drop c.allocated, cell.flags = c.flags) ∧
    ((knot_changesets_check_size c).2 = c ↔ c.count < c.allocated) ∧
    (∀ flags : Nat, ∃ b : knot_changesets_t α,
      knot_changeset_allocate flags = (Code.KNOT_EOK, some b) ∧
      b.count = 0 ∧ b.allocated = 5 ∧ b.sets.length = 5 ∧ b.flags = flags ∧
      ∀ cell ∈ b.sets, cell.flags = flags) := by
  have halloc : ∀ flags : Nat, ∃ b : knot_changesets_t α,
      knot_changeset_allocate flags = (Code.KNOT_EOK, some b) ∧
      b.count = 0 ∧ b.allocated = 5 ∧ b.sets.length = 5 ∧ b.flags = flags ∧
      ∀ cell ∈ b.sets, cell.flags = flags := by
    intro flags
    refine ⟨{ sets := List.replicate 5 { (knot_changeset_t.zeroed : knot_changeset_t α) with
                                          flags := flags },
              count := 0, allocated := 5, flags := flags }, rfl, rfl, rfl, rfl, rfl, ?_⟩
    intro cell hcell
    rw [List.eq_of_mem_replicate hcell]
  by_cases hlt : c.count < c.allocated
  · have hc : knot_changesets_check_size c = (Code.KNOT_EOK, c) := by
      unfold knot_changesets_check_size
      simp only [hlt, if_true]
    rw [hc]
    refine ⟨rfl, hlt, rfl, rfl, ?_, hlen, ?_, ?_, halloc⟩
    · rw [← hlen]; exact List.take_length _
    · intro cell hcell
      rw [← hlen, List.drop_length] at hcell
      simp at hcell
    · simp [hlt]
  · have heq : c.count = c.allocated := by omega
    obtain ⟨extra, h1, h2, h3⟩ := check_size_grow c (by omega) (by omega) hlen
      (by rw [heq]; simpa using hmax)
    rw [h3]
    have hex : extra = 5 := by rw [h2, heq]; simp
    subst hex
    refine ⟨rfl, by simp only; omega, rfl, rfl, ?_, ?_, ?_, ?_, halloc⟩
    · simp only
      rw [List.take_append_of_le_length (by omega), ← hlen]
      exact List.take_length _
    · simp only [List.length_append, List.length_replicate, hlen]
    · intro cell hcell
      simp only at hcell
      rw [← hlen, List.drop_left] at hcell
      rw [List.eq_of_mem_replicate hcell]
    · constructor
      · intro hc
        have := congrArg knot_changesets_t.allocated hc
        simp only at this
        omega
      · intro hc
        exact absurd hc hlt

/-- Witness of C28: the zero-filled batch, `count = allocated = 0`, flags 1. -/
theorem knot_changesets_check_size_room_witness :
    (knot_changesets_check_size
      ({ sets := [], count := 0, allocated := 0, flags := 1 } : knot_changesets_t toy_rrset)).2.count
      < (knot_changesets_check_size
      ({ sets := [], count := 0, allocated := 0, flags := 1 } : knot_changesets_t toy_rrset)).2.allocated :=
  (knot_changesets_check_size_room
    ({ sets := [], count := 0, allocated := 0, flags := 1 } : knot_changesets_t toy_rrset)
    (by decide) rfl (by decide)).2.1

/-! ## RR-set arrays: removing and adding -/

theorem remove_rr_shift_append {α : Type} (post : List (Option α)) :
    ∀ (mid pre : List (Option α)) (x : Option α),
      remove_rr_shift (pre ++ x :: mid ++ post) pre.length mid.length
        = pre ++ mid ++ (x :: mid).getLast (List.cons_ne_nil _ _) :: post := by
  intro mid
  induction mid with
  | nil =>
    intro pre x
    simp [remove_rr_shift]
  | cons y mid ih =>
    intro pre x
    simp only [List.length_cons, remove_rr_shift]
    have hget : (pre ++ x :: y :: mid ++ post).getD (pre.length + 1) none = y := by
      rw [List.getD_eq_getElem?_getD]
      have : pre ++ x :: y :: mid ++ post = (pre ++ [x]) ++ (y :: (mid ++ post)) := by simp
      rw [this, List.getElem?_append_right (by simp)]
      simp
    have hset : (pre ++ x :: y :: mid ++ post).set pre.length y
        = (pre ++ [y]) ++ y :: mid ++ post := by
      have : pre ++ x :: y :: mid ++ post = pre ++ (x :: (y :: mid ++ post)) := by simp
      rw [this, List.set_append_right _ _ (Nat.le_refl _)]
      simp
    rw [hget, hset]
    have hl : pre.length + 1 = (pre ++ [y]).length := by simp
    rw [hl, ih (pre ++ [y]) y]
    simp

theorem remove_rr_split {α : Type} (l : List (Option α)) (count p : Nat)
    (hp : p < count) (hc : count ≤ l.length) :
    l = l.take p ++ l.getD p none :: ((l.drop (p + 1)).take (count - 1 - p)) ++ l.drop count := by
  have h1 : l = l.take p ++ l.drop p := (List.take_append_drop p l).symm
  have h2 : l.drop p = l.getD p none :: l.drop (p + 1) := by
    rw [List.getD_eq_getElem?_getD, List.getElem?_eq_getElem (by omega)]
    simp
  have h3 : l.drop (p + 1)
      = (l.drop (p + 1)).take (count - 1 - p) ++ (l.drop (p + 1)).drop (count - 1 - p) :=
    (List.take_append_drop _ _).symm
  have h4 : (l.drop (p + 1)).drop (count - 1 - p) = l.drop count := by
    rw [List.drop_drop]
    congr 1
    omega
  rw [h4] at h3
  calc l = l.take p ++ l.drop p := h1
    _ = l.take p ++ (l.getD p none :: l.drop (p + 1)) := by rw [h2]
    _ = l.take p ++ (l.getD p none ::
          ((l.drop (p + 1)).take (count - 1 - p) ++ l.drop count)) := by rw [← h3]
    _ = _ := by simp

theorem remove_rr_parts {α : Type} (pre mid post : List (Option α)) (x : Option α) :
    (remove_rr_shift (pre ++ x :: mid ++ post) pre.length mid.length).set
        (pre.length + mid.length) none
      = pre ++ mid ++ none :: post ∧
    ((pre ++ x :: mid ++ post).take (pre.length + mid.length + 1)).eraseIdx pre.length
      = pre ++ mid ∧
    (pre ++ x :: mid ++ post).drop (pre.length + mid.length + 1) = post := by
  refine ⟨?_, ?_, ?_⟩
  · rw [remove_rr_shift_append]
    have hl : pre.length + mid.length = (pre ++ mid).length := by simp
    rw [hl, List.set_append_right _ _ (Nat.le_refl _)]
    simp
  · have h : pre ++ x :: mid ++ post = (pre ++ x :: mid) ++ post := by simp
    have hl : pre.length + mid.length + 1 = (pre ++ x :: mid).length := by simp; omega
    rw [h, hl, List.take_left, List.eraseIdx_append_of_length_le (Nat.le_refl _)]
    simp
  · have h : pre ++ x :: mid ++ post = (pre ++ x :: mid) ++ post := by simp
    have hl : pre.length + mid.length + 1 = (pre ++ x :: mid).length := by simp; omega
    rw [h, hl, List.drop_left]

/-- C29: for every array of RR-set cells with `count` cells in use
(`count ≤ 2 ^ 31`) and every `int` position `pos`: when `0 ≤ pos < count`,
`knot_changeset_remove_rr` returns the cell at `pos` and leaves the first
`count` cells equal to the original ones with that one cell removed, in their
order, followed by a `NULL` cell in the vacated last place, the cells beyond
untouched and the count one less; otherwise (`pos ≥ count`, `pos` negative or
the array empty) it returns `NULL` and leaves array and count as they were. -/
theorem knot_changeset_remove_rr_spec {α : Type} (rrsets : List (Option α)) (count : Nat)
    (pos : Int) (hc : count ≤ rrsets.length) (hmax : count ≤ 2 ^ 31)
    (hpos : -2 ^ 31 ≤ pos ∧ pos < 2 ^ 31) :
    (0 ≤ pos ∧ pos < count →
      knot_changeset_remove_rr rrsets count pos
        = (rrsets.getD pos.toNat none,
           (rrsets.take count).eraseIdx pos.toNat ++ none :: rrsets.drop count,
           count - 1)) ∧
    (¬ (0 ≤ pos ∧ pos < count) →
      knot_changeset_remove_rr rrsets count pos = (none, rrsets, count)) := by
  constructor
  · rintro ⟨h0, hlt⟩
    obtain ⟨p, rfl⟩ := Int.eq_ofNat_of_zero_le h0
    have hp : p < count := by exact_mod_cast hlt
    have hmod : (((p : Int) % (2 ^ 64 : Int)).toNat) = p := by
      have : (p : Int) % (2 ^ 64 : Int) = p := Int.emod_eq_of_lt (by omega) (by omega)
      rw [this]; rfl
    unfold knot_changeset_remove_rr
    have hcond : ¬ ((((p : Int) % (2 ^ 64 : Int)).toNat) ≥ count ∨ count = 0) := by
      rw [hmod]; omega
    simp only [hcond, if_false, Int.toNat_ofNat]
    have hsplit := remove_rr_split rrsets count p hp hc
    obtain ⟨e1, e2, e3⟩ := remove_rr_parts (rrsets.take p)
      ((rrsets.drop (p + 1)).take (count - 1 - p)) (rrsets.drop count) (rrsets.getD p none)
    have hl1 : (rrsets.take p).length = p := by rw [List.length_take]; omega
    have hl2 : ((rrsets.drop (p + 1)).take (count - 1 - p)).length = count - 1 - p := by
      rw [List.length_take, List.length_drop]; omega
    rw [← hsplit, hl1, hl2] at e1 e2
    have hidx : p + (count - 1 - p) = count - 1 := by omega
    have hidx2 : p + (count - 1 - p) + 1 = count := by omega
    rw [hidx] at e1
    rw [hidx2] at e2
    rw [e1, e2]
  · intro hneg
    unfold knot_changeset_remove_rr
    have hcond : ((pos % (2 ^ 64 : Int)).toNat) ≥ count ∨ count = 0 := by
      by_cases h0 : 0 ≤ pos
      · have hge : (count : Int) ≤ pos := by
          by_contra hc1
          exact hneg ⟨h0, by omega⟩
        have : pos % (2 ^ 64 : Int) = pos := Int.emod_eq_of_lt h0 (by omega)
        rw [this]
        left
        omega
      · have hm : pos % (2 ^ 64 : Int) = pos + 2 ^ 64 := by
          rw [← Int.add_emod_self]
          exact Int.emod_eq_of_lt (by omega) (by omega)
        rw [hm]
        left
        omega
    simp only [hcond, if_true]

/-- Witness of C29: removing position 1 of the three RR-sets 10, 11, 12 kept
in an array of four cells. -/
theorem knot_changeset_remove_rr_spec_witness :
    knot_changeset_remove_rr [some 10, some 11, some 12, none] 3 1
      = ((([some 10, some 11, some 12, none] : List (Option Nat)).getD (1 : Int).toNat none),
         (([some 10, some 11, some 12, none] : List (Option Nat)).take 3).eraseIdx
             (1 : Int).toNat
           ++ none :: ([some 10, some 11, some 12, none] : List (Option Nat)).drop 3,
         3 - 1) :=
  (knot_changeset_remove_rr_spec [some 10, some 11, some 12, none] 3 1 (by decide)
    (by decide) (by decide)).1 (by decide)

theorem add_rrset_capacity {α : Type} (rrsets : List α) (allocated : Nat) (rr : α)
    (hcap : rrsets.length ≤ allocated) :
    ∃ allocated1, knot_changeset_add_rrset rrsets allocated rr
        = (Code.KNOT_EOK, rrsets ++ [rr], allocated1) ∧
      (rrsets ++ [rr]).length ≤ allocated1 := by
  unfold knot_changeset_add_rrset
  refine ⟨_, rfl, ?_⟩
  unfold knot_changeset_check_count KNOT_CHANGESET_RRSET_STEP
  simp only [List.length_append, List.length_singleton]
  split_ifs with h
  · exact h
  · have : rrsets.length + 1 - allocated = 1 := by omega
    rw [this]
    omega

/-- C30: for every RR-set array within its capacity and every RR,
`knot_changeset_add_rr` looks only at the last RR-set. When the array ends in
an RR-set that matches the RR (equal headers and, for RRSIGs, equal covered
type), the RR is merged into that last RR-set: the array keeps its length and
all other elements (when the merge fails the call returns `KNOT_ERROR` and
the array is as before). Otherwise, whatever the earlier RR-sets are, the RR
is appended as the new last element, the count grows by one, the earlier
elements keep their order and the count stays within the capacity. -/
theorem knot_changeset_add_rr_last {α : Type} (ops : rrset_merge_ops α) (rrsets : List α)
    (allocated : Nat) (rr : α) (hcap : rrsets.length ≤ allocated) :
    (∀ init last, rrsets = init ++ [last] →
      knot_changeset_rrsets_match ops last rr = true →
      (∀ merged, ops.knot_rrset_merge last rr = some merged →
        knot_changeset_add_rr ops rrsets allocated rr
          = (Code.KNOT_EOK, init ++ [merged], allocated)) ∧
      (ops.knot_rrset_merge last rr = none →
        knot_changeset_add_rr ops rrsets allocated rr
          = (Code.KNOT_ERROR, rrsets, allocated))) ∧
    ((rrsets = [] ∨ ∃ init last, rrsets = init ++ [last] ∧
        knot_changeset_rrsets_match ops last rr = false) →
      ∃ allocated1, knot_changeset_add_rr ops rrsets allocated rr
          = (Code.KNOT_EOK, rrsets ++ [rr], allocated1) ∧
        (rrsets ++ [rr]).length = rrsets.length + 1 ∧
        (rrsets ++ [rr]).length ≤ allocated1) := by
  constructor
  · intro init last hr hm
    subst hr
    unfold knot_changeset_add_rr
    simp only [List.getLast?_concat, hm, if_true, List.dropLast_concat]
    constructor
    · intro merged hmerge
      simp only [hmerge]
    · intro hmerge
      simp only [hmerge]
  · intro h
    obtain ⟨allocated1, h1, h2⟩ := add_rrset_capacity rrsets allocated rr hcap
    refine ⟨allocated1, ?_, by simp, h2⟩
    unfold knot_changeset_add_rr
    rcases h with h | ⟨init, last, hr, hm⟩
    · subst h
      exact h1
    · subst hr
      simp only [List.getLast?_concat, hm, Bool.false_eq_true, if_false]
      exact h1

/-- Witness of C30: with the example accessors, the array [(1, 10), (2, 20)]
within capacity 5 receives the record (1, 30), which matches the first
RR-set but not the last: it is appended. -/
theorem knot_changeset_add_rr_last_witness :
    ∃ allocated1, knot_changeset_add_rr toy_merge_ops ([(1, 10), (2, 20)] : List toy_rrset) 5
          (1, 30)
        = (Code.KNOT_EOK, [(1, 10), (2, 20)] ++ [(1, 30)], allocated1) ∧
      (([(1, 10), (2, 20)] : List toy_rrset) ++ [(1, 30)]).length
        = ([(1, 10), (2, 20)] : List toy_rrset).length + 1 ∧
      (([(1, 10), (2, 20)] : List toy_rrset) ++ [(1, 30)]).length ≤ allocated1 :=
  (knot_changeset_add_rr_last toy_merge_ops ([(1, 10), (2, 20)] : List toy_rrset) 5 (1, 30)
    (by decide)).2 (Or.inr ⟨[(1, 10)], (2, 20), rfl, by decide⟩)

/-! ## Lemmas: loading changesets from the journal -/

theorem key_from_cmp_zero (k s : Nat) (hs : s < 2 ^ 32) :
    ixfrdb_key_from_cmp k s = 0 ↔ ixfrdb_key_from k = s := by
  unfold ixfrdb_key_from_cmp uint64_to_int
  rw [ixfrdb_key_from_eq_mod]
  simp only
  split_ifs <;> omega

theorem check_size_reserve {α : Type} (used : List (knot_changeset_t α)) (allocated fl : Nat)
    (hle : used.length ≤ allocated) (hmax : allocated + 10 < 2 ^ 64) :
    ∃ e, e ≤ 10 ∧ used.length + 1 < allocated + e ∧
      knot_changesets_check_size { batch_of used allocated fl with count := used.length + 1 }
        = (Code.KNOT_EOK,
           { batch_of used (allocated + e) fl with count := used.length + 1 }) := by
  by_cases hlt : used.length + 1 < allocated
  · refine ⟨0, by omega, by omega, ?_⟩
    unfold knot_changesets_check_size
    simp only [batch_of, hlt, if_true, Nat.add_zero]
  · obtain ⟨extra, h1, h2, h3⟩ := check_size_grow
      ({ batch_of used allocated fl with count := used.length + 1 } : knot_changesets_t α)
      (by simp only [batch_of]; omega) (by simp only [batch_of]; omega)
      (by simp only [batch_of, List.length_append, List.length_replicate]; omega)
      (by simp only [batch_of]; omega)
    simp only [batch_of] at h1 h2
    refine ⟨extra, by omega, by omega, ?_⟩
    rw [h3]
    have hrep : List.replicate (allocated - used.length)
          { (knot_changeset_t.zeroed : knot_changeset_t α) with flags := fl }
        ++ List.replicate extra { (knot_changeset_t.zeroed : knot_changeset_t α) with flags := fl }
        = List.replicate (allocated + extra - used.length)
          { (knot_changeset_t.zeroed : knot_changeset_t α) with flags := fl } := by
      rw [List.append_replicate_replicate]
      congr 1
      omega
    simp only [batch_of, List.append_assoc, hrep]

theorem last_serial_to_cons (found_to : Nat) (n : journal_node_t) (l : List journal_node_t) :
    last_serial_to found_to (n :: l) = last_serial_to (ixfrdb_key_to n.id) l := by
  unfold last_serial_to
  rw [List.getLast?_cons]
  cases l.getLast? <;> rfl

theorem batch_of_set {α : Type} (used : List (knot_changeset_t α)) (allocated fl : Nat)
    (chs : knot_changeset_t α) (h : used.length + 1 ≤ allocated) :
    (batch_of used allocated fl).sets.set used.length chs
      = (batch_of (used ++ [chs]) allocated fl).sets ∧
    (batch_of used allocated fl).sets.getD used.length knot_changeset_t.zeroed
      = { (knot_changeset_t.zeroed : knot_changeset_t α) with flags := fl } := by
  obtain ⟨k, hk⟩ : ∃ k, allocated - used.length = k + 1 := ⟨allocated - used.length - 1, by omega⟩
  have hk2 : allocated - (used.length + 1) = k := by omega
  constructor
  · simp only [batch_of, hk, List.replicate_succ, List.length_append, List.length_singleton, hk2]
    rw [List.set_append_right _ _ (Nat.le_refl _)]
    simp
  · simp only [batch_of, hk, List.replicate_succ]
    rw [List.getD_eq_getElem?_getD, List.getElem?_append_right (Nat.le_refl _)]
    simp

theorem load_changesets_loop_step {α : Type} (journal_read : Nat → Option (List Nat))
    (sto fl : Nat) (n : journal_node_t) (rest : List journal_node_t) (found_to : Nat)
    (used : List (knot_changeset_t α)) (allocated a1 : Nat) (data : List Nat)
    (hend : ¬ sto = found_to) (hdata : journal_read n.id = some data)
    (hroom : used.length + 1 ≤ a1)
    (hchk : knot_changesets_check_size
        { batch_of used allocated fl with count := used.length + 1 }
      = (Code.KNOT_EOK, { batch_of used a1 fl with count := used.length + 1 })) :
    load_changesets_loop journal_read sto (n :: rest) found_to (batch_of used allocated fl)
      = load_changesets_loop journal_read sto rest (ixfrdb_key_to n.id)
          (batch_of (used ++ [loaded_changeset fl journal_read n]) a1 fl) := by
  obtain ⟨s1, s2⟩ := batch_of_set used a1 fl (loaded_changeset fl journal_read n) hroom
  have hc : knot_changesets_check_size
      { batch_of used allocated fl with count := (batch_of used allocated fl).count + 1 }
      = (Code.KNOT_EOK, { batch_of used a1 fl with count := used.length + 1 }) := hchk
  rw [load_changesets_loop]
  simp only [hend, if_false, hc, hdata, ne_eq, not_true_eq_false]
  congr 1
  simp only [show (batch_of used allocated fl).count = used.length from rfl, s2]
  simp only [loaded_changeset, hdata] at s1 ⊢
  rw [knot_changesets_t.mk.injEq]
  refine ⟨?_, ?_, rfl, rfl⟩
  · rw [← s1]
  · simp [batch_of]

theorem load_changesets_loop_spec {α : Type} (journal_read : Nat → Option (List Nat))
    (sto fl : Nat) :
    ∀ (nodes : List journal_node_t) (found_to : Nat) (used : List (knot_changeset_t α))
      (allocated : Nat),
      used.length ≤ allocated → allocated + 10 * (nodes.length + 1) < 2 ^ 64 →
      (∀ n ∈ entries_read sto nodes found_to, (journal_read n.id).isSome = true) →
      ∃ allocated1,
        (used ++ (entries_read sto nodes found_to).map
          (loaded_changeset fl journal_read)).length ≤ allocated1 ∧
        load_changesets_loop journal_read sto nodes found_to (batch_of used allocated fl)
          = (Code.KNOT_EOK, last_serial_to found_to (entries_read sto nodes found_to),
             batch_of (used ++ (entries_read sto nodes found_to).map
               (loaded_changeset fl journal_read)) allocated1 fl) := by
  intro nodes
  induction nodes with
  | nil =>
    intro found_to used allocated hle _ _
    exact ⟨allocated, by simpa [entries_read] using hle,
      by simp [load_changesets_loop, entries_read, last_serial_to]⟩
  | cons n rest ih =>
    intro found_to used allocated hle hmax hread
    by_cases hend : sto = found_to
    · refine ⟨allocated, by simpa [entries_read, hend] using hle, ?_⟩
      simp [load_changesets_loop, entries_read, hend, last_serial_to]
    · simp only [entries_read, hend, if_false] at hread ⊢
      obtain ⟨e, he1, he2, he3⟩ := check_size_reserve used allocated fl hle
        (by simp only [List.length_cons] at hmax; omega)
      obtain ⟨data, hdata⟩ := Option.isSome_iff_exists.mp (hread n (List.mem_cons_self _ _))
      obtain ⟨a1, ha1, ha2⟩ := ih (ixfrdb_key_to n.id)
        (used ++ [loaded_changeset fl journal_read n]) (allocated + e)
        (by simp only [List.length_append, List.length_singleton]; omega)
        (by simp only [List.length_cons] at hmax; omega)
        (fun m hm => hread m (List.mem_cons_of_mem _ hm))
      refine ⟨a1, by simpa using ha1, ?_⟩
      rw [load_changesets_loop_step journal_read sto fl n rest found_to used allocated
        (allocated + e) data hend hdata (by omega) he3, ha2, last_serial_to_cons]
      simp

theorem journal_fetch_cursor (j : journal_t) (id : Nat) (cmp : Nat → Nat → Int) :
    (journal_fetch j id cmp).2.getD [] = j.nodes.dropWhile (fun n => decide (cmp n.id id ≠ 0)) := by
  unfold journal_fetch
  cases h : j.nodes.dropWhile (fun n => decide (cmp n.id id ≠ 0)) <;> rfl

theorem dropWhile_length_le {β : Type} (p : β → Bool) (l : List β) :
    (l.dropWhile p).length ≤ l.length := by
  induction l with
  | nil => simp
  | cons a l ih =>
    rw [List.dropWhile_cons]
    split_ifs
    · simp only [List.length_cons]; omega
    · exact Nat.le_refl _

theorem dropWhile_head_not {β : Type} (p : β → Bool) (l : List β) (a : β) (rest : List β)
    (h : l.dropWhile p = a :: rest) : p a = false := by
  induction l with
  | nil => simp at h
  | cons b l ih =>
    rw [List.dropWhile_cons] at h
    split_ifs at h with hb
    · exact ih h
    · simp only [List.cons.injEq] at h
      rw [← h.1]
      simpa using hb

theorem batch_of_take_drop {α : Type} (used : List (knot_changeset_t α)) (allocated fl : Nat) :
    (batch_of used allocated fl).sets.take (batch_of used allocated fl).count = used ∧
    (batch_of used allocated fl).sets.drop (batch_of used allocated fl).count
      = List.replicate (allocated - used.length)
          { (knot_changeset_t.zeroed : knot_changeset_t α) with flags := fl } := by
  simp [batch_of]

theorem zones_load_changesets_spec {α : Type} (ops : rrset_ops α) (fuel : Nat)
    (journal_read : Nat → Option (List Nat)) (zone : knot_zone_t) (j : journal_t)
    (sfrom sto : Nat) (hz : zone.data.isSome = true)
    (hbound : 10 * (j.nodes.length + 1) < 2 ^ 64)
    (hread : ∀ n ∈ chain_entries j sfrom sto, (journal_read n.id).isSome = true) :
    ∃ a1, (chain_entries j sfrom sto).length ≤ a1 ∧
      zones_load_changesets ops fuel journal_read (some zone) (some j)
          (some knot_changesets_t.zeroed) sfrom sto
        = (zones_changesets_from_binary ops fuel
            ((chain_entries j sfrom sto).map (loaded_changeset 0 journal_read))).map fun u =>
            (if u.1 ≠ Code.KNOT_EOK then u.1
             else if sto ≠ last_serial_to sfrom (chain_entries j sfrom sto) then Code.KNOT_ERANGE
             else Code.KNOT_EOK,
             some { sets := u.2 ++ List.replicate (a1 - (chain_entries j sfrom sto).length)
                      { (knot_changeset_t.zeroed : knot_changeset_t α) with flags := 0 },
                    count := (chain_entries j sfrom sto).length, allocated := a1,
                    flags := 0 }) := by
  have hzero : (knot_changesets_t.zeroed : knot_changesets_t α) = batch_of [] 0 0 := rfl
  have hlen : ((journal_fetch j sfrom ixfrdb_key_from_cmp).2.getD []).length ≤ j.nodes.length := by
    rw [journal_fetch_cursor]
    exact dropWhile_length_le _ _
  obtain ⟨a1, ha1, ha2⟩ := load_changesets_loop_spec (α := α) journal_read sto 0
    ((journal_fetch j sfrom ixfrdb_key_from_cmp).2.getD []) sfrom [] 0 (by simp)
    (by omega) hread
  simp only [List.nil_append, List.length_map] at ha1 ha2
  refine ⟨a1, ha1, ?_⟩
  have hz1 : zone.data.isNone = false := by
    cases hd : zone.data with
    | none => rw [hd] at hz; simp at hz
    | some d => rfl
  obtain ⟨t1, t2⟩ := batch_of_take_drop
    ((chain_entries j sfrom sto).map (loaded_changeset (α := α) 0 journal_read)) a1 0
  unfold zones_load_changesets
  simp only [hz1, Bool.false_eq_true, if_false, hzero]
  unfold chain_entries at t1 t2 ⊢
  rw [ha2]
  simp only [ne_eq, not_true_eq_false, if_false, t1, t2, List.length_map]
  simp [batch_of]

theorem from_binary_length {α : Type} (ops : rrset_ops α) (fuel : Nat) :
    ∀ (l : List (knot_changeset_t α)) (r : Code × List (knot_changeset_t α)),
      zones_changesets_from_binary ops fuel l = some r → r.2.length = l.length := by
  intro l
  induction l with
  | nil =>
    intro r h
    simp only [zones_changesets_from_binary, Option.some.injEq] at h
    rw [← h]
  | cons chs rest ih =>
    intro r h
    unfold zones_changesets_from_binary at h
    cases h1 : changeset_from_binary ops fuel chs with
    | none => simp [h1] at h
    | some x =>
      cases x with
      | error ret =>
        simp only [h1, Option.some.injEq] at h
        rw [← h]
        simp
      | ok chs1 =>
        simp only [h1] at h
        cases h2 : zones_changesets_from_binary ops fuel rest with
        | none => simp [h2] at h
        | some u =>
          simp only [h2, Option.some.injEq] at h
          rw [← h]
          simp only [List.length_cons]
          rw [ih u h2]

theorem chain_entries_self (j : journal_t) (s : Nat) : chain_entries j s s = [] := by
  unfold chain_entries
  cases (journal_fetch j s ixfrdb_key_from_cmp).2.getD [] with
  | nil => rfl
  | cons n rest => simp [entries_read]

theorem chain_entries_head (j : journal_t) (sfrom sto : Nat) (hs : sfrom < 2 ^ 32)
    (n : journal_node_t) (rest : List journal_node_t)
    (h : chain_entries j sfrom sto = n :: rest) : ixfrdb_key_from n.id = sfrom := by
  unfold chain_entries at h
  rw [journal_fetch_cursor] at h
  cases hc : j.nodes.dropWhile (fun n => decide (ixfrdb_key_from_cmp n.id sfrom ≠ 0)) with
  | nil => rw [hc] at h; simp [entries_read] at h
  | cons m ms =>
    rw [hc] at h
    have hm := dropWhile_head_not _ _ _ _ hc
    simp only [entries_read] at h
    split_ifs at h
    simp only [List.cons.injEq] at h
    rw [← h.1]
    exact (key_from_cmp_zero m.id sfrom hs).mp (by simpa using hm)

theorem entries_read_stops (sto : Nat) :
    ∀ (nodes : List journal_node_t) (found_to : Nat),
      ∃ rest, nodes = entries_read sto nodes found_to ++ rest ∧
        (∀ n ∈ (entries_read sto nodes found_to).dropLast, ixfrdb_key_to n.id ≠ sto) ∧
        (entries_read sto nodes found_to ≠ [] → found_to ≠ sto) ∧
        (rest ≠ [] → last_serial_to found_to (entries_read sto nodes found_to) = sto) := by
  intro nodes
  induction nodes with
  | nil => intro found_to; exact ⟨[], by simp [entries_read]⟩
  | cons n ns ih =>
    intro found_to
    by_cases hend : sto = found_to
    · refine ⟨n :: ns, by simp [entries_read, hend], by simp [entries_read, hend],
        by simp [entries_read, hend], ?_⟩
      intro _
      simp [entries_read, hend, last_serial_to]
    · obtain ⟨rest, h1, h2, h3, h4⟩ := ih (ixfrdb_key_to n.id)
      simp only [entries_read, hend, if_false]
      refine ⟨rest, ?_, ?_, ?_, ?_⟩
      · rw [List.cons_append, ← h1]
      · intro m hm
        cases hr : entries_read sto ns (ixfrdb_key_to n.id) with
        | nil => rw [hr] at hm; simp at hm
        | cons x xs =>
          rw [hr, List.dropLast_cons₂] at hm
          rcases List.mem_cons.mp hm with rfl | hm1
          · exact h3 (by rw [hr]; simp)
          · apply h2
            rw [hr]
            exact hm1
      · intro _ hc
        exact hend hc.symm
      · intro hrest
        rw [last_serial_to_cons]
        exact h4 hrest

/-! ## Loading changesets: return code, chain and replay -/

/-- C22: for every journal (fewer than `2 ^ 60` entries) and serials `sfrom`,
`sto`, a zone with zone data and a zero-filled batch: when the reads of the
entries on the way succeed and their records parse, `zones_load_changesets`
returns `KNOT_EOK` exactly when the target serial of the last entry it loaded
(`sfrom` itself when it loaded none) equals `sto`, and `KNOT_ERANGE`
otherwise; the batch holds the parsed changesets of the entries read. With
`sfrom = sto` nothing is read: it returns `KNOT_EOK` with an empty batch. -/
theorem zones_load_changesets_range {α : Type} (ops : rrset_ops α) (fuel : Nat)
    (journal_read : Nat → Option (List Nat)) (zone : knot_zone_t) (j : journal_t)
    (sfrom sto : Nat) (parsed : List (knot_changeset_t α))
    (hz : zone.data.isSome = true) (hbound : 10 * (j.nodes.length + 1) < 2 ^ 64)
    (hread : ∀ n ∈ chain_entries j sfrom sto, (journal_read n.id).isSome = true)
    (hparse : zones_changesets_from_binary ops fuel
        ((chain_entries j sfrom sto).map (loaded_changeset 0 journal_read))
      = some (Code.KNOT_EOK, parsed)) :
    ∃ b, zones_load_changesets ops fuel journal_read (some zone) (some j)
          (some knot_changesets_t.zeroed) sfrom sto
        = some (if last_serial_to sfrom (chain_entries j sfrom sto) = sto then Code.KNOT_EOK
                else Code.KNOT_ERANGE, some b) ∧
      b.count = (chain_entries j sfrom sto).length ∧
      b.sets.take b.count = parsed ∧
      (sfrom = sto → b.count = 0 ∧
        last_serial_to sfrom (chain_entries j sfrom sto) = sto) := by
  obtain ⟨a1, ha1, hres⟩ := zones_load_changesets_spec ops fuel journal_read zone j sfrom sto
    hz hbound hread
  have hlen := from_binary_length ops fuel _ _ hparse
  simp only [List.length_map] at hlen
  rw [hres, hparse]
  simp only [Option.map_some', ne_eq, not_true_eq_false, if_false]
  refine ⟨{ sets := parsed ++ List.replicate (a1 - (chain_entries j sfrom sto).length)
              { (knot_changeset_t.zeroed : knot_changeset_t α) with flags := 0 },
            count := (chain_entries j sfrom sto).length, allocated := a1, flags := 0 },
    ?_, rfl, ?_, ?_⟩
  · by_cases hl : last_serial_to sfrom (chain_entries j sfrom sto) = sto
    · have : ¬ ¬ sto = last_serial_to sfrom (chain_entries j sfrom sto) := by
        rw [hl]; simp
      simp only [hl, if_true, if_false]
      simp
    · have : ¬ sto = last_serial_to sfrom (chain_entries j sfrom sto) := fun hc => hl hc.symm
      simp only [this, hl, not_false_eq_true, if_true, if_false]
  · simp only
    rw [← hlen, List.take_left]
  · intro heq
    subst heq
    rw [chain_entries_self]
    exact ⟨rfl, rfl⟩

/-- Witness of C22: the journal 10 → 11, 11 → 10, 10 → 12 read from serial 10
to serial 12. -/
theorem zones_load_changesets_range_witness :
    ∃ b, zones_load_changesets toy_ops 8 (journal_read example_journal_cycle)
          (some (example_zone (example_soa 3600 600 86400) (-1))) (some example_journal_cycle)
          (some knot_changesets_t.zeroed) 10 12
        = some (if last_serial_to 10 (chain_entries example_journal_cycle 10 12) = 12
                then Code.KNOT_EOK else Code.KNOT_ERANGE, some b) ∧
      b.count = (chain_entries example_journal_cycle 10 12).length ∧
      b.sets.take b.count
        = [{ (knot_changeset_t.of_binary [6, 10, 6, 11] 10 11 : knot_changeset_t toy_rrset) with
             soa_from := some (6, 10), soa_to := some (6, 11) },
           { (knot_changeset_t.of_binary [6, 11, 6, 10] 11 10 : knot_changeset_t toy_rrset) with
             soa_from := some (6, 11), soa_to := some (6, 10) },
           { (knot_changeset_t.of_binary [6, 10, 6, 12] 10 12 : knot_changeset_t toy_rrset) with
             soa_from := some (6, 10), soa_to := some (6, 12) }] ∧
      ((10 : Nat) = 12 → b.count = 0 ∧
        last_serial_to 10 (chain_entries example_journal_cycle 10 12) = 12) :=
  zones_load_changesets_range toy_ops 8 (journal_read example_journal_cycle)
    (example_zone (example_soa 3600 600 86400) (-1)) example_journal_cycle 10 12 _
    rfl (by decide) (by decide) (by decide)

/-- C23, counterexample: the journal holds the changesets 1 → 2 and 7 → 8, in
that order. `zones_load_changesets` from 1 to 8 returns `KNOT_EOK` with the
batch [1 → 2, 7 → 8], which is not a chain: 2 is not 7. -/
theorem zones_load_changesets_gap :
    (zones_load_changesets toy_ops 8 (journal_read example_journal_gap)
        (some (example_zone (example_soa 3600 600 86400) (-1))) (some example_journal_gap)
        (some knot_changesets_t.zeroed) 1 8).map
      (fun r => (r.1, r.2.map fun b => (b.sets.take b.count).map fun c => c.serials))
      = some (Code.KNOT_EOK, some [(1, 2), (7, 8)]) ∧
    ¬ serial_chain [(1, 2), (7, 8)] := by
  refine ⟨by decide, ?_⟩
  unfold serial_chain
  simp

/-- C23, amended: the batch `zones_load_changesets` loads is the run of
journal entries, in insertion order, that begins at the first entry whose key
starts at `sfrom` and ends with the first entry whose target serial is `sto`
(or at the end of the journal). When the records of these entries carry the
serials of their keys, the serial pairs of the batch are those of the keys:
the first changeset has `serial_from = sfrom`, and the batch is a contiguous
chain exactly when these consecutive journal entries are; the entries are not
checked for contiguity. -/
theorem zones_load_changesets_run {α : Type} (ops : rrset_ops α) (fuel : Nat)
    (journal_read : Nat → Option (List Nat)) (zone : knot_zone_t) (j : journal_t)
    (sfrom sto : Nat) (parsed : List (knot_changeset_t α))
    (hz : zone.data.isSome = true) (hbound : 10 * (j.nodes.length + 1) < 2 ^ 64)
    (hs : sfrom < 2 ^ 32)
    (hread : ∀ n ∈ chain_entries j sfrom sto, (journal_read n.id).isSome = true)
    (hparse : zones_changesets_from_binary ops fuel
        ((chain_entries j sfrom sto).map (loaded_changeset 0 journal_read))
      = some (Code.KNOT_EOK, parsed))
    (hkeep : parsed.map (fun c => c.serials)
      = ((chain_entries j sfrom sto).map (loaded_changeset (α := α) 0 journal_read)).map
          fun c => c.serials) :
    ∃ ret b, zones_load_changesets ops fuel journal_read (some zone) (some j)
          (some knot_changesets_t.zeroed) sfrom sto = some (ret, some b) ∧
      (b.sets.take b.count).map (fun c => c.serials)
        = (chain_entries j sfrom sto).map key_serials ∧
      (∀ c, (b.sets.take b.count).head? = some c → c.serial_from = sfrom) ∧
      (serial_chain ((b.sets.take b.count).map fun c => c.serials) ↔
        serial_chain ((chain_entries j sfrom sto).map key_serials)) ∧
      (∃ rest, j.nodes.dropWhile (fun n => decide (ixfrdb_key_from n.id ≠ sfrom))
          = chain_entries j sfrom sto ++ rest ∧
        (∀ n ∈ (chain_entries j sfrom sto).dropLast, ixfrdb_key_to n.id ≠ sto)) := by
  obtain ⟨a1, ha1, hres⟩ := zones_load_changesets_spec ops fuel journal_read zone j sfrom sto
    hz hbound hread
  have hlen := from_binary_length ops fuel _ _ hparse
  simp only [List.length_map] at hlen
  rw [hres, hparse]
  simp only [Option.map_some']
  have hpairs : parsed.map (fun c => c.serials) = (chain_entries j sfrom sto).map key_serials := by
    rw [hkeep, List.map_map]
    rfl
  refine ⟨_, _, rfl, ?_, ?_, ?_, ?_⟩
  · simp only
    rw [← hlen, List.take_left, hpairs]
  · intro c hc
    simp only at hc
    rw [← hlen, List.take_left] at hc
    cases hp : parsed with
    | nil => rw [hp] at hc; simp at hc
    | cons p ps =>
      rw [hp] at hc hpairs
      simp only [List.head?_cons, Option.some.injEq] at hc
      subst hc
      cases he : chain_entries j sfrom sto with
      | nil => rw [he] at hpairs; simp at hpairs
      | cons n ns =>
        rw [he] at hpairs
        simp only [List.map_cons, List.cons.injEq] at hpairs
        have h1 := congrArg Prod.fst hpairs.1
        simp only [knot_changeset_t.serials, key_serials] at h1
        rw [h1]
        exact chain_entries_head j sfrom sto hs n ns he
  · simp only
    rw [← hlen, List.take_left, hpairs]
  · obtain ⟨rest, h1, h2, _, _⟩ := entries_read_stops sto
      ((journal_fetch j sfrom ixfrdb_key_from_cmp).2.getD []) sfrom
    refine ⟨rest, ?_, h2⟩
    have hcur : j.nodes.dropWhile (fun n => decide (ixfrdb_key_from n.id ≠ sfrom))
        = (journal_fetch j sfrom ixfrdb_key_from_cmp).2.getD [] := by
      rw [journal_fetch_cursor]
      congr 1
      funext n
      have := key_from_cmp_zero n.id sfrom hs
      by_cases hk : ixfrdb_key_from n.id = sfrom
      · simp [hk, this.mpr hk]
      · have hne : ¬ ixfrdb_key_from_cmp n.id sfrom = 0 := fun hc => hk (this.mp hc)
        simp [hk, hne]
    rw [hcur]
    exact h1

/-- Witness of C23: the journal 10 → 11, 11 → 10, 10 → 12 read from serial 10
to serial 12; its three entries form a chain. -/
theorem zones_load_changesets_run_witness :
    ∃ ret b, zones_load_changesets toy_ops 8 (journal_read example_journal_cycle)
          (some (example_zone (example_soa 3600 600 86400) (-1))) (some example_journal_cycle)
          (some knot_changesets_t.zeroed) 10 12 = some (ret, some b) ∧
      (b.sets.take b.count).map (fun c => c.serials)
        = (chain_entries example_journal_cycle 10 12).map key_serials ∧
      (∀ c, (b.sets.take b.count).head? = some c → c.serial_from = 10) ∧
      (serial_chain ((b.sets.take b.count).map fun c => c.serials) ↔
        serial_chain ((chain_entries example_journal_cycle 10 12).map key_serials)) ∧
      (∃ rest, example_journal_cycle.nodes.dropWhile
            (fun n => decide (ixfrdb_key_from n.id ≠ 10))
          = chain_entries example_journal_cycle 10 12 ++ rest ∧
        (∀ n ∈ (chain_entries example_journal_cycle 10 12).dropLast,
          ixfrdb_key_to n.id ≠ 12)) :=
  zones_load_changesets_run toy_ops 8 (journal_read example_journal_cycle)
    (example_zone (example_soa 3600 600 86400) (-1)) example_journal_cycle 10 12
    [{ (knot_changeset_t.of_binary [6, 10, 6, 11] 10 11 : knot_changeset_t toy_rrset) with
       soa_from := some (6, 10), soa_to := some (6, 11) },
     { (knot_changeset_t.of_binary [6, 11, 6, 10] 11 10 : knot_changeset_t toy_rrset) with
       soa_from := some (6, 11), soa_to := some (6, 10) },
     { (knot_changeset_t.of_binary [6, 10, 6, 12] 10 12 : knot_changeset_t toy_rrset) with
       soa_from := some (6, 10), soa_to := some (6, 12) }]
    rfl (by decide) (by decide) (by decide) (by decide) (by decide)

theorem replay_of_load {α : Type} (ops : rrset_ops α) (fuel : Nat)
    (journal_read : Nat → Option (List Nat))
    (apply : knot_zone_t → List (knot_changeset_t α) → Code × Option knot_zone_contents_t)
    (zone : knot_zone_t) (j : journal_t) (S P : Nat) (parsed : List (knot_changeset_t α))
    (hz : zone.data.isSome = true) (hbound : 10 * (j.nodes.length + 1) < 2 ^ 64)
    (hP : ¬ P = S)
    (hread : ∀ n ∈ chain_entries j S P, (journal_read n.id).isSome = true)
    (hparse : zones_changesets_from_binary ops fuel
        ((chain_entries j S P).map (loaded_changeset 0 journal_read))
      = some (Code.KNOT_EOK, parsed)) :
    (zones_load_changesets ops fuel journal_read (some zone) (some j)
        (some knot_changesets_t.zeroed) S P).map (fun r =>
      if r.1 = Code.KNOT_EOK ∨ r.1 = Code.KNOT_ERANGE then
        if (r.2.getD knot_changesets_t.zeroed).count > 0 then
          apply zone
            ((r.2.getD knot_changesets_t.zeroed).sets.take
              (r.2.getD knot_changesets_t.zeroed).count)
        else (r.1, zone.contents)
      else (r.1, zone.contents))
      = some (if chain_entries j S P = []
              then (Code.KNOT_ERANGE, zone.contents) else apply zone parsed) := by
  obtain ⟨a1, ha1, hres⟩ := zones_load_changesets_spec ops fuel journal_read zone j S P
    hz hbound hread
  have hlen := from_binary_length ops fuel _ _ hparse
  simp only [List.length_map] at hlen
  rw [hres, hparse]
  simp only [Option.map_some', ne_eq, not_true_eq_false, if_false, Option.getD_some]
  have hcode : ((if ¬ P = last_serial_to S (chain_entries j S P)
      then Code.KNOT_ERANGE else Code.KNOT_EOK) = Code.KNOT_EOK ∨
      (if ¬ P = last_serial_to S (chain_entries j S P)
      then Code.KNOT_ERANGE else Code.KNOT_EOK) = Code.KNOT_ERANGE) := by
    by_cases h : P = last_serial_to S (chain_entries j S P)
    · rw [if_neg (not_not_intro h)]
      exact Or.inl rfl
    · rw [if_pos h]
      exact Or.inr rfl
  simp only [hcode, if_true]
  by_cases hnil : chain_entries j S P = []
  · simp [hnil, last_serial_to, hP]
  · have hpos : (chain_entries j S P).length > 0 := List.length_pos.mpr hnil
    simp only [hnil, if_false, hpos, if_true]
    rw [← hlen, List.take_left]

theorem journal_apply_replay_spec {α : Type} (ops : rrset_ops α) (fuel : Nat)
    (journal_read : Nat → Option (List Nat))
    (apply : knot_zone_t → List (knot_changeset_t α) → Code × Option knot_zone_contents_t)
    (zone : knot_zone_t) (j : journal_t) (S : Nat) (parsed : List (knot_changeset_t α))
    (hz : zone.data.isSome = true) (hbound : 10 * (j.nodes.length + 1) < 2 ^ 64)
    (hread : ∀ n ∈ chain_entries j S ((S + (2 ^ 32 - 1)) % 2 ^ 32),
      (journal_read n.id).isSome = true)
    (hparse : zones_changesets_from_binary ops fuel
        ((chain_entries j S ((S + (2 ^ 32 - 1)) % 2 ^ 32)).map
          (loaded_changeset 0 journal_read))
      = some (Code.KNOT_EOK, parsed)) :
    journal_apply_replay ops fuel journal_read apply (some j) zone S
      = some (if chain_entries j S ((S + (2 ^ 32 - 1)) % 2 ^ 32) = []
              then (Code.KNOT_ERANGE, zone.contents) else apply zone parsed) := by
  have hne : ¬ (S + (2 ^ 32 - 1)) % 2 ^ 32 = S := by omega
  exact replay_of_load ops fuel journal_read apply zone j S _ parsed hz hbound hne hread hparse

/-- C24, counterexample: the zone is at serial 10 and its journal holds, in
this order, 10 → 11, 11 → 10 and 10 → 12. The second entry's `serial_to` is
the starting serial 10, yet reading goes on: `zones_load_changesets` (called
with the target 9) loads all three entries, and `zones_journal_apply` applies
them, leaving the zone at serial 12. -/
theorem zones_journal_apply_reads_past_start :
    (zones_load_changesets toy_ops 8 (journal_read example_journal_cycle)
        (some (example_zone (example_soa 3600 600 86400) (-1))) (some example_journal_cycle)
        (some knot_changesets_t.zeroed) 10 9).map
      (fun r => (r.1, r.2.map fun b => (b.sets.take b.count).map fun c => c.serials))
      = some (Code.KNOT_ERANGE, some [(10, 11), (11, 10), (10, 12)]) ∧
    zones_journal_apply
        (fun zone serial =>
          (journal_apply_replay toy_ops 8 (journal_read example_journal_cycle) example_apply
            (some example_journal_cycle) zone serial).getD (Code.KNOT_ERROR, none))
        (some (example_zone (example_soa 3600 600 86400) (-1)))
      = (Code.KNOT_EOK,
         some { example_zone (example_soa 3600 600 86400) (-1) with
                contents := some { apex_soa := { example_soa 3600 600 86400 with
                                                 serial := 12 } } }) := by
  refine ⟨by decide, by decide⟩

/-- C24, amended: for a zone whose contents are at SOA serial `S`,
`zones_journal_apply` loads the journal from the first entry that starts at
`S`, in insertion order, with the target serial `S - 1` (32 bits): it stops
reading as soon as it has loaded an entry whose `serial_to` equals `S - 1`,
or at the end of the journal, and no entry after that one is loaded or
applied; an entry whose `serial_to` equals `S` does not stop it. The entries
read are unpacked and applied (nothing is applied when none was read). -/
theorem zones_journal_apply_reads_to_predecessor {α : Type} (ops : rrset_ops α) (fuel : Nat)
    (journal_read : Nat → Option (List Nat))
    (apply : knot_zone_t → List (knot_changeset_t α) → Code × Option knot_zone_contents_t)
    (load_and_apply : knot_zone_t → Nat → Code × Option knot_zone_contents_t)
    (zone : knot_zone_t) (contents : knot_zone_contents_t) (j : journal_t) (S : Nat)
    (parsed : List (knot_changeset_t α))
    (hc : zone.contents = some contents)
    (hser : 0 ≤ knot_rdata_soa_serial contents.apex_soa)
    (hS : (knot_rdata_soa_serial contents.apex_soa % (2 ^ 32 : Int)).toNat = S)
    (hz : zone.data.isSome = true) (hbound : 10 * (j.nodes.length + 1) < 2 ^ 64)
    (hread : ∀ n ∈ chain_entries j S ((S + (2 ^ 32 - 1)) % 2 ^ 32),
      (journal_read n.id).isSome = true)
    (hparse : zones_changesets_from_binary ops fuel
        ((chain_entries j S ((S + (2 ^ 32 - 1)) % 2 ^ 32)).map
          (loaded_changeset 0 journal_read))
      = some (Code.KNOT_EOK, parsed))
    (hrep : journal_apply_replay ops fuel journal_read apply (some j) zone S
      = some (load_and_apply zone S)) :
    zones_journal_apply load_and_apply (some zone)
      = ((if chain_entries j S ((S + (2 ^ 32 - 1)) % 2 ^ 32) = []
          then (Code.KNOT_ERANGE, zone.contents) else apply zone parsed).1,
         some { zone with
                contents := (if chain_entries j S ((S + (2 ^ 32 - 1)) % 2 ^ 32) = []
                  then (Code.KNOT_ERANGE, zone.contents) else apply zone parsed).2 }) ∧
    (∃ rest, j.nodes.dropWhile (fun n => decide (ixfrdb_key_from n.id ≠ S))
        = chain_entries j S ((S + (2 ^ 32 - 1)) % 2 ^ 32) ++ rest ∧
      (∀ n ∈ (chain_entries j S ((S + (2 ^ 32 - 1)) % 2 ^ 32)).dropLast,
        ixfrdb_key_to n.id ≠ (S + (2 ^ 32 - 1)) % 2 ^ 32) ∧
      (rest ≠ [] →
        last_serial_to S (chain_entries j S ((S + (2 ^ 32 - 1)) % 2 ^ 32))
          = (S + (2 ^ 32 - 1)) % 2 ^ 32)) := by
  have hSlt : S < 2 ^ 32 := by
    rw [← hS]
    have h1 : 0 ≤ knot_rdata_soa_serial contents.apex_soa % (2 ^ 32 : Int) :=
      Int.emod_nonneg _ (by norm_num)
    have h2 : knot_rdata_soa_serial contents.apex_soa % (2 ^ 32 : Int) < 2 ^ 32 :=
      Int.emod_lt_of_pos _ (by norm_num)
    omega
  have hspec := journal_apply_replay_spec ops fuel journal_read apply zone j S parsed hz hbound
    hread hparse
  rw [hrep] at hspec
  simp only [Option.some.injEq] at hspec
  constructor
  · unfold zones_journal_apply
    have hnot : ¬ knot_rdata_soa_serial contents.apex_soa < 0 := by omega
    simp only [hc, hnot, if_false, hS, hspec]
  · obtain ⟨rest, h1, h2, _, h4⟩ := entries_read_stops ((S + (2 ^ 32 - 1)) % 2 ^ 32)
      ((journal_fetch j S ixfrdb_key_from_cmp).2.getD []) S
    refine ⟨rest, ?_, h2, h4⟩
    have hcur : j.nodes.dropWhile (fun n => decide (ixfrdb_key_from n.id ≠ S))
        = (journal_fetch j S ixfrdb_key_from_cmp).2.getD [] := by
      rw [journal_fetch_cursor]
      congr 1
      funext n
      have := key_from_cmp_zero n.id S hSlt
      by_cases hk : ixfrdb_key_from n.id = S
      · simp [hk, this.mpr hk]
      · have hne : ¬ ixfrdb_key_from_cmp n.id S = 0 := fun hc => hk (this.mp hc)
        simp [hk, hne]
    rw [hcur]
    exact h1

/-- Witness of C24: the zone at serial 10 with the journal 10 → 11, 11 → 10,
10 → 12: no entry ends at serial 9, all three are read and applied. -/
theorem zones_journal_apply_reads_to_predecessor_witness :
    zones_journal_apply example_load_and_apply
        (some (example_zone (example_soa 3600 600 86400) (-1)))
      = ((if chain_entries example_journal_cycle 10 ((10 + (2 ^ 32 - 1)) % 2 ^ 32) = []
          then (Code.KNOT_ERANGE, (example_zone (example_soa 3600 600 86400) (-1)).contents)
          else example_apply (example_zone (example_soa 3600 600 86400) (-1))
            example_cycle_parsed).1,
         some { example_zone (example_soa 3600 600 86400) (-1) with
                contents :=
                  (if chain_entries example_journal_cycle 10 ((10 + (2 ^ 32 - 1)) % 2 ^ 32) = []
                   then (Code.KNOT_ERANGE,
                         (example_zone (example_soa 3600 600 86400) (-1)).contents)
                   else example_apply (example_zone (example_soa 3600 600 86400) (-1))
                     example_cycle_parsed).2 }) :=
  (zones_journal_apply_reads_to_predecessor toy_ops 8 (journal_read example_journal_cycle)
    example_apply example_load_and_apply (example_zone (example_soa 3600 600 86400) (-1))
    { apex_soa := example_soa 3600 600 86400 } example_journal_cycle 10 example_cycle_parsed
    rfl (by decide) (by decide) rfl (by decide) (by decide) (by decide) (by decide)).1

/-! ## Lemmas: storing changesets -/

theorem to_binary_batch {α : Type} (ser : Option α → Option (List Nat))
    (src : List (knot_changeset_t α))
    (h : ∀ ch ∈ src, unserialised ch ∧ serialisable ser ch) :
    ∃ out, zones_changesets_to_binary ser src = (Code.KNOT_EOK, out) ∧
      out.map changeset_kv = src.map (spec_changeset_kv ser) := by
  induction src with
  | nil => exact ⟨[], rfl, rfl⟩
  | cons ch rest ih =>
    obtain ⟨hf, hs⟩ := h ch (List.mem_cons_self _ _)
    obtain ⟨ch1, h1, h2, h3, h4⟩ := changeset_to_binary_concat ser ch hf hs
    obtain ⟨out, ho1, ho2⟩ := ih (fun c hc => h c (List.mem_cons_of_mem _ hc))
    refine ⟨ch1 :: out, ?_, ?_⟩
    · simp only [zones_changesets_to_binary, h1, ho1]
    · simp only [List.map_cons, ho2, List.cons.injEq, and_true]
      unfold changeset_kv spec_changeset_kv
      rw [h2, h3, List.take_length, h4]

theorem sync_keeps_kv (D : Nat) (zone : knot_zone_t) (j : journal_t)
    (dumps : List (knot_zone_contents_t × String)) :
    journal_kv ((zones_zonefile_sync D (some zone) (some j) dumps).2.2.1.getD j)
      = journal_kv j := by
  have hwalk : journal_kv ((journal_walk (some j) (zones_ixfrdb_sync_apply D)).getD j)
      = journal_kv j := by
    simp only [journal_walk, Option.map_some', Option.getD_some, journal_kv, List.map_map]
    apply List.map_congr_left
    intro n _
    obtain ⟨h1, h2⟩ := sync_apply_keeps D n
    simp only [Function.comp_apply, h1, h2]
  obtain ⟨name, contents, data, version⟩ := zone
  cases data with
  | none => rfl
  | some zd =>
    cases contents with
    | none => rfl
    | some contents =>
      unfold zones_zonefile_sync
      simp only
      split_ifs
      · rfl
      · exact hwalk
      · rfl

theorem journal_write_kv (D : Nat) (ret : Code) (j : journal_t) (k : Nat) (data : List Nat) :
    (journal_write D ret j k data).1 = ret ∧
    journal_kv (journal_write D ret j k data).2
      = journal_kv j ++ (if ret = Code.KNOTD_EOK then [(k, data)] else []) := by
  unfold journal_write
  by_cases h : ret = Code.KNOTD_EOK
  · simp [h, journal_kv]
  · simp [h, journal_kv]

theorem store_retry_loop_kv (D : Nat) (write_ret : Nat → Code) (k : Nat) (data : List Nat) :
    ∀ (fuel : Nat) (ret : Code) (st : store_state) (r : Code × store_state),
      store_retry_loop D write_ret k data fuel ret st = some r →
      (r.1 = Code.KNOTD_EOK ∨ r.1 = Code.KNOTD_ERROR) ∧
      (r.1 = Code.KNOTD_EOK →
        journal_kv r.2.j
          = journal_kv st.j ++ (if ret = Code.KNOTD_EOK then [] else [(k, data)])) ∧
      (r.1 = Code.KNOTD_ERROR → journal_kv r.2.j = journal_kv st.j) := by
  intro fuel
  induction fuel with
  | zero => intro ret st r h; simp [store_retry_loop] at h
  | succ n ih =>
    intro ret st r h
    unfold store_retry_loop at h
    by_cases hok : ret = Code.KNOTD_EOK
    · simp only [hok, if_true, Option.some.injEq] at h
      subst h
      simp [hok]
    · simp only [hok, if_false] at h ⊢
      by_cases hag : ret = Code.KNOTD_EAGAIN
      · simp only [hag, if_true] at h
        cases hd : st.zone.data with
        | none => simp [hd] at h
        | some zd =>
          simp only [hd] at h
          have hsync := sync_keeps_kv D st.zone st.j st.dumps
          by_cases hs : (zones_zonefile_sync D (some st.zone) (some st.j) st.dumps).1
              = Code.KNOTD_EOK
          · simp only [hs, ne_eq, not_true_eq_false, if_false] at h
            obtain ⟨i1, i2, i3⟩ := ih _ _ _ h
            obtain ⟨w1, w2⟩ := journal_write_kv D (write_ret st.writes)
              ((zones_zonefile_sync D (some st.zone) (some st.j) st.dumps).2.2.1.getD st.j)
              k data
            simp only at i2 i3
            rw [w1] at i2
            rw [w2, hsync] at i2 i3
            refine ⟨i1, ?_, ?_⟩
            · intro hr
              rw [i2 hr]
              by_cases hw : write_ret st.writes = Code.KNOTD_EOK <;> simp [hw]
            · intro hr
              rw [i3 hr]
              by_cases hw : write_ret st.writes = Code.KNOTD_EOK
              · exfalso
                have hloop := h
                rw [w1, hw] at hloop
                cases n with
                | zero => simp [store_retry_loop] at hloop
                | succ m =>
                  simp only [store_retry_loop, if_true, Option.some.injEq] at hloop
                  rw [← hloop] at hr
                  simp at hr
              · simp [hw]
          · simp only [hs, ne_eq, not_false_eq_true, if_true] at h
            obtain ⟨i1, i2, i3⟩ := ih _ _ _ h
            simp only [hs, if_false] at i2
            simp only at i2 i3
            rw [hsync] at i2 i3
            exact ⟨i1, i2, i3⟩
      · simp only [hag, if_false, Option.some.injEq] at h
        subst h
        simp

theorem store_retry_loop_ok (D : Nat) (write_ret : Nat → Code) (k : Nat) (data : List Nat)
    (fuel : Nat) (st : store_state) :
    store_retry_loop D write_ret k data (fuel + 1) Code.KNOTD_EOK st
      = some (Code.KNOTD_EOK, st) := by
  simp [store_retry_loop]

theorem store_retry_loop_error (D : Nat) (write_ret : Nat → Code) (k : Nat) (data : List Nat)
    (fuel : Nat) (ret : Code) (st : store_state) (r : Code × store_state)
    (h : store_retry_loop D write_ret k data fuel ret st = some r)
    (hr : r.1 = Code.KNOTD_ERROR) : ret ≠ Code.KNOTD_EOK := by
  intro hc
  subst hc
  cases fuel with
  | zero => simp [store_retry_loop] at h
  | succ n =>
    rw [store_retry_loop_ok] at h
    simp only [Option.some.injEq] at h
    rw [← h] at hr
    simp at hr

theorem store_changesets_loop_kv {α : Type} (D : Nat) (write_ret : Nat → Code) (fuel : Nat) :
    ∀ (batch : List (knot_changeset_t α)) (st : store_state)
      (r : Code × List (knot_changeset_t α) × store_state),
      store_changesets_loop D write_ret fuel batch st = some r →
      (r.1 = Code.KNOTD_EOK →
        journal_kv r.2.2.j = journal_kv st.j ++ batch.map changeset_kv) ∧
      (r.1 ≠ Code.KNOTD_EOK → r.1 = Code.KNOTD_ERROR ∧
        ∃ m, m < batch.length ∧
          journal_kv r.2.2.j = journal_kv st.j ++ (batch.take m).map changeset_kv) := by
  intro batch
  induction batch with
  | nil =>
    intro st r h
    simp only [store_changesets_loop, Option.some.injEq] at h
    subst h
    simp
  | cons chs rest ih =>
    intro st r h
    unfold store_changesets_loop at h
    simp only at h
    obtain ⟨w1, w2⟩ := journal_write_kv D (write_ret st.writes) st.j
      (ixfrdb_key_make chs.serial_from chs.serial_to) ((chs.data.getD []).take chs.size)
    cases h0 : store_retry_loop D write_ret (ixfrdb_key_make chs.serial_from chs.serial_to)
        ((chs.data.getD []).take chs.size) fuel
        (journal_write D (write_ret st.writes) st.j
          (ixfrdb_key_make chs.serial_from chs.serial_to)
          ((chs.data.getD []).take chs.size)).1
        { st with
          j := (journal_write D (write_ret st.writes) st.j
            (ixfrdb_key_make chs.serial_from chs.serial_to)
            ((chs.data.getD []).take chs.size)).2
          writes := st.writes + 1 } with
    | none => simp [h0] at h
    | some r0 =>
      rw [h0] at h
      obtain ⟨k1, k2, k3⟩ := store_retry_loop_kv D write_ret _ _ _ _ _ _ h0
      simp only at k2 k3
      rw [w2, w1] at k2
      rw [w2] at k3
      by_cases hr0 : r0.1 = Code.KNOTD_EOK
      · simp only [hr0, ne_eq, not_true_eq_false, if_false] at h
        have hkv : journal_kv r0.2.j = journal_kv st.j ++ [changeset_kv chs] := by
          rw [k2 hr0]
          unfold changeset_kv
          by_cases hw : write_ret st.writes = Code.KNOTD_EOK <;> simp [hw]
        cases h1 : store_changesets_loop D write_ret fuel rest r0.2 with
        | none => simp [h1] at h
        | some u =>
          rw [h1] at h
          simp only [Option.map_some', Option.some.injEq] at h
          subst h
          obtain ⟨i1, i2⟩ := ih r0.2 u h1
          simp only
          constructor
          · intro hu
            rw [i1 hu, hkv]
            simp
          · intro hu
            obtain ⟨e1, m, hm, e2⟩ := i2 hu
            refine ⟨e1, m + 1, by simp only [List.length_cons]; omega, ?_⟩
            rw [e2, hkv]
            simp
      · have herr : r0.1 = Code.KNOTD_ERROR := by
          rcases k1 with h1 | h1
          · exact absurd h1 hr0
          · exact h1
        simp only [hr0, ne_eq, not_false_eq_true, if_true, Option.some.injEq] at h
        subst h
        have hne := store_retry_loop_error D write_ret _ _ _ _ _ _ h0 herr
        rw [w1] at hne
        simp only
        constructor
        · intro hc
          simp at hc
        · intro _
          refine ⟨trivial, 0, by simp, ?_⟩
          rw [k3 herr]
          simp [hne]

theorem store_changesets_loop_all_ok {α : Type} (D : Nat) (write_ret : Nat → Code)
    (fuel : Nat) (hall : ∀ i, write_ret i = Code.KNOTD_EOK) :
    ∀ (batch : List (knot_changeset_t α)) (st : store_state),
      store_changesets_loop D write_ret (fuel + 1) batch st
        = some (Code.KNOTD_EOK,
                batch.map (fun chs => { chs with data := none, size := 0 }),
                { st with
                  j := { nodes := st.j.nodes ++
                    (batch.map changeset_kv).map (journal_entry D) }
                  writes := st.writes + batch.length }) := by
  intro batch
  induction batch with
  | nil =>
    intro st
    simp [store_changesets_loop]
  | cons chs rest ih =>
    intro st
    unfold store_changesets_loop
    simp only [hall, journal_write, if_true, store_retry_loop_ok, ne_eq, not_true_eq_false,
      if_false, ih, Option.map_some', List.map_cons, List.length_cons]
    simp only [Option.some.injEq, Prod.mk.injEq, true_and, store_state.mk.injEq, and_true]
    refine ⟨?_, by omega⟩
    simp [journal_entry, changeset_kv]

theorem sync_keeps_conf (D : Nat) (zone : knot_zone_t) (zd : zonedata_t) (j : journal_t)
    (dumps : List (knot_zone_contents_t × String)) (hd : zone.data = some zd) :
    (((zones_zonefile_sync D (some zone) (some j) dumps).2.1.getD zone).data.map
      fun d => d.conf.dbsync_timeout) = some zd.conf.dbsync_timeout := by
  obtain ⟨name, contents, data, version⟩ := zone
  simp only at hd
  subst hd
  cases contents with
  | none => rfl
  | some contents =>
    unfold zones_zonefile_sync
    simp only
    split_ifs <;> rfl

/-! ## Storing changesets: writes and out-of-space recovery -/

/-- C25: for every batch of changesets not yet serialised whose records all
serialise, a zone with zone data and a journal whose writes all succeed,
`zones_store_changesets` returns ok after exactly one `journal_write` per
changeset; the journal receives, in batch order, one entry per changeset with
key `ixfrdb_key_make(serial_from, serial_to)`, the default flags and the
changeset's serialised binary as value; zone, scheduler and dumps are
untouched. For the batch [10 → 11, 11 → 12] the keys are `(11 << 32) | 10`
and `(12 << 32) | 11`. -/
theorem zones_store_changesets_writes {α : Type} (ser : Option α → Option (List Nat))
    (D : Nat) (write_ret : Nat → Code) (fuel : Nat) (src : List (knot_changeset_t α))
    (zone : knot_zone_t) (j : journal_t) (sched : evsched_t)
    (dumps : List (knot_zone_contents_t × String))
    (hsrc : ∀ ch ∈ src, unserialised ch ∧ serialisable ser ch)
    (hz : zone.data.isSome = true) (hall : ∀ i, write_ret i = Code.KNOTD_EOK) :
    ∃ r, zones_store_changesets ser D write_ret (fuel + 1) (some src) (some zone) (some j)
          sched dumps = some r ∧
      r.ret = Code.KNOTD_EOK ∧ r.writes = src.length ∧
      r.j = some { nodes := j.nodes ++ (src.map (spec_changeset_kv ser)).map (journal_entry D) } ∧
      r.zone = some zone ∧ r.sched = sched ∧ r.dumps = dumps ∧
      (∀ c1 c2, src = [c1, c2] → c1.serial_from = 10 → c1.serial_to = 11 →
        c2.serial_from = 11 → c2.serial_to = 12 →
        (src.map (spec_changeset_kv ser)).map Prod.fst
          = [(11 <<< 32) ||| 10, (12 <<< 32) ||| 11]) := by
  obtain ⟨out, ho1, ho2⟩ := to_binary_batch ser src hsrc
  obtain ⟨zd, hzd⟩ := Option.isSome_iff_exists.mp hz
  have hlen : out.length = src.length := by
    have := congrArg List.length ho2
    simpa using this
  unfold zones_store_changesets
  simp only [ho1, Code.is_eok, hzd]
  rw [store_changesets_loop_all_ok D write_ret fuel hall]
  simp only [decide_True, Bool.true_or, Bool.not_true, Bool.false_eq_true, if_false,
    Option.map_some']
  refine ⟨_, rfl, rfl, ?_, ?_, rfl, rfl, rfl, ?_⟩
  · simp only [Nat.zero_add]
    exact hlen
  · simp only [ho2]
  · intro c1 c2 hs h1 h2 h3 h4
    subst hs
    simp only [List.map_cons, List.map_nil, spec_changeset_kv, h1, h2, h3, h4]
    decide

/-- Witness of C25: the example batch [10 → 11, 11 → 12] written to an empty
journal. -/
theorem zones_store_changesets_writes_witness :
    ∃ r, zones_store_changesets toy_serialize example_dirty write_ok (2 + 1) (some toy_batch)
          (some example_zone_syncing) (some { nodes := [] }) example_sched_sync [] = some r ∧
      r.ret = Code.KNOTD_EOK ∧ r.writes = toy_batch.length ∧
      r.j = some { nodes := ([] : List journal_node_t) ++
        (toy_batch.map (spec_changeset_kv toy_serialize)).map (journal_entry example_dirty) } ∧
      r.zone = some example_zone_syncing ∧ r.sched = example_sched_sync ∧ r.dumps = [] ∧
      (∀ c1 c2, toy_batch = [c1, c2] → c1.serial_from = 10 → c1.serial_to = 11 →
        c2.serial_from = 11 → c2.serial_to = 12 →
        (toy_batch.map (spec_changeset_kv toy_serialize)).map Prod.fst
          = [(11 <<< 32) ||| 10, (12 <<< 32) ||| 11]) :=
  zones_store_changesets_writes toy_serialize example_dirty write_ok 2 toy_batch
    example_zone_syncing { nodes := [] } example_sched_sync []
    (fun ch hch => by
      simp only [toy_batch, List.mem_cons, List.mem_singleton, List.not_mem_nil, or_false] at hch
      rcases hch with rfl | rfl <;>
        simp [unserialised, serialisable, knot_changeset_t.fresh, toy_serialize])
    rfl (fun _ => rfl)

/-- C26: in `zones_store_changesets`, for a batch that serialises and a zone
with zone data. (1) When the write of an entry reports `KNOTD_EAGAIN` and the
zone has a sync timer, the timer is cancelled and `zones_zonefile_sync` is
run; when the sync succeeds the timer is re-armed at `dbsync_timeout * 1000`
ms (a product that fits an `int`) and the same key and value are written
again. (2) When the sync fails the
store returns `KNOTD_ERROR`, and (3) so it does on any other write error.
(4) Whenever the store returns ok, the journal holds the keys and values it
held before followed by those of the whole batch, in batch order, as in a run
without out-of-space error; (5) when it does not, it returns `KNOTD_ERROR`
and only a proper prefix of the batch has been written. -/
theorem zones_store_changesets_retry {α : Type} (ser : Option α → Option (List Nat))
    (D : Nat) (write_ret : Nat → Code) (fuel : Nat) (src : List (knot_changeset_t α))
    (zone : knot_zone_t) (j : journal_t) (sched : evsched_t)
    (dumps : List (knot_zone_contents_t × String)) (r : store_result α)
    (hsrc : ∀ ch ∈ src, unserialised ch ∧ serialisable ser ch)
    (hz : zone.data.isSome = true)
    (h : zones_store_changesets ser D write_ret fuel (some src) (some zone) (some j)
      sched dumps = some r) :
    (∀ (k : Nat) (data : List Nat) (n : Nat) (st : store_state) (zd : zonedata_t) (tmr : Nat),
      st.zone.data = some zd → zd.ixfr_dbsync = some tmr →
      0 ≤ zd.conf.dbsync_timeout → zd.conf.dbsync_timeout * 1000 < 2 ^ 31 →
      (zones_zonefile_sync D (some st.zone) (some st.j) st.dumps).1 = Code.KNOTD_EOK →
      store_retry_loop D write_ret k data (n + 1) Code.KNOTD_EAGAIN st
        = store_retry_loop D write_ret k data n (write_ret st.writes)
            { zone := (zones_zonefile_sync D (some st.zone) (some st.j) st.dumps).2.1.getD
                st.zone,
              j := (journal_write D (write_ret st.writes)
                ((zones_zonefile_sync D (some st.zone) (some st.j) st.dumps).2.2.1.getD st.j)
                k data).2,
              sched := evsched_schedule (evsched_cancel st.sched tmr) (some tmr)
                (zd.conf.dbsync_timeout * 1000).toNat,
              dumps := (zones_zonefile_sync D (some st.zone) (some st.j) st.dumps).2.2.2,
              writes := st.writes + 1 }) ∧
    (∀ (k : Nat) (data : List Nat) (n : Nat) (st : store_state) (zd : zonedata_t),
      st.zone.data = some zd →
      (zones_zonefile_sync D (some st.zone) (some st.j) st.dumps).1 ≠ Code.KNOTD_EOK →
      (zones_zonefile_sync D (some st.zone) (some st.j) st.dumps).1 ≠ Code.KNOTD_EAGAIN →
      ∃ st1, store_retry_loop D write_ret k data (n + 2) Code.KNOTD_EAGAIN st
          = some (Code.KNOTD_ERROR, st1) ∧ journal_kv st1.j = journal_kv st.j ∧
        st1.writes = st.writes) ∧
    (∀ (k : Nat) (data : List Nat) (n : Nat) (ret : Code) (st : store_state),
      ret ≠ Code.KNOTD_EOK → ret ≠ Code.KNOTD_EAGAIN →
      store_retry_loop D write_ret k data (n + 1) ret st = some (Code.KNOTD_ERROR, st)) ∧
    (r.ret = Code.KNOTD_EOK →
      r.j.map journal_kv = some (journal_kv j ++ src.map (spec_changeset_kv ser))) ∧
    (r.ret ≠ Code.KNOTD_EOK → r.ret = Code.KNOTD_ERROR ∧
      ∃ m, m < src.length ∧
        r.j.map journal_kv = some (journal_kv j ++ (src.take m).map (spec_changeset_kv ser))) := by
  refine ⟨?_, ?_, ?_, ?_⟩
  · intro k data n st zd tmr hd ht h0 h1 hs
    have hb : int_to_uint32 (zd.conf.dbsync_timeout * 1000)
        = (zd.conf.dbsync_timeout * 1000).toNat :=
      int_to_uint32_of_bounds _ (by omega) (by omega)
    have hconf := sync_keeps_conf D st.zone zd st.j st.dumps hd
    rw [store_retry_loop]
    simp only [hd, ht, hs, hconf, Option.getD_some]
    simp only [if_true, (journal_write_kv D (write_ret st.writes) _ k data).1, hb]
    simp
  · intro k data n st zd hd hs hs2
    rw [store_retry_loop]
    simp only [hd, hs, ne_eq, not_false_eq_true, if_true]
    rw [store_retry_loop]
    simp only [hs, hs2, if_false]
    exact ⟨_, rfl, sync_keeps_kv D st.zone st.j st.dumps, rfl⟩
  · intro k data n ret st h1 h2
    rw [store_retry_loop]
    simp [h1, h2]
  · obtain ⟨out, ho1, ho2⟩ := to_binary_batch ser src hsrc
    obtain ⟨zd, hzd⟩ := Option.isSome_iff_exists.mp hz
    unfold zones_store_changesets at h
    simp only [ho1, Code.is_eok, hzd, decide_True, Bool.true_or, Bool.not_true,
      Bool.false_eq_true, if_false] at h
    cases hl : store_changesets_loop D write_ret fuel out
        { zone := zone, j := j, sched := sched, dumps := dumps, writes := 0 } with
    | none => simp [hl] at h
    | some u =>
      rw [hl] at h
      simp only [Option.map_some', Option.some.injEq] at h
      subst h
      obtain ⟨l1, l2⟩ := store_changesets_loop_kv D write_ret fuel out _ u hl
      simp only at l1 l2 ⊢
      constructor
      · intro hr
        rw [Option.map_some', l1 hr, ho2]
      · intro hr
        obtain ⟨e1, m, hm, e2⟩ := l2 hr
        have hlen : out.length = src.length := by
          have := congrArg List.length ho2
          simpa using this
        refine ⟨e1, m, by omega, ?_⟩
        rw [Option.map_some', e2]
        have ht : (out.take m).map changeset_kv = (src.take m).map (spec_changeset_kv ser) := by
          rw [List.map_take, List.map_take, ho2]
        rw [ht]

/-- Witness of C26: the example batch [10 → 11, 11 → 12] written to an empty
journal whose second write reports out of space once. -/
theorem zones_store_changesets_retry_witness :
    zones_store_changesets toy_serialize example_dirty write_again_once 3 (some toy_batch)
        (some example_zone_syncing) (some { nodes := [] }) example_sched_sync []
      = some example_store_retried ∧
    example_store_retried.j.map journal_kv
      = some (journal_kv { nodes := [] } ++ toy_batch.map (spec_changeset_kv toy_serialize)) :=
  ⟨by decide,
   (zones_store_changesets_retry toy_serialize example_dirty write_again_once 3 toy_batch
      example_zone_syncing { nodes := [] } example_sched_sync [] example_store_retried
      (fun ch hch => by
        simp only [toy_batch, List.mem_cons, List.mem_singleton, List.not_mem_nil,
          or_false] at hch
        rcases hch with rfl | rfl <;>
          simp [unserialised, serialisable, knot_changeset_t.fresh, toy_serialize])
      rfl (by decide)).2.2.2.1 rfl⟩

end Knot
